import Mathlib

/-!
# Session and token lifecycle of football-api

A shallow embedding of `internal/usecase/auth_usecase.go`, `internal/common/error.go`,
`internal/repository/users_repo.go`, `internal/model/converter/auth_converter.go`,
`internal/delivery/http/auth_controller.go` and
`internal/delivery/http/middleware/auth_middleware.go`, followed by one of
`internal/usecase/matches_usecase.go`, `internal/model/matches_model.go`,
`internal/model/converter/matches_converter.go` and `internal/repository/repository.go`.

Conventions of the embedding.

* Time is an `Int` count of nanoseconds (the unit of Go's `time.Duration`); every use-case call
  runs at one instant `now`, which stands for each `time.Now()` of that call and for the clock
  of the key-value store.
* The Redis client, the JWT library, bcrypt, the struct validator, the relational database and
  the log producer are external collaborators.  Redis and the JWT library are modelled as data
  (`Store`, `TokenString`); the others are parameters (`Deps`) or fault flags (`Faults`).
* The store keeps for each key the instant at which it expires: an entry written at instant
  `t` with the time to live the client sends (`PX` milliseconds or `EX` seconds for `Set`, whole
  seconds for `Expire`) is alive exactly at the instants before `t` plus that time to live, and
  `TTL` replies whole seconds, rounded as the server rounds them.  The clock of the store is the
  clock of the call (the server's own millisecond clock is left out).
  A command that fails with a transport fault is taken not to have been applied.
* A use-case call threads the store explicitly: it returns the store it leaves behind together
  with its Go result.  The matches use case threads the table of matches in the same way.
* A Go pointer is an `Option`; code that dereferences a pointer returns `Except Panic`.
-/

namespace FootballApi

/-! ## `common/error.go` -/

/-- ErrorDetail of `common/error.go`. -/
structure ErrorDetail where
  Field : String
  Message : String
  deriving DecidableEq, Repr

/-- AppError of `common/error.go`; `Timestamp` is the instant of construction. -/
structure AppError where
  Code : String
  Message : String
  Details : List ErrorDetail
  Timestamp : Int
  HTTPCode : Nat
  deriving DecidableEq, Repr

deriving instance DecidableEq for Except

/-- NewAppError: a fresh error without details. -/
def NewAppError (now : Int) (code message : String) (httpCode : Nat) : AppError :=
  { Code := code, Message := message, HTTPCode := httpCode, Timestamp := now, Details := [] }

/-- WithDetail appends one detail. -/
def AppError.WithDetail (e : AppError) (field message : String) : AppError :=
  { e with Details := e.Details ++ [{ Field := field, Message := message }] }

/-- WithDetails appends several details. -/
def AppError.WithDetails (e : AppError) (details : List ErrorDetail) : AppError :=
  { e with Details := e.Details ++ details }

def ErrInvalidInput (now : Int) (message : String) : AppError :=
  NewAppError now "INVALID_INPUT" message 400

/-- ErrNotFound formats its argument as `"%s not found"`. -/
def ErrNotFound (now : Int) (resource : String) : AppError :=
  NewAppError now "NOT_FOUND" (resource ++ " not found") 404

def ErrUnauthorized (now : Int) (message : String) : AppError :=
  NewAppError now "UNAUTHORIZED" message 401

def ErrInternalServer (now : Int) (message : String) : AppError :=
  NewAppError now "INTERNAL_SERVER_ERROR" message 500

def ErrMultipleValidation (now : Int) (errors : List ErrorDetail) : AppError :=
  (NewAppError now "VALIDATION_ERROR" "Validation failed" 400).WithDetails errors

/-- ErrorResponse of `common/error.go`: the part of an error that is serialised to the client. -/
structure ErrorResponse where
  Code : String
  Message : String
  Details : List ErrorDetail
  deriving DecidableEq, Repr

/-- StandardErrorResponse of `common/error.go`. -/
structure StandardErrorResponse where
  Success : Bool
  Error : ErrorResponse
  Timestamp : Int
  deriving DecidableEq, Repr

def NewStandardErrorResponse (err : AppError) : StandardErrorResponse :=
  { Success := false,
    Error := { Code := err.Code, Message := err.Message, Details := err.Details },
    Timestamp := err.Timestamp }

/-! ## Token codec (`github.com/golang-jwt/jwt/v5`, external) -/

/-- The `alg` header of a token: the HMAC family, or anything else (`none`, RSA, ECDSA, ...). -/
inductive SigningMethod where
  | HS256
  | HS384
  | HS512
  | other (alg : String)
  deriving DecidableEq, Repr

/-- The type assertion `token.Method.(*jwt.SigningMethodHMAC)` of the key function. -/
def SigningMethod.isHMAC : SigningMethod → Bool
  | .HS256 => true
  | .HS384 => true
  | .HS512 => true
  | .other _ => false

/-- UserClaims. The declaration of `model.UserClaims` is not among the sources; the fields are
those written by `GenerateToken` and read by `ValidateToken`, plus the `nbf` claim of the embedded
`jwt.RegisteredClaims`, which the parser also checks. Instants are nanoseconds. -/
structure UserClaims where
  ID : String
  Role : String
  TokenID : String
  ExpiresAt : Option Int
  NotBefore : Option Int
  Issuer : String
  deriving DecidableEq, Repr

/-- A parsed token. The MAC is symbolic: `sig` names the method and key under which the signature
bytes verify, `none` when they verify under nothing. -/
structure Jwt where
  method : SigningMethod
  claims : UserClaims
  sig : Option (SigningMethod × String)
  deriving DecidableEq, Repr

/-- A Go string as the JWT parser sees it: either it is the compact form of a token carrying
`UserClaims`, or it is not (`malformed`, with its characters). -/
inductive TokenString where
  | malformed (raw : String)
  | signed (jwt : Jwt)
  deriving DecidableEq, Repr

/-- JWTConfig. The declaration of `model.JWTConfig` is not among the sources; these are the
fields the use case reads. Durations are nanoseconds. -/
structure JWTConfig where
  SecretKey : String
  Issuer : String
  AccessExpiry : Int
  RefreshExpiry : Int
  deriving DecidableEq, Repr

def second : Int := 1000000000

def minute : Int := 60 * second

/-- The instant `jwt.NewNumericDate` keeps: the library truncates to `jwt.TimePrecision`,
one second. -/
def NewNumericDate (t : Int) : Int := t - t % second

/-- Token.SignedString applied to `jwt.NewWithClaims(method, claims)` with an HMAC key. -/
def SignedString (method : SigningMethod) (claims : UserClaims) (key : String) : TokenString :=
  .signed { method := method, claims := claims, sig := some (method, key) }

/-- The claims validation of the parser: `exp` must be after `now`, `nbf` must not be after it;
an absent claim is not checked. -/
def claimsValid (now : Int) (c : UserClaims) : Bool :=
  (match c.ExpiresAt with
    | none => true
    | some exp => decide (now < exp)) &&
  (match c.NotBefore with
    | none => true
    | some nbf => decide (nbf ≤ now))

/-- The `exp` check of the parser fails: the claim is present and `now` is not before it. -/
def UserClaims.expired (now : Int) (c : UserClaims) : Bool :=
  match c.ExpiresAt with
  | none => false
  | some exp => !decide (now < exp)

/-- The `nbf` check of the parser fails: the claim is present and `now` is before it. -/
def UserClaims.notValidYet (now : Int) (c : UserClaims) : Bool :=
  match c.NotBefore with
  | none => false
  | some nbf => !decide (nbf ≤ now)

/-- The errors of `jwt.ParseWithClaims`: the string is no token, the key function returned an
error, the signature does not verify, or the claims are invalid (with the checks that failed:
`ErrTokenExpired`, `ErrTokenNotValidYet`). -/
inductive JwtError where
  | ErrTokenMalformed
  | ErrTokenUnverifiable
  | ErrTokenSignatureInvalid
  | ErrTokenInvalidClaims (expired notValidYet : Bool)
  deriving DecidableEq, Repr

/-- The key function `ValidateToken` passes to the parser: the configured key for a method of the
HMAC family; for any other method it returns `jwt.ErrSignatureInvalid` (here `none`) and hands
out no key. -/
def keyFunc (secretKey : String) (method : SigningMethod) : Option String :=
  if method.isHMAC then some secretKey else none

/-- The call `jwt.ParseWithClaims` of `ValidateToken`: the string is split into a token, the key
function is asked for the key, the signature is verified under it, the claims are validated at
`now`. -/
def ParseWithClaims (secretKey : String) (now : Int) (tokenString : TokenString) :
    Except JwtError UserClaims :=
  match tokenString with
  | .malformed _ => .error .ErrTokenMalformed
  | .signed t =>
    match keyFunc secretKey t.method with
    | none => .error .ErrTokenUnverifiable
    | some key =>
      if t.sig = some (t.method, key) then
        if claimsValid now t.claims then .ok t.claims
        else .error (.ErrTokenInvalidClaims (t.claims.expired now) (t.claims.notValidYet now))
      else .error .ErrTokenSignatureInvalid

/-! ## Session store (`github.com/redis/go-redis/v9`, external) -/

/-- A Redis value: a string (seen through the JWT parser) or a set of strings. -/
inductive RedisValue where
  | str (v : TokenString)
  | set (members : List String)
  deriving DecidableEq, Repr

/-- A stored entry: the value and the instant at which the key expires, if it has one. -/
structure Entry where
  value : RedisValue
  expireAt : Option Int
  deriving DecidableEq, Repr

/-- The store: an association list, the first binding of a key is the one in force. -/
abbrev Store := List (String × Entry)

/-- Errors of a store command: the reply `redis.Nil` of a `GET` on an absent key, a command
against a key of the wrong type, or a store that could not be reached. -/
inductive RedisError where
  | Nil
  | wrongType
  | unavailable
  deriving DecidableEq, Repr

def Entry.live (now : Int) (e : Entry) : Bool :=
  match e.expireAt with
  | none => true
  | some t => decide (now < t)

/-- The entry bound to `key` that is still alive at `now`. -/
def Store.lookup (s : Store) (now : Int) (key : String) : Option Entry :=
  match s.find? (fun kv => kv.1 == key) with
  | none => none
  | some kv => if kv.2.live now then some kv.2 else none

/-- Removal of every binding of `key`. -/
def Store.erase (s : Store) (key : String) : Store :=
  s.filter (fun kv => !(kv.1 == key))

/-- The store without any key. -/
def Store.empty : Store := []

/-- The command `DEL key`. -/
def Store.Del (s : Store) (key : String) : Store := s.erase key

/-- The value of go-redis `KeepTTL`. -/
def KeepTTL : Int := -1

/-- One millisecond (`time.Millisecond`). -/
def millisecond : Int := 1000000

/-- usePrecise of go-redis: the duration has a part below one second. -/
def usePrecise (dur : Int) : Bool := dur < second || dur % second != 0

/-- formatMs of go-redis: the duration in whole milliseconds (Go division truncates), `1` for a
positive duration below one millisecond. -/
def formatMs (dur : Int) : Int :=
  if 0 < dur ∧ dur < millisecond then 1 else Int.tdiv dur millisecond

/-- formatSec of go-redis: the duration in whole seconds (Go division truncates), `1` for a
positive duration below one second. -/
def formatSec (dur : Int) : Int :=
  if 0 < dur ∧ dur < second then 1 else Int.tdiv dur second

/-- The time to live go-redis `Set` sends for a positive expiration: `PX` with `formatMs` when the
duration has a part below one second, `EX` with `formatSec` otherwise. -/
def setLifetime (expiration : Int) : Int :=
  if usePrecise expiration then formatMs expiration * millisecond
  else formatSec expiration * second

/-- The command `SET key value` as go-redis `Set` sends it: with an expiry (`PX` or `EX`) when the
expiration is positive, keeping the old expiry when it is `KeepTTL`, and without expiry
otherwise. -/
def Store.Set (s : Store) (now : Int) (key : String) (value : TokenString) (expiration : Int) :
    Store :=
  let expireAt : Option Int :=
    if 0 < expiration then some (now + setLifetime expiration)
    else if expiration = KeepTTL then
      match s.lookup now key with
      | some e => e.expireAt
      | none => none
    else none
  (key, { value := .str value, expireAt := expireAt }) :: s.erase key

/-- The command `GET key`. -/
def Store.Get (s : Store) (now : Int) (key : String) : Except RedisError TokenString :=
  match s.lookup now key with
  | none => .error .Nil
  | some e =>
    match e.value with
    | .str v => .ok v
    | .set _ => .error .wrongType

/-- The command `EXISTS key`: the number of the given keys that exist. -/
def Store.Exists (s : Store) (now : Int) (key : String) : Nat :=
  match s.lookup now key with
  | none => 0
  | some _ => 1

/-- The command `TTL key` as go-redis returns it: the server replies the remaining life in whole
seconds, rounded from the remaining milliseconds as `(ms + 500) / 1000`, and go-redis multiplies
the reply by `time.Second`; the replies `-1` (a key without expiry) and `-2` (an absent key) are
returned as such. -/
def Store.TTL (s : Store) (now : Int) (key : String) : Int :=
  match s.lookup now key with
  | none => -2
  | some e =>
    match e.expireAt with
    | none => -1
    | some t => ((t - now) / millisecond + 500) / 1000 * second

/-- The command `SADD key member`. -/
def Store.SAdd (s : Store) (now : Int) (key member : String) : Except RedisError Store :=
  match s.lookup now key with
  | none => .ok ((key, { value := .set [member], expireAt := none }) :: s.erase key)
  | some e =>
    match e.value with
    | .str _ => .error .wrongType
    | .set ms =>
      .ok ((key, { value := .set (if member ∈ ms then ms else ms ++ [member]),
                   expireAt := e.expireAt }) :: s.erase key)

/-- The command `EXPIRE key seconds` as go-redis `Expire` sends it, with `formatSec` of the
expiration; a non-positive number of seconds deletes the key. -/
def Store.Expire (s : Store) (now : Int) (key : String) (expiration : Int) : Store :=
  match s.lookup now key with
  | none => s
  | some e =>
    if 0 < formatSec expiration then
      (key, { e with expireAt := some (now + formatSec expiration * second) }) :: s.erase key
    else s.erase key

/-! ## Collaborators -/

/-- The pure external functions the use case calls. -/
structure Deps where
  /-- The `email` tag of the struct validator. -/
  isEmail : String → Bool
  /-- Whether `bcrypt.CompareHashAndPassword hash password` returns no error. -/
  CompareHashAndPassword : String → String → Bool
  /-- The field errors the struct validator reports for a `model.RefreshTokenRequest` with the
  given `ID` (the declaration of that type, with its tags, is not among the sources). -/
  validateRefreshTokenRequest : String → List ErrorDetail
  /-- The characters of the compact serialisation of a token. -/
  compact : Jwt → String

/-- The external calls of one use-case call that fail: `true` makes the call return an error. -/
structure Faults where
  dbFind : Bool
  signAccess : Bool
  signRefresh : Bool
  redisExists : Bool
  redisGet : Bool
  redisTTL : Bool
  redisSetUsed : Bool
  redisSetToken : Bool
  redisSAdd : Bool
  redisExpire : Bool
  redisDelToken : Bool
  redisDelUsed : Bool
  commit : Bool
  send : Bool
  deriving DecidableEq, Repr

/-- Every collaborator available. -/
def Faults.none : Faults :=
  { dbFind := false, signAccess := false, signRefresh := false, redisExists := false,
    redisGet := false, redisTTL := false, redisSetUsed := false, redisSetToken := false,
    redisSAdd := false, redisExpire := false, redisDelToken := false, redisDelUsed := false,
    commit := false, send := false }

/-- What one use-case call takes from its surroundings: the instant at which it runs, the value
`uuid.New().String()` returns to it, and the collaborators that fail during it. -/
structure Call where
  now : Int
  uuid : String
  faults : Faults
  deriving DecidableEq, Repr

/-! ## Entities, requests and responses -/

/-- The fields of `entity.User` the use case reads. -/
structure User where
  ID : String
  Username : String
  Email : String
  PasswordHash : String
  Role : String
  IsActive : Bool
  deriving DecidableEq, Repr

structure Auth where
  ID : String
  Role : String
  deriving DecidableEq, Repr

structure LoginRequest where
  Email : String
  Password : String
  deriving DecidableEq, Repr

structure UserResponse where
  ID : String
  Username : String
  Email : String
  Role : String
  IsActive : Bool
  CreatedAt : String
  UpdatedAt : String
  DeletedAt : Option String
  deriving DecidableEq, Repr

structure LoginResponse where
  User : UserResponse
  AccessToken : TokenString
  RefreshTokenID : String
  AccessExpiry : Int
  deriving DecidableEq, Repr

/-- RefreshTokenRequest: the family id read from the cookie. -/
structure RefreshTokenRequest where
  ID : String
  deriving DecidableEq, Repr

structure RefreshTokenResponse where
  RefreshTokenID : String
  AccessToken : TokenString
  AccessExpiry : Int
  deriving DecidableEq, Repr

structure LogoutRequest where
  RefreshTokenID : String
  deriving DecidableEq, Repr

/-- The seconds since the epoch of an instant (`time.Time.Unix`). -/
def Unix (t : Int) : Int := t / second

def ToUserResponse (user : User) : UserResponse :=
  { ID := user.ID, Email := user.Email, Username := user.Username, Role := user.Role,
    IsActive := user.IsActive, CreatedAt := "", UpdatedAt := "", DeletedAt := none }

def ToLoginResponse (user : User) (accessToken : TokenString) (refreshTokenID : String)
    (accessExpiry : Int) : LoginResponse :=
  { User := ToUserResponse user, AccessToken := accessToken, RefreshTokenID := refreshTokenID,
    AccessExpiry := Unix accessExpiry }

def ToRefreshTokenResponse (refreshTokenID : String) (accessToken : TokenString)
    (accessExpiry : Int) : RefreshTokenResponse :=
  { RefreshTokenID := refreshTokenID, AccessToken := accessToken,
    AccessExpiry := Unix accessExpiry }

/-! ## `common.ValidateStruct` -/

/-- The field errors of the validator on a `LoginRequest` (`email`: `required,email`;
`password`: `required,min=8`), each with the message of `getValidationMessage`; a field stops at
its first failing tag. -/
def loginRequestErrors (d : Deps) (request : LoginRequest) : List ErrorDetail :=
  (if request.Email = "" then [{ Field := "email", Message := "email is required" }]
   else if !d.isEmail request.Email then
     [{ Field := "email", Message := "email must be a valid email address" }]
   else []) ++
  (if request.Password = "" then [{ Field := "password", Message := "password is required" }]
   else if request.Password.length < 8 then
     [{ Field := "password", Message := "password must be at least 8 characters long" }]
   else [])

/-- ValidateStruct: `none` when the validator reports nothing, otherwise the validation error
with the collected details. -/
def ValidateStruct (now : Int) (fieldErrors : List ErrorDetail) : Option AppError :=
  if fieldErrors.isEmpty then none else some (ErrMultipleValidation now fieldErrors)

/-! ## `repository/users_repo.go` -/

/-- Errors of a database query. -/
inductive DbError where
  | ErrRecordNotFound
  | other
  deriving DecidableEq, Repr

/-- FindByEmail: the first row of the users table with the given email. -/
def FindByEmail (fails : Bool) (users : List User) (email : String) : Except DbError User :=
  if fails then .error .other
  else
    match users.find? (fun u => u.Email == email) with
    | some u => .ok u
    | none => .error .ErrRecordNotFound

/-! ## `usecase/auth_usecase.go` -/

/-- The state of `authUseCaseImpl` that the use case reads: the users table behind `UsersRepo`,
the token configuration, and the external functions. The Redis store is threaded through the
calls. -/
structure authUseCaseImpl where
  UsersRepo : List User
  JwtConfig : JWTConfig
  deps : Deps

/-- The key `token:<id>` of a SessionRecord. -/
def tokenKey (id : String) : String := "token:" ++ id

/-- The key `token:<id>:used` of a UsedMarker. -/
def usedKey (id : String) : String := "token:" ++ id ++ ":used"

/-- The key `user:<id>:tokens` of a UserTokenSet. -/
def userTokenSetKey (userID : String) : String := "user:" ++ userID ++ ":tokens"

/-- The characters of a token string, as `WithDetail("token", tokenString)` records them. -/
def TokenString.text (d : Deps) : TokenString → String
  | .malformed raw => raw
  | .signed t => d.compact t

/-- GenerateToken: the access token, the refresh token, the family id and the access expiry. -/
def authUseCaseImpl.GenerateToken (a : authUseCaseImpl) (c : Call) (id role : String) :
    Except AppError (TokenString × TokenString × String × Int) :=
  let tokenID := c.uuid
  let claims : UserClaims :=
    { ID := id, Role := role, TokenID := tokenID,
      ExpiresAt := some (NewNumericDate (c.now + a.JwtConfig.AccessExpiry)),
      NotBefore := none, Issuer := a.JwtConfig.Issuer }
  if c.faults.signAccess then
    .error (ErrInternalServer c.now "Failed to generate access token")
  else
    let accessTokenString := SignedString .HS256 claims a.JwtConfig.SecretKey
    let expiresAccessToken := NewNumericDate (c.now + a.JwtConfig.AccessExpiry)
    let refreshClaims : UserClaims :=
      { ID := id, Role := role, TokenID := tokenID,
        ExpiresAt := some (NewNumericDate (c.now + a.JwtConfig.RefreshExpiry)),
        NotBefore := none, Issuer := a.JwtConfig.Issuer }
    if c.faults.signRefresh then
      .error (ErrInternalServer c.now "Failed to generate refresh token")
    else
      let refreshTokenString := SignedString .HS256 refreshClaims a.JwtConfig.SecretKey
      .ok (accessTokenString, refreshTokenString, tokenID, expiresAccessToken)

/-- ValidateToken: stateless, the parser only. -/
def authUseCaseImpl.ValidateToken (a : authUseCaseImpl) (now : Int) (tokenString : TokenString) :
    Except AppError Auth :=
  match ParseWithClaims a.JwtConfig.SecretKey now tokenString with
  | .error _ =>
    .error ((ErrUnauthorized now "Invalid token").WithDetail "token" (tokenString.text a.deps))
  | .ok claims => .ok { ID := claims.ID, Role := claims.Role }

def authUseCaseImpl.GetToken (_a : authUseCaseImpl) (c : Call) (s : Store) (id : String) :
    Except RedisError TokenString :=
  if c.faults.redisGet then .error .unavailable else s.Get c.now (tokenKey id)

def authUseCaseImpl.GetTTLOfToken (_a : authUseCaseImpl) (c : Call) (s : Store) (id : String) :
    Int :=
  if c.faults.redisTTL then 0
  else
    let ttl := s.TTL c.now (tokenKey id)
    if ttl ≤ 0 then 0 else ttl

/-- StoreToken: the store it leaves and its error, if any. -/
def authUseCaseImpl.StoreToken (a : authUseCaseImpl) (c : Call) (s : Store)
    (refreshToken : TokenString) (refreshTokenID userID : String) : Store × Option RedisError :=
  if c.faults.redisSetToken then (s, some .unavailable)
  else
    let s1 := s.Set c.now (tokenKey refreshTokenID) refreshToken a.JwtConfig.RefreshExpiry
    if c.faults.redisSAdd then (s1, some .unavailable)
    else
      match s1.SAdd c.now (userTokenSetKey userID) refreshTokenID with
      | .error e => (s1, some e)
      | .ok s2 =>
        if c.faults.redisExpire then (s2, none)
        else (s2.Expire c.now (userTokenSetKey userID) a.JwtConfig.RefreshExpiry, none)

def authUseCaseImpl.DeleteToken (_a : authUseCaseImpl) (c : Call) (s : Store) (token : String) :
    Store × Option RedisError :=
  if c.faults.redisDelToken then (s, some .unavailable) else (s.Del (tokenKey token), none)

def authUseCaseImpl.IsTokenUsed (_a : authUseCaseImpl) (c : Call) (s : Store) (tokenID : String) :
    Except RedisError Bool :=
  if c.faults.redisExists then .error .unavailable
  else .ok (s.Exists c.now (usedKey tokenID) == 1)

/-- MarkTokenAsUsed: the marker holds `true` (stored as `1`) for five minutes. -/
def authUseCaseImpl.MarkTokenAsUsed (_a : authUseCaseImpl) (c : Call) (s : Store)
    (tokenID : String) : Store × Option RedisError :=
  if c.faults.redisSetUsed then (s, some .unavailable)
  else (s.Set c.now (usedKey tokenID) (.malformed "1") (5 * minute), none)

def authUseCaseImpl.GetRefreshTokenExpiry (a : authUseCaseImpl) : Int :=
  a.JwtConfig.RefreshExpiry

def authUseCaseImpl.Login (a : authUseCaseImpl) (c : Call) (s : Store) (request : LoginRequest) :
    Store × Except AppError LoginResponse :=
  match ValidateStruct c.now (loginRequestErrors a.deps request) with
  | some err => (s, .error err)
  | none =>
    match FindByEmail c.faults.dbFind a.UsersRepo request.Email with
    | .error .other =>
      (s, .error ((ErrInternalServer c.now "Failed to find user").WithDetail "email"
        request.Email))
    | .error .ErrRecordNotFound =>
      (s, .error ((ErrNotFound c.now "User not found").WithDetail "email" request.Email))
    | .ok existingUser =>
      if !a.deps.CompareHashAndPassword existingUser.PasswordHash request.Password then
        (s, .error ((ErrUnauthorized c.now "Invalid credentials").WithDetail "email"
          request.Email))
      else
        match a.GenerateToken c existingUser.ID existingUser.Role with
        | .error _ => (s, .error (ErrInternalServer c.now "Failed to generate token"))
        | .ok (accessToken, refreshToken, refreshTokenID, accessExpiry) =>
          match a.StoreToken c s refreshToken refreshTokenID existingUser.ID with
          | (s1, some _) =>
            (s1, .error ((ErrInternalServer c.now "Failed to store token").WithDetail "email"
              existingUser.Email))
          | (s1, none) =>
            if c.faults.commit then
              (s1, .error ((ErrInternalServer c.now "Failed to commit transaction").WithDetail
                "email" existingUser.Email))
            else if c.faults.send then
              (s1, .error ((ErrInternalServer c.now "Failed to log event").WithDetail "email"
                existingUser.Email))
            else
              (s1, .ok (ToLoginResponse existingUser accessToken refreshTokenID accessExpiry))

def authUseCaseImpl.Refresh (a : authUseCaseImpl) (c : Call) (s : Store)
    (request : RefreshTokenRequest) : Store × Except AppError RefreshTokenResponse :=
  match ValidateStruct c.now (a.deps.validateRefreshTokenRequest request.ID) with
  | some err => (s, .error err)
  | none =>
    match a.IsTokenUsed c s request.ID with
    | .error _ => (s, .error (ErrInternalServer c.now "Failed to check if token is used"))
    | .ok true =>
      (s, .error ((ErrUnauthorized c.now "Token is already used").WithDetail "id" request.ID))
    | .ok false =>
      match a.GetToken c s request.ID with
      | .error _ =>
        (s, .error ((ErrInternalServer c.now "Failed to get token").WithDetail "id" request.ID))
      | .ok token =>
        if a.GetTTLOfToken c s request.ID ≤ 0 then
          (s, .error ((ErrUnauthorized c.now "Token expired").WithDetail "id" request.ID))
        else
          match a.ValidateToken c.now token with
          | .error _ =>
            (s, .error ((ErrUnauthorized c.now "Invalid token").WithDetail "id" request.ID))
          | .ok auth =>
            match a.GenerateToken c auth.ID auth.Role with
            | .error _ => (s, .error (ErrInternalServer c.now "Failed to generate token"))
            | .ok (accessToken, refreshToken, refreshTokenID, accessExpiry) =>
              match a.MarkTokenAsUsed c s request.ID with
              | (s1, some _) =>
                (s1, .error ((ErrInternalServer c.now "Failed to mark token as used").WithDetail
                  "id" request.ID))
              | (s1, none) =>
                match a.StoreToken c s1 refreshToken refreshTokenID auth.ID with
                | (s2, some _) =>
                  (s2, .error ((ErrInternalServer c.now "Failed to store token").WithDetail "id"
                    request.ID))
                | (s2, none) =>
                  if c.faults.commit then
                    (s2, .error ((ErrInternalServer c.now
                      "Failed to commit transaction").WithDetail "id" request.ID))
                  else if c.faults.send then
                    (s2, .error ((ErrInternalServer c.now "Failed to log event").WithDetail "id"
                      request.ID))
                  else
                    (s2, .ok (ToRefreshTokenResponse refreshTokenID accessToken accessExpiry))

/-- Logout: the record is deleted, then the marker; an error of the second deletion is dropped. -/
def authUseCaseImpl.Logout (_a : authUseCaseImpl) (c : Call) (s : Store)
    (request : LogoutRequest) : Store × Option RedisError :=
  if c.faults.redisDelToken then (s, some .unavailable)
  else
    let s1 := s.Del (tokenKey request.RefreshTokenID)
    if c.faults.redisDelUsed then (s1, none)
    else (s1.Del (usedKey request.RefreshTokenID), none)

/-! ## `delivery/http/auth_controller.go` -/

/-- A cookie as `ctx.SetCookie(name, value, maxAge, path, domain, secure, httpOnly)` sets it. -/
structure Cookie where
  Name : String
  Value : String
  MaxAge : Int
  Path : String
  Domain : String
  Secure : Bool
  HttpOnly : Bool
  deriving DecidableEq, Repr

structure LoginResponseToFrontend where
  User : UserResponse
  AccessToken : TokenString
  AccessExpiry : Int
  deriving DecidableEq, Repr

/-- StandardResponse of `model/model.go` (its `Meta` stays nil in these handlers). -/
structure StandardResponse (T : Type) where
  Success : Bool
  Data : T
  Message : String
  Timestamp : Int
  deriving DecidableEq, Repr

def NewSuccessResponse {T : Type} (now : Int) (data : T) (message : String) :
    StandardResponse T :=
  { Success := true, Data := data, Message := message, Timestamp := now }

/-- The JSON body a handler writes. -/
inductive ResponseBody where
  | failure (e : StandardErrorResponse)
  | login (r : StandardResponse LoginResponseToFrontend)
  | refresh (r : StandardResponse RefreshTokenResponse)
  deriving DecidableEq, Repr

/-- What a handler writes: the status, the cookie it sets, the body. -/
structure HttpResponse where
  Status : Nat
  SetCookie : Option Cookie
  Body : ResponseBody
  deriving DecidableEq, Repr

/-- The quotient `n / d` rounded to the nearest integer, a tie to the even one: the rounding of
`float64` arithmetic. -/
def roundHalfEven (n d : Nat) : Nat :=
  let q := n / d
  let r := n % d
  if 2 * r < d then q else if d < 2 * r then q + 1 else if q % 2 = 0 then q else q + 1

/-- The least `k` from the given start on that satisfies `p`, looking at no more than `fuel`
candidates. -/
def leastFrom (p : Nat → Bool) : Nat → Nat → Nat
  | 0, k => k
  | fuel + 1, k => if p k then k else leastFrom p fuel (k + 1)

/-- The conversion `int(expiry.Seconds())`. `Duration.Seconds` computes
`float64(sec) + float64(nsec) / 1e9` from the whole seconds and the remaining nanoseconds: the
quotient is rounded to a 53-bit significand `m / 2 ^ k`, the sum is rounded to 53 bits again, and
`int` cuts the fraction off. A negative duration gives the negated result. -/
def wholeSeconds (d : Int) : Int :=
  let n := d.natAbs
  let sec := n / 1000000000
  let nsec := n % 1000000000
  let k := leastFrom (fun k => decide (2 ^ 52 * 1000000000 ≤ nsec * 2 ^ k)) 30 53
  let m := roundHalfEven (nsec * 2 ^ k) 1000000000
  let sum := sec * 2 ^ k + m
  let j := leastFrom (fun j => decide (sum < 2 ^ (53 + j))) 64 0
  let whole := roundHalfEven sum (2 ^ j) * 2 ^ j / 2 ^ k
  if d < 0 then -(whole : Int) else (whole : Int)

/-- AuthController.Login; `body` is `none` when `ShouldBindJSON` fails. Every error of the use
case is an `AppError`, so the branch for other errors is never taken. -/
def AuthController.Login (uc : authUseCaseImpl) (c : Call) (s : Store)
    (body : Option LoginRequest) : Store × HttpResponse :=
  match body with
  | none =>
    (s, { Status := 400, SetCookie := none,
          Body := .failure (NewStandardErrorResponse (ErrInvalidInput c.now
            "Invalid JSON format")) })
  | some req =>
    match uc.Login c s req with
    | (s1, .error appErr) =>
      (s1, { Status := appErr.HTTPCode, SetCookie := none,
             Body := .failure (NewStandardErrorResponse appErr) })
    | (s1, .ok res) =>
      (s1, { Status := 200,
             SetCookie := some
               { Name := "refresh_token_id", Value := res.RefreshTokenID,
                 MaxAge := wholeSeconds uc.GetRefreshTokenExpiry, Path := "/", Domain := "",
                 Secure := true, HttpOnly := true },
             Body := .login (NewSuccessResponse c.now
               { User := res.User, AccessToken := res.AccessToken,
                 AccessExpiry := res.AccessExpiry } "Login successful") })

/-- AuthController.Refresh; `cookie` is the value of the cookie `refresh_token_id`, `none` when
the request carries none. -/
def AuthController.Refresh (uc : authUseCaseImpl) (c : Call) (s : Store)
    (cookie : Option String) : Store × HttpResponse :=
  match cookie with
  | none =>
    (s, { Status := 401, SetCookie := none,
          Body := .failure (NewStandardErrorResponse (ErrUnauthorized c.now
            "Missing refresh token")) })
  | some refreshTokenID =>
    match uc.Refresh c s { ID := refreshTokenID } with
    | (s1, .error appErr) =>
      (s1, { Status := appErr.HTTPCode, SetCookie := none,
             Body := .failure (NewStandardErrorResponse appErr) })
    | (s1, .ok res) =>
      (s1, { Status := 200, SetCookie := none,
             Body := .refresh (NewSuccessResponse c.now res "Token refreshed successfully") })

/-! ## `delivery/http/middleware/auth_middleware.go` -/

/-- The `Authorization` header as the middleware reads it: its characters, or, when these are
`Bearer ` followed by the compact form of a token, that token. -/
inductive AuthorizationHeader where
  | raw (value : String)
  | bearer (jwt : Jwt)
  deriving DecidableEq, Repr

/-- What the middleware does with a request: it answers and aborts (`ctx.JSON`, `ctx.Abort`), or
it puts the `Auth` into the context and lets the request go on (`ctx.Set`, `ctx.Next`). -/
inductive MiddlewareResult where
  | abort (r : HttpResponse)
  | next (auth : Auth)
  deriving DecidableEq, Repr

/-- The test `strings.HasPrefix(authHeader, "Bearer ")`. -/
def startsWithBearer (value : String) : Bool := "Bearer ".data.isPrefixOf value.data

/-- The string `strings.TrimPrefix(authHeader, "Bearer ")` of a header, `none` when the header is
empty or does not start with `Bearer `. -/
def AuthorizationHeader.tokenString : AuthorizationHeader → Option TokenString
  | .raw value =>
    if value = "" || !startsWithBearer value then none
    else some (.malformed (String.mk (value.data.drop 7)))
  | .bearer jwt => some (.signed jwt)

/-- AuthMiddleware. It issues no store command: the store is handed back as it came. -/
def AuthMiddleware (authUC : authUseCaseImpl) (c : Call) (s : Store)
    (authHeader : AuthorizationHeader) : Store × MiddlewareResult :=
  match authHeader.tokenString with
  | none =>
    (s, .abort { Status := 401, SetCookie := none,
                 Body := .failure (NewStandardErrorResponse (ErrUnauthorized c.now
                   "Missing or invalid Authorization header")) })
  | some tokenString =>
    match authUC.ValidateToken c.now tokenString with
    | .error _ =>
      (s, .abort { Status := 401, SetCookie := none,
                   Body := .failure (NewStandardErrorResponse (ErrUnauthorized c.now
                     "Invalid token")) })
    | .ok auth => (s, .next auth)

/-! ## The reads and the writes of `Refresh` -/

/-- The first part of `Refresh`, up to `ValidateToken`: the request is validated and the store is
read (`EXISTS` of the marker, `GET` and `TTL` of the record). It returns the error `Refresh`
returns there, or the `Auth` recovered from the stored token; it writes nothing. -/
def authUseCaseImpl.RefreshReads (a : authUseCaseImpl) (c : Call) (s : Store)
    (request : RefreshTokenRequest) : Except AppError Auth :=
  match ValidateStruct c.now (a.deps.validateRefreshTokenRequest request.ID) with
  | some err => .error err
  | none =>
    match a.IsTokenUsed c s request.ID with
    | .error _ => .error (ErrInternalServer c.now "Failed to check if token is used")
    | .ok true =>
      .error ((ErrUnauthorized c.now "Token is already used").WithDetail "id" request.ID)
    | .ok false =>
      match a.GetToken c s request.ID with
      | .error _ =>
        .error ((ErrInternalServer c.now "Failed to get token").WithDetail "id" request.ID)
      | .ok token =>
        if a.GetTTLOfToken c s request.ID ≤ 0 then
          .error ((ErrUnauthorized c.now "Token expired").WithDetail "id" request.ID)
        else
          match a.ValidateToken c.now token with
          | .error _ =>
            .error ((ErrUnauthorized c.now "Invalid token").WithDetail "id" request.ID)
          | .ok auth => .ok auth

/-- The second part of `Refresh`, from `GenerateToken` on: the new pair is minted, the old id is
marked used, the new record is stored, the transaction is committed and the event is sent. -/
def authUseCaseImpl.RefreshWrites (a : authUseCaseImpl) (c : Call) (s : Store)
    (request : RefreshTokenRequest) (auth : Auth) :
    Store × Except AppError RefreshTokenResponse :=
  match a.GenerateToken c auth.ID auth.Role with
  | .error _ => (s, .error (ErrInternalServer c.now "Failed to generate token"))
  | .ok (accessToken, refreshToken, refreshTokenID, accessExpiry) =>
    match a.MarkTokenAsUsed c s request.ID with
    | (s1, some _) =>
      (s1, .error ((ErrInternalServer c.now "Failed to mark token as used").WithDetail
        "id" request.ID))
    | (s1, none) =>
      match a.StoreToken c s1 refreshToken refreshTokenID auth.ID with
      | (s2, some _) =>
        (s2, .error ((ErrInternalServer c.now "Failed to store token").WithDetail "id"
          request.ID))
      | (s2, none) =>
        if c.faults.commit then
          (s2, .error ((ErrInternalServer c.now
            "Failed to commit transaction").WithDetail "id" request.ID))
        else if c.faults.send then
          (s2, .error ((ErrInternalServer c.now "Failed to log event").WithDetail "id"
            request.ID))
        else
          (s2, .ok (ToRefreshTokenResponse refreshTokenID accessToken accessExpiry))

/-- Two calls of `Refresh` that run concurrently, in the interleaving in which each has finished
its reads before the other writes: both read the store `s`, then the first call writes, then the
second. The result is the final store and the two results. -/
def refreshBothReadFirst (a : authUseCaseImpl) (c1 c2 : Call) (s : Store)
    (request1 request2 : RefreshTokenRequest) :
    Store × Except AppError RefreshTokenResponse × Except AppError RefreshTokenResponse :=
  let reads1 := a.RefreshReads c1 s request1
  let reads2 := a.RefreshReads c2 s request2
  let out1 : Store × Except AppError RefreshTokenResponse :=
    match reads1 with
    | .error err => (s, .error err)
    | .ok auth => a.RefreshWrites c1 s request1 auth
  let out2 : Store × Except AppError RefreshTokenResponse :=
    match reads2 with
    | .error err => (out1.1, .error err)
    | .ok auth => a.RefreshWrites c2 out1.1 request2 auth
  (out2.1, out1.2, out2.2)

/-! ## Predicates used by the statements -/

/-- The family id is Active at `now`: it has no UsedMarker, its SessionRecord is read with a
positive TTL, and the stored string passes `ValidateToken`. -/
def authUseCaseImpl.isActive (a : authUseCaseImpl) (now : Int) (s : Store) (id : String) : Bool :=
  s.Exists now (usedKey id) == 0 &&
  (match s.Get now (tokenKey id) with
    | .error _ => false
    | .ok token =>
      decide (0 < s.TTL now (tokenKey id)) &&
      (match a.ValidateToken now token with
        | .error _ => false
        | .ok _ => true))

/-- The key holds a set or nothing at `now`, so `SADD` on it is well typed. -/
def Store.setOrAbsent (s : Store) (now : Int) (key : String) : Bool :=
  match s.lookup now key with
  | none => true
  | some e =>
    match e.value with
    | .set _ => true
    | .str _ => false

/-- The error message a response carries, when it reports a failure. -/
def HttpResponse.message? (r : HttpResponse) : Option String :=
  match r.Body with
  | .failure e => some e.Error.Message
  | .login _ => none
  | .refresh _ => none

/-! ## Sample data -/

def sampleDeps : Deps :=
  { isEmail := fun s => s.data.contains '@',
    CompareHashAndPassword := fun hash password => hash == "bcrypt:" ++ password,
    validateRefreshTokenRequest := fun id =>
      if id = "" then [{ Field := "id", Message := "id is required" }] else [],
    compact := fun t => t.claims.TokenID }

/-- A configuration with an access lifetime of 15 minutes and a refresh lifetime of 7 days. -/
def sampleConfig : JWTConfig :=
  { SecretKey := "secret", Issuer := "football-api", AccessExpiry := 15 * minute,
    RefreshExpiry := 7 * 24 * 60 * minute }

def sampleUser : User :=
  { ID := "u1", Username := "ana", Email := "ana@club.io", PasswordHash := "bcrypt:correct-horse",
    Role := "admin", IsActive := true }

def sampleUseCase : authUseCaseImpl :=
  { UsersRepo := [sampleUser], JwtConfig := sampleConfig, deps := sampleDeps }

/-- A call at instant `now` (in seconds) that draws the family id `uuid`, nothing failing. -/
def sampleCall (nowSeconds : Int) (uuid : String) : Call :=
  { now := nowSeconds * second, uuid := uuid, faults := Faults.none }

/-- The store after `ana` logged in at instant 0 and drew the family id `F1`. -/
def storeAfterLogin : Store :=
  (sampleUseCase.Login (sampleCall 0 "F1") Store.empty
    { Email := "ana@club.io", Password := "correct-horse" }).1

/-- A store whose record `token:G1` holds a string that is no token, with 100 s to live. -/
def storeWithGarbage : Store :=
  [(tokenKey "G1", { value := .str (.malformed "garbage"), expireAt := some (100 * second) })]

/-- A store whose record `token:P1` holds a valid refresh token but has no expiry. -/
def storeWithoutExpiry : Store :=
  [(tokenKey "P1",
    { value := .str (SignedString .HS256
        { ID := "u1", Role := "admin", TokenID := "P1", ExpiresAt := some (1000 * second),
          NotBefore := none, Issuer := "football-api" } "secret"),
      expireAt := none })]

/-- The sample use case with an empty signing key. -/
def emptyKeyUseCase : authUseCaseImpl :=
  { UsersRepo := [sampleUser], JwtConfig := { sampleConfig with SecretKey := "" },
    deps := sampleDeps }

/-- The store after `F1` was then rotated at second 10 into `F2`. -/
def storeAfterRefresh : Store :=
  (sampleUseCase.Refresh (sampleCall 10 "F2") storeAfterLogin { ID := "F1" }).1


/-! ## Definitions for the statements on failures, issuance and rotation -/

/-- The call `c` with the outcome of the log producer fixed: `fails = true` makes `Send` return an
error, everything else is as in `c`. -/
def Call.withSend (c : Call) (fails : Bool) : Call :=
  { c with faults := { c.faults with send := fails } }

/-- The claims a token string carries, when it is a token. -/
def TokenString.claims? : TokenString → Option UserClaims
  | .malformed _ => none
  | .signed t => some t.claims

/-- A chain of rotations: each call refreshes the family id the previous step returned. The state
is the store, the current family id and the current access token; the chain stops with `none` at
the first `Refresh` that returns an error. -/
def authUseCaseImpl.rotateAll (a : authUseCaseImpl) :
    List Call → Store × String × TokenString → Option (Store × String × TokenString)
  | [], state => some state
  | c :: rest, (s, id, _) =>
    match a.Refresh c s { ID := id } with
    | (_, .error _) => none
    | (s2, .ok resp) => a.rotateAll rest (s2, resp.RefreshTokenID, resp.AccessToken)

/-- The identity a session carries: the access token in hand and whatever is stored under the
record key of the family id both carry the subject id and the role. -/
def carriesIdentity (state : Store × String × TokenString) (id role : String) : Prop :=
  (∃ claims, state.2.2.claims? = some claims ∧ claims.ID = id ∧ claims.Role = role) ∧
  ∀ t tok, state.1.Get t (tokenKey state.2.1) = .ok tok →
    ∃ claims, tok.claims? = some claims ∧ claims.ID = id ∧ claims.Role = role

/-- Every live record of a member of the token set of `subjectID` expires, and no later than
`bound`. -/
def Store.membersExpireBy (s : Store) (now : Int) (subjectID : String) (bound : Int) : Prop :=
  ∀ ms x, s.lookup now (userTokenSetKey subjectID) = some ⟨.set ms, x⟩ →
    ∀ m ∈ ms, ∀ e, s.lookup now (tokenKey m) = some e → ∃ t, e.expireAt = some t ∧ t ≤ bound

/-- The store holds an issued session: under the record key of `familyID` the string
`refreshToken` with the time to live `lifetime`, and the token set of `subjectID`, with
`familyID` among its members, expires no earlier than the record of any of its members. -/
def Store.issued (s : Store) (now lifetime : Int) (familyID subjectID : String)
    (refreshToken : TokenString) : Prop :=
  s.Get now (tokenKey familyID) = .ok refreshToken ∧
  s.TTL now (tokenKey familyID) = lifetime ∧
  ∃ ms expiry, s.lookup now (userTokenSetKey subjectID) = some ⟨.set ms, some expiry⟩ ∧
    familyID ∈ ms ∧ s.membersExpireBy now subjectID expiry

/-- The sample use case with an access lifetime of one nanosecond. -/
def tinyAccessUseCase : authUseCaseImpl :=
  { UsersRepo := [sampleUser], JwtConfig := { sampleConfig with AccessExpiry := 1 },
    deps := sampleDeps }

/-- A use case whose only user, `bob`, has the five-character password `horse`. -/
def shortPasswordUseCase : authUseCaseImpl :=
  { UsersRepo :=
      [{ ID := "u2", Username := "bob", Email := "bob@club.io", PasswordHash := "bcrypt:horse",
         Role := "user", IsActive := true }],
    JwtConfig := sampleConfig, deps := sampleDeps }

/-- The sample use case with both lifetimes of one nanosecond. -/
def tinyLifetimesUseCase : authUseCaseImpl :=
  { UsersRepo := [sampleUser],
    JwtConfig := { sampleConfig with AccessExpiry := 1, RefreshExpiry := 1 },
    deps := sampleDeps }

/-- The sample use case with both lifetimes of half a second. -/
def halfSecondUseCase : authUseCaseImpl :=
  { UsersRepo := [sampleUser],
    JwtConfig :=
      { sampleConfig with AccessExpiry := 500 * millisecond, RefreshExpiry := 500 * millisecond },
    deps := sampleDeps }

/-- The sample use case with a refresh lifetime of one and a half seconds. -/
def fractionalLifetimeUseCase : authUseCaseImpl :=
  { UsersRepo := [sampleUser],
    JwtConfig := { sampleConfig with RefreshExpiry := 1500 * millisecond },
    deps := sampleDeps }

/-- The store after `ana` logged in at instant 0 under a refresh lifetime of one and a half
seconds, nothing failing. -/
def storeAfterFractionalLogin : Store :=
  (fractionalLifetimeUseCase.Login (sampleCall 0 "F1") Store.empty
    { Email := "ana@club.io", Password := "correct-horse" }).1

/-- A call at instant `now` (in seconds) that draws the family id `uuid`, with the given
collaborators failing. -/
def sampleCallFailing (nowSeconds : Int) (uuid : String) (faults : Faults) : Call :=
  { now := nowSeconds * second, uuid := uuid, faults := faults }

/-- The store after a rotation of `F1` at second 10 in which the `SET` of the new record failed. -/
def storeAfterFailedRotation : Store :=
  (sampleUseCase.Refresh
    (sampleCallFailing 10 "F2" { Faults.none with redisSetToken := true })
    storeAfterLogin { ID := "F1" }).1

/-- The store after `ana` logged in a second time, at second 100 with the family id `F2`, in a
call in which the `EXPIRE` of her token set failed. -/
def storeAfterSecondLogin : Store :=
  (sampleUseCase.Login
    (sampleCallFailing 100 "F2" { Faults.none with redisExpire := true })
    storeAfterLogin { Email := "ana@club.io", Password := "correct-horse" }).1

/-! ## Matches: `entity`, `model/matches_model.go`, `repository`

The relational database is a collaborator; the table of matches is threaded through the use-case
calls like the store: a call returns the table it leaves behind (the table it was given when its
transaction is rolled back or its commit fails) together with its Go result. -/

/-- The fields of `entity.Team` the matches code reads. -/
structure Team where
  ID : String
  Name : String
  deriving DecidableEq, Repr

/-- The fields of `entity.Player` the matches code reads. -/
structure Player where
  ID : String
  TeamID : String
  Name : String
  deriving DecidableEq, Repr

/-- The fields of `entity.Goal` the matches code reads; `Player` is a pointer (`none` is `nil`),
set by `Preload("Player")`. -/
structure Goal where
  ID : String
  MatchID : String
  PlayerID : String
  GoalTime : Int
  Player : Option Player
  deriving DecidableEq, Repr

/-- The row `entity.Match`; the scores and `DeletedAt` are pointers (`none` is `nil`), the
instants are nanoseconds. -/
structure Match where
  ID : String
  MatchDate : Int
  MatchTime : String
  HomeTeamID : String
  AwayTeamID : String
  HomeScore : Option Int
  AwayScore : Option Int
  Status : String
  CreatedAt : Int
  UpdatedAt : Int
  DeletedAt : Option Int
  HomeTeam : Team
  AwayTeam : Team
  deriving DecidableEq, Repr

/-- The fields of `model.TeamResponse` carried here. -/
structure TeamResponse where
  ID : String
  Name : String
  deriving DecidableEq, Repr

structure MatchResponse where
  ID : String
  MatchDate : String
  MatchTime : String
  HomeTeamID : String
  AwayTeamID : String
  HomeScore : Option Int
  AwayScore : Option Int
  Status : String
  CreatedAt : String
  UpdatedAt : String
  DeletedAt : Option String
  HomeTeam : Option TeamResponse
  AwayTeam : Option TeamResponse
  deriving DecidableEq, Repr

structure MatchRequestCreate where
  MatchDate : String
  MatchTime : String
  HomeTeamID : String
  AwayTeamID : String
  HomeScore : Option Int
  AwayScore : Option Int
  Status : String
  deriving DecidableEq, Repr

structure MatchRequestUpdate where
  ID : String
  MatchDate : String
  MatchTime : String
  HomeTeamID : String
  AwayTeamID : String
  HomeScore : Option Int
  AwayScore : Option Int
  Status : String
  deriving DecidableEq, Repr

structure MatchRequestFinish where
  ID : String
  deriving DecidableEq, Repr

structure TeamShort where
  ID : String
  Name : String
  deriving DecidableEq, Repr

structure GoalReport where
  PlayerName : String
  TeamID : String
  Minute : Int
  deriving DecidableEq, Repr

structure MatchReportResponse where
  ID : String
  MatchDate : String
  MatchTime : String
  HomeTeam : TeamShort
  AwayTeam : TeamShort
  HomeScore : Int
  AwayScore : Int
  StatusResult : String
  Goals : List GoalReport
  TopScorer : String
  HomeTeamWinTotal : Int
  AwayTeamWinTotal : Int
  deriving DecidableEq, Repr

/-- The library functions the matches code calls: the `uuid` tag of the validator,
`time.Parse("2006-01-02", _)`, and `Format` with the layouts `2006-01-02` and `time.RFC3339`. -/
structure MatchDeps where
  isUUID : String → Bool
  parseDate : String → Option Int
  formatDate : Int → String
  formatRFC3339 : Int → String

/-- Which collaborator fails during a matches call. -/
structure MatchFaults where
  find : Bool
  create : Bool
  update : Bool
  commit : Bool
  send : Bool
  deriving DecidableEq, Repr

def MatchFaults.none : MatchFaults :=
  { find := false, create := false, update := false, commit := false, send := false }

/-- One matches call: its instant, the id `uuid.New()` draws in it, and the failing
collaborators. -/
structure MatchCall where
  now : Int
  uuid : String
  faults : MatchFaults

/-- The zero `time.Time`, January 1 of year 1. -/
def zeroTime : Int := -62135596800 * second

/-- ConvertStringToDate of `common/util.go`. -/
def ConvertStringToDate (d : MatchDeps) (input : String) : Int :=
  if input = "" then zeroTime
  else
    match d.parseDate input with
    | none => zeroTime
    | some t => t

/-- The values the `oneof` tag of `status` admits. -/
def statusValues : List String := ["scheduled", "completed", "canceled"]

/-- The field errors of the validator on a `MatchRequestCreate` (`match_date`, `match_time`:
`required`; `home_team_id`, `away_team_id`: `required,uuid`; the scores: `omitempty`; `status`:
`required,oneof=scheduled completed canceled`). -/
def matchCreateErrors (d : MatchDeps) (request : MatchRequestCreate) : List ErrorDetail :=
  (if request.MatchDate = "" then [{ Field := "match_date", Message := "match_date is required" }]
   else []) ++
  (if request.MatchTime = "" then [{ Field := "match_time", Message := "match_time is required" }]
   else []) ++
  (if request.HomeTeamID = "" then
     [{ Field := "home_team_id", Message := "home_team_id is required" }]
   else if !d.isUUID request.HomeTeamID then
     [{ Field := "home_team_id", Message := "home_team_id must be a valid UUID" }]
   else []) ++
  (if request.AwayTeamID = "" then
     [{ Field := "away_team_id", Message := "away_team_id is required" }]
   else if !d.isUUID request.AwayTeamID then
     [{ Field := "away_team_id", Message := "away_team_id must be a valid UUID" }]
   else []) ++
  (if request.Status = "" then [{ Field := "status", Message := "status is required" }]
   else if !statusValues.contains request.Status then
     [{ Field := "status", Message := "status must be one of [scheduled completed canceled]" }]
   else [])

/-- The field errors of the validator on a `MatchRequestUpdate` (`id`: `required,uuid`; the team
ids: `omitempty,uuid`; `status`: `omitempty,oneof=scheduled completed canceled`; the other
fields: `omitempty`). -/
def matchUpdateErrors (d : MatchDeps) (request : MatchRequestUpdate) : List ErrorDetail :=
  (if request.ID = "" then [{ Field := "id", Message := "id is required" }]
   else if !d.isUUID request.ID then [{ Field := "id", Message := "id must be a valid UUID" }]
   else []) ++
  (if request.HomeTeamID = "" then []
   else if !d.isUUID request.HomeTeamID then
     [{ Field := "home_team_id", Message := "home_team_id must be a valid UUID" }]
   else []) ++
  (if request.AwayTeamID = "" then []
   else if !d.isUUID request.AwayTeamID then
     [{ Field := "away_team_id", Message := "away_team_id must be a valid UUID" }]
   else []) ++
  (if request.Status = "" then []
   else if !statusValues.contains request.Status then
     [{ Field := "status", Message := "status must be one of [scheduled completed canceled]" }]
   else [])

/-- The field errors of the validator on a `MatchRequestFinish` (`id`: `required,uuid`). -/
def matchFinishErrors (d : MatchDeps) (request : MatchRequestFinish) : List ErrorDetail :=
  if request.ID = "" then [{ Field := "id", Message := "id is required" }]
  else if !d.isUUID request.ID then [{ Field := "id", Message := "id must be a valid UUID" }]
  else []

/-- FindByID of `repository.go`: the row with the given id that is not soft-deleted. -/
def MatchesRepo.FindByID (fails : Bool) (table : List Match) (id : String) :
    Except DbError Match :=
  if fails then .error .other
  else
    match table.find? (fun row => row.ID == id && row.DeletedAt.isNone) with
    | none => .error .ErrRecordNotFound
    | some row => .ok row

/-- Create of `repository.go` (`db.Create`): the row is inserted with both timestamps set to the
instant of the call; an id that is already a primary key is refused. The table and the entity as
written back are returned. -/
def MatchesRepo.Create (fails : Bool) (now : Int) (table : List Match) (entity : Match) :
    Except DbError (List Match × Match) :=
  if fails || table.any (fun row => row.ID == entity.ID) then .error .other
  else
    let row := { entity with CreatedAt := now, UpdatedAt := now }
    .ok (table ++ [row], row)

/-- Update of `repository.go` (`db.Save`): every column of the row with the primary key of the
entity is overwritten, `UpdatedAt` with the instant of the call; without such a row the entity is
inserted. -/
def MatchesRepo.Update (fails : Bool) (now : Int) (table : List Match) (entity : Match) :
    Except DbError (List Match × Match) :=
  if fails then .error .other
  else
    let row := { entity with UpdatedAt := now }
    if table.any (fun old => old.ID == entity.ID) then
      .ok (table.map (fun old => if old.ID = entity.ID then row else old), row)
    else .ok (table ++ [row], row)

/-! ## `model/converter/matches_converter.go` -/

def ToTeamResponse (team : Team) : TeamResponse :=
  { ID := team.ID, Name := team.Name }

def ToMatchResponse (d : MatchDeps) (row : Match) : MatchResponse :=
  { ID := row.ID,
    HomeTeam := some (ToTeamResponse row.HomeTeam),
    AwayTeam := some (ToTeamResponse row.AwayTeam),
    MatchDate := d.formatDate row.MatchDate,
    MatchTime := row.MatchTime,
    HomeTeamID := row.HomeTeamID,
    AwayTeamID := row.AwayTeamID,
    HomeScore := row.HomeScore,
    AwayScore := row.AwayScore,
    Status := row.Status,
    CreatedAt := d.formatRFC3339 row.CreatedAt,
    UpdatedAt := d.formatRFC3339 row.UpdatedAt,
    DeletedAt := row.DeletedAt.map d.formatRFC3339 }

/-- A run-time panic of the Go code. -/
inductive Panic where
  | nilPointerDereference
  deriving DecidableEq, Repr

/-- The first loop of `ToMatchReportResponse`: `golPerPemain[goal.PlayerID]++` for every goal; a
Go map read yields `0` for a key that was never written. -/
def countGoals : List Goal → (String → Int) → (String → Int)
  | [], golPerPemain => golPerPemain
  | goal :: rest, golPerPemain =>
    countGoals rest (fun key => if key = goal.PlayerID then golPerPemain key + 1
      else golPerPemain key)

/-- The map `golPerPemain` after the first loop. -/
def golPerPemain (goals : List Goal) : String → Int := countGoals goals (fun _ => 0)

/-- The second loop of `ToMatchReportResponse`, on the state `(topScorerName, maxGoals)`. -/
def topScorerLoop (count : String → Int) : List Goal → String × Int → Except Panic (String × Int)
  | [], state => .ok state
  | goal :: rest, (topScorerName, maxGoals) =>
    if count goal.PlayerID > maxGoals then
      match goal.Player with
      | none => .error .nilPointerDereference
      | some player => topScorerLoop count rest (player.Name, count goal.PlayerID)
    else topScorerLoop count rest (topScorerName, maxGoals)

/-- The third loop of `ToMatchReportResponse`, on the state `(homeWins, awayWins)`: previous
matches without a score are skipped. -/
def countWins (row : Match) : List Match → Int × Int → Int × Int
  | [], state => state
  | m :: rest, (homeWins, awayWins) =>
    match m.HomeScore, m.AwayScore with
    | some home, some away =>
      countWins row rest
        (if home > away ∧ m.HomeTeamID = row.HomeTeamID then homeWins + 1 else homeWins,
         if away > home ∧ m.AwayTeamID = row.AwayTeamID then awayWins + 1 else awayWins)
    | _, _ => countWins row rest (homeWins, awayWins)

/-- The fourth loop of `ToMatchReportResponse`, on the slice `goalReports`. -/
def goalReportsLoop : List Goal → List GoalReport → Except Panic (List GoalReport)
  | [], goalReports => .ok goalReports
  | goal :: rest, goalReports =>
    match goal.Player with
    | none => .error .nilPointerDereference
    | some player =>
      goalReportsLoop rest
        (goalReports ++
          [{ PlayerName := player.Name, TeamID := player.TeamID, Minute := goal.GoalTime }])

/-- ToMatchReportResponse: the report, or the panic of dereferencing a `nil` score or a `nil`
player. -/
def ToMatchReportResponse (d : MatchDeps) (row : Match) (goals : List Goal)
    (allPreviousMatches : List Match) : Except Panic MatchReportResponse :=
  match row.HomeScore with
  | none => .error .nilPointerDereference
  | some homeScore =>
    match row.AwayScore with
    | none => .error .nilPointerDereference
    | some awayScore =>
      let status :=
        if homeScore > awayScore then "Home Win"
        else if homeScore < awayScore then "Away Win"
        else "Draw"
      match topScorerLoop (golPerPemain goals) goals ("", 0) with
      | .error p => .error p
      | .ok (topScorerName, _) =>
        let wins := countWins row allPreviousMatches (0, 0)
        match goalReportsLoop goals [] with
        | .error p => .error p
        | .ok goalReports =>
          .ok { ID := row.ID,
                MatchDate := d.formatDate row.MatchDate,
                MatchTime := row.MatchTime,
                HomeTeam := { ID := row.HomeTeam.ID, Name := row.HomeTeam.Name },
                AwayTeam := { ID := row.AwayTeam.ID, Name := row.AwayTeam.Name },
                HomeScore := homeScore,
                AwayScore := awayScore,
                StatusResult := status,
                Goals := goalReports,
                TopScorer := topScorerName,
                HomeTeamWinTotal := wins.1,
                AwayTeamWinTotal := wins.2 }

/-! ## `usecase/matches_usecase.go` -/

structure matchesUseCaseImpl where
  deps : MatchDeps

/-- Create: the table it leaves and its result. -/
def matchesUseCaseImpl.Create (uc : matchesUseCaseImpl) (c : MatchCall) (table : List Match)
    (request : MatchRequestCreate) : List Match × Except AppError MatchResponse :=
  match ValidateStruct c.now (matchCreateErrors uc.deps request) with
  | some err => (table, .error err)
  | none =>
    let entity : Match :=
      { ID := c.uuid,
        MatchDate := ConvertStringToDate uc.deps request.MatchDate,
        MatchTime := request.MatchTime,
        HomeTeamID := request.HomeTeamID,
        AwayTeamID := request.AwayTeamID,
        HomeScore := request.HomeScore,
        AwayScore := request.AwayScore,
        Status := request.Status,
        CreatedAt := zeroTime, UpdatedAt := zeroTime, DeletedAt := none,
        HomeTeam := { ID := "", Name := "" }, AwayTeam := { ID := "", Name := "" } }
    if entity.HomeTeamID = entity.AwayTeamID then
      (table, .error ((ErrInvalidInput c.now
        "Home team and away team cannot be the same").WithDetail "home_team_id"
        entity.HomeTeamID))
    else if entity.MatchDate < c.now then
      (table, .error ((ErrInvalidInput c.now "Match date cannot be in the past").WithDetail
        "match_date" (uc.deps.formatDate entity.MatchDate ++ " " ++ entity.MatchTime)))
    else
      match MatchesRepo.Create c.faults.create c.now table entity with
      | .error _ => (table, .error (ErrInternalServer c.now "Failed to create match"))
      | .ok (table2, created) =>
        if c.faults.commit then
          (table, .error (ErrInternalServer c.now "Failed to commit transaction"))
        else if c.faults.send then
          (table2, .error (ErrInternalServer c.now "Failed to send log event"))
        else (table2, .ok (ToMatchResponse uc.deps created))

/-- Update: the table it leaves and its result. -/
def matchesUseCaseImpl.Update (uc : matchesUseCaseImpl) (c : MatchCall) (table : List Match)
    (request : MatchRequestUpdate) : List Match × Except AppError MatchResponse :=
  match ValidateStruct c.now (matchUpdateErrors uc.deps request) with
  | some err => (table, .error err)
  | none =>
    match MatchesRepo.FindByID c.faults.find table request.ID with
    | .error _ => (table, .error ((ErrNotFound c.now "Match not found").WithDetail "id" request.ID))
    | .ok found =>
      if found.HomeTeamID = found.AwayTeamID then
        (table, .error ((ErrInvalidInput c.now
          "Home team and away team cannot be the same").WithDetail "home_team_id"
          found.HomeTeamID))
      else
        let m1 := if request.HomeTeamID ≠ "" then { found with HomeTeamID := request.HomeTeamID }
          else found
        let m2 := if request.AwayTeamID ≠ "" then { m1 with AwayTeamID := request.AwayTeamID }
          else m1
        let m3 :=
          if request.MatchDate ≠ "" then
            { m2 with MatchDate := ConvertStringToDate uc.deps request.MatchDate }
          else m2
        let m4 := if request.MatchTime ≠ "" then { m3 with MatchTime := request.MatchTime }
          else m3
        let m5 := if request.HomeScore.isSome then { m4 with HomeScore := request.HomeScore }
          else m4
        let m6 := if request.AwayScore.isSome then { m5 with AwayScore := request.AwayScore }
          else m5
        let m7 := if request.Status ≠ "" then { m6 with Status := request.Status } else m6
        match MatchesRepo.Update c.faults.update c.now table m7 with
        | .error _ => (table, .error (ErrInternalServer c.now "Failed to update match"))
        | .ok (table2, updated) =>
          if c.faults.commit then
            (table, .error (ErrInternalServer c.now "Failed to commit transaction"))
          else if c.faults.send then
            (table2, .error (ErrInternalServer c.now "Failed to send log event"))
          else (table2, .ok (ToMatchResponse uc.deps updated))

/-- FinishMatch: the table it leaves and its result. -/
def matchesUseCaseImpl.FinishMatch (uc : matchesUseCaseImpl) (c : MatchCall)
    (table : List Match) (request : MatchRequestFinish) :
    List Match × Except AppError MatchResponse :=
  match ValidateStruct c.now (matchFinishErrors uc.deps request) with
  | some err => (table, .error err)
  | none =>
    match MatchesRepo.FindByID c.faults.find table request.ID with
    | .error _ => (table, .error ((ErrNotFound c.now "Match not found").WithDetail "id" request.ID))
    | .ok found =>
      if found.Status ≠ "Scheduled" then
        (table, .error ((ErrInvalidInput c.now "Match is not scheduled").WithDetail "id"
          request.ID))
      else
        match MatchesRepo.Update c.faults.update c.now table { found with Status := "Finished" }
        with
        | .error _ => (table, .error (ErrInternalServer c.now "Failed to update match"))
        | .ok (table2, updated) =>
          if c.faults.commit then
            (table, .error (ErrInternalServer c.now "Failed to commit transaction"))
          else (table2, .ok (ToMatchResponse uc.deps updated))

/-! ## Definitions for the statements on matches -/

/-- The number of goals of the list scored by the player `playerID`. -/
def goalsScoredBy (goals : List Goal) (playerID : String) : Int :=
  ((goals.filter (fun goal => goal.PlayerID == playerID)).length : Int)

def isLowerHexDigit (ch : Char) : Bool :=
  (48 ≤ ch.toNat && ch.toNat ≤ 57) || (97 ≤ ch.toNat && ch.toNat ≤ 102)

/-- The canonical form of a UUID: lower-case hexadecimal digits in groups of 8, 4, 4, 4 and 12,
separated by hyphens. -/
def isCanonicalUUID (s : String) : Bool :=
  s.data.length == 36 &&
  (List.range 36).all (fun i =>
    if i = 8 ∨ i = 13 ∨ i = 18 ∨ i = 23 then s.data.get? i == some '-'
    else (s.data.get? i).any isLowerHexDigit)

/-- Sample library functions: the canonical UUID form, and a calendar that knows the dates
`2030-01-01` and `2030-01-02`. -/
def sampleMatchDeps : MatchDeps :=
  { isUUID := isCanonicalUUID,
    parseDate := fun s =>
      if s = "2030-01-01" then some (1893456000 * second)
      else if s = "2030-01-02" then some (1893542400 * second)
      else none,
    formatDate := fun t =>
      if t = 1893456000 * second then "2030-01-01"
      else if t = 1893542400 * second then "2030-01-02"
      else "0001-01-01",
    formatRFC3339 := fun _ => "" }

def sampleMatches : matchesUseCaseImpl := { deps := sampleMatchDeps }

def teamA : String := "11111111-1111-4111-8111-111111111111"

def teamB : String := "22222222-2222-4222-8222-222222222222"

def matchM1 : String := "aaaaaaaa-aaaa-4aaa-8aaa-aaaaaaaaaaaa"

/-- A matches call at instant `now` (in seconds) that draws the id `uuid`, nothing failing. -/
def sampleMatchCall (nowSeconds : Int) (uuid : String) : MatchCall :=
  { now := nowSeconds * second, uuid := uuid, faults := MatchFaults.none }

/-- A request to create the match of team A against team B on 2030-01-01, status `scheduled`,
without scores. -/
def sampleCreateRequest : MatchRequestCreate :=
  { MatchDate := "2030-01-01", MatchTime := "19:30:00", HomeTeamID := teamA,
    AwayTeamID := teamB, HomeScore := none, AwayScore := none, Status := "scheduled" }

/-- The table after the sample request was created at second 1000 with the id `matchM1`. -/
def tableAfterCreate : List Match :=
  (sampleMatches.Create (sampleMatchCall 1000 matchM1) [] sampleCreateRequest).1

/-- The row `Create` stores for the sample request. -/
def sampleMatch : Match :=
  { ID := matchM1, MatchDate := 1893456000 * second, MatchTime := "19:30:00",
    HomeTeamID := teamA, AwayTeamID := teamB, HomeScore := none, AwayScore := none,
    Status := "scheduled", CreatedAt := 1000 * second, UpdatedAt := 1000 * second,
    DeletedAt := none, HomeTeam := { ID := "", Name := "" }, AwayTeam := { ID := "", Name := "" } }

def playerAna : Player := { ID := "p1", TeamID := teamA, Name := "Ana" }

def playerBea : Player := { ID := "p2", TeamID := teamB, Name := "Bea" }

def playerCid : Player := { ID := "p3", TeamID := teamA, Name := "Cid" }

def goalOf (id : String) (player : Player) (minute : Int) : Goal :=
  { ID := id, MatchID := matchM1, PlayerID := player.ID, GoalTime := minute,
    Player := some player }

/-- Five goals: Cid scores first and once, Bea and Ana score twice each, Bea before Ana. -/
def sampleGoals : List Goal :=
  [goalOf "g1" playerCid 3, goalOf "g2" playerBea 10, goalOf "g3" playerAna 20,
   goalOf "g4" playerAna 30, goalOf "g5" playerBea 40]

/-- The sample match once played, three goals to two. -/
def sampleFinishedMatch : Match :=
  { sampleMatch with HomeScore := some 3, AwayScore := some 2 }

/-- A request to update the sample match that names team B as the home team and leaves every
other field empty. -/
def sampleUpdateRequest : MatchRequestUpdate :=
  { ID := matchM1, MatchDate := "", MatchTime := "", HomeTeamID := teamB, AwayTeamID := "",
    HomeScore := none, AwayScore := none, Status := "" }

/-- The table after the sample update at second 2000. -/
def tableAfterUpdate : List Match :=
  (sampleMatches.Update (sampleMatchCall 2000 "-") tableAfterCreate sampleUpdateRequest).1

/-! ## Lemmas on the store -/

theorem Store.lookup_erase (s : Store) (now : Int) (k k2 : String) :
    (s.erase k2).lookup now k = if k = k2 then none else s.lookup now k := by
  induction s with
  | nil => simp [Store.erase, Store.lookup]
  | cons kv rest ih =>
    by_cases h2 : kv.1 = k2
    · have : Store.erase (kv :: rest) k2 = Store.erase rest k2 := by
        simp [Store.erase, List.filter_cons, h2]
      rw [this, ih]
      by_cases hk : k = k2
      · simp [hk]
      · have hne : ¬ kv.1 = k := fun h => hk (h ▸ h2)
        simp [hk, Store.lookup, List.find?_cons, hne]
    · have : Store.erase (kv :: rest) k2 = kv :: Store.erase rest k2 := by
        simp [Store.erase, List.filter_cons, h2]
      rw [this]
      by_cases hk : kv.1 = k
      · have hkk : ¬ k = k2 := fun h => h2 (hk.trans h)
        simp [Store.lookup, List.find?_cons, hk, hkk]
      · have := ih
        simp only [Store.lookup, List.find?_cons] at this ⊢
        have hb : (kv.1 == k) = false := by simpa using hk
        rw [hb]
        exact this

theorem Store.lookup_cons (s : Store) (now : Int) (k k2 : String) (e : Entry) :
    Store.lookup ((k2, e) :: s) now k =
      if k2 = k then (if e.live now then some e else none) else s.lookup now k := by
  by_cases h : k2 = k <;> simp [Store.lookup, List.find?_cons, h]

theorem refresh_error_of_absent (a : authUseCaseImpl) (c : Call) (s : Store) (id : String)
    (h : s.lookup c.now (tokenKey id) = none) :
    ∃ err, a.Refresh c s { ID := id } = (s, .error err) := by
  unfold authUseCaseImpl.Refresh
  split
  · exact ⟨_, rfl⟩
  · split
    · exact ⟨_, rfl⟩
    · exact ⟨_, rfl⟩
    · have hg : a.GetToken c s id = .error (if c.faults.redisGet then .unavailable else .Nil) := by
        unfold authUseCaseImpl.GetToken Store.Get
        split <;> simp [h, *]
      simp [hg]


theorem Store.erase_erase_comm (s : Store) (k k2 : String) :
    (s.erase k).erase k2 = (s.erase k2).erase k := by
  simp only [Store.erase, List.filter_filter]
  congr 1
  funext kv
  exact Bool.and_comm _ _

theorem Store.erase_idem (s : Store) (k : String) : (s.erase k).erase k = s.erase k := by
  simp [Store.erase, List.filter_filter]

/-! ## Lemmas on `Refresh` -/

theorem getToken_ok (a : authUseCaseImpl) (c : Call) (s : Store) (id : String) (token : TokenString)
    (h : a.GetToken c s id = .ok token) : s.Get c.now (tokenKey id) = .ok token := by
  unfold authUseCaseImpl.GetToken at h
  split at h
  · cases h
  · exact h

theorem getTTLOfToken_pos (a : authUseCaseImpl) (c : Call) (s : Store) (id : String)
    (h : ¬ a.GetTTLOfToken c s id ≤ 0) : 0 < s.TTL c.now (tokenKey id) := by
  unfold authUseCaseImpl.GetTTLOfToken at h
  split at h
  · simp at h
  · simp only at h
    split at h
    · simp at h
    · omega

theorem refresh_rejects_or_redeemable (a : authUseCaseImpl) (c : Call) (s : Store)
    (request : RefreshTokenRequest) :
    (∃ err, a.Refresh c s request = (s, .error err)) ∨
    (∃ token auth, s.Get c.now (tokenKey request.ID) = .ok token ∧
      0 < s.TTL c.now (tokenKey request.ID) ∧ a.ValidateToken c.now token = .ok auth) := by
  unfold authUseCaseImpl.Refresh
  split
  · exact .inl ⟨_, rfl⟩
  · split
    · exact .inl ⟨_, rfl⟩
    · exact .inl ⟨_, rfl⟩
    · split
      · exact .inl ⟨_, rfl⟩
      · rename_i token hget
        split
        · exact .inl ⟨_, rfl⟩
        · rename_i httl
          split
          · exact .inl ⟨_, rfl⟩
          · rename_i auth hval
            exact .inr ⟨token, auth, getToken_ok a c s _ token hget,
              getTTLOfToken_pos a c s _ httl, hval⟩


/-! ## Lemmas on `Login` and the token codec -/

theorem tokenKey_ne_userTokenSetKey (id userID : String) : tokenKey id ≠ userTokenSetKey userID := by
  intro h
  have := congrArg String.data h
  simp [tokenKey, userTokenSetKey, String.data_append] at this

theorem FindByEmail_of_mem (users : List User) (u : User) (hu : u ∈ users)
    (huniq : (users.map (fun v => v.Email)).Nodup) :
    FindByEmail false users u.Email = .ok u := by
  induction users with
  | nil => cases hu
  | cons v rest ih =>
    simp only [List.map_cons, List.nodup_cons] at huniq
    rcases List.mem_cons.mp hu with rfl | hmem
    · simp [FindByEmail, List.find?_cons]
    · have hne : v.Email ≠ u.Email := by
        intro he
        exact huniq.1 (he ▸ List.mem_map_of_mem (fun v => v.Email) hmem)
      have := ih hmem huniq.2
      simp only [FindByEmail, List.find?_cons] at this ⊢
      have hb : (v.Email == u.Email) = false := by simpa using hne
      simpa [hb] using this

theorem FindByEmail_of_not_mem (users : List User) (email : String)
    (h : ∀ u ∈ users, u.Email ≠ email) :
    FindByEmail false users email = .error .ErrRecordNotFound := by
  have : users.find? (fun u => u.Email == email) = none := by
    rw [List.find?_eq_none]
    intro u hu
    simpa using h u hu
  simp [FindByEmail, this]

theorem storeToken_ok (a : authUseCaseImpl) (c : Call) (s : Store) (refreshToken : TokenString)
    (refreshTokenID userID : String) (hf : c.faults = Faults.none)
    (hset : s.setOrAbsent c.now (userTokenSetKey userID) = true) :
    ∃ s1, a.StoreToken c s refreshToken refreshTokenID userID = (s1, none) := by
  have hlook : (s.Set c.now (tokenKey refreshTokenID) refreshToken
      a.JwtConfig.RefreshExpiry).lookup c.now (userTokenSetKey userID) =
      s.lookup c.now (userTokenSetKey userID) := by
    simp only [Store.Set]
    rw [Store.lookup_cons, Store.lookup_erase]
    simp [tokenKey_ne_userTokenSetKey, (tokenKey_ne_userTokenSetKey _ _).symm]
  unfold authUseCaseImpl.StoreToken
  simp only [hf, Faults.none, Bool.false_eq_true, if_false]
  unfold Store.SAdd
  rw [hlook]
  unfold Store.setOrAbsent at hset
  cases hl : s.lookup c.now (userTokenSetKey userID) with
  | none => exact ⟨_, rfl⟩
  | some e =>
    rw [hl] at hset
    cases hv : e.value with
    | str v => simp [hv] at hset
    | set ms =>
      simp only [hv]
      exact ⟨_, rfl⟩

theorem validateToken_signed (a : authUseCaseImpl) (t : Int) (claims : UserClaims)
    (h : claimsValid t claims = true) :
    a.ValidateToken t (SignedString .HS256 claims a.JwtConfig.SecretKey) =
      .ok { ID := claims.ID, Role := claims.Role } := by
  simp [authUseCaseImpl.ValidateToken, ParseWithClaims, keyFunc, SignedString,
    SigningMethod.isHMAC, h]

theorem lt_NewNumericDate (now d : Int) (h : second ≤ d) : now < NewNumericDate (now + d) := by
  unfold NewNumericDate
  have h1 : (now + d) % second < second := Int.emod_lt_of_pos _ (by decide)
  omega


theorem generateToken_eq (a : authUseCaseImpl) (c : Call) (id role : String)
    (h1 : c.faults.signAccess = false) (h2 : c.faults.signRefresh = false) :
    a.GenerateToken c id role = .ok
      (SignedString .HS256
        { ID := id, Role := role, TokenID := c.uuid,
          ExpiresAt := some (NewNumericDate (c.now + a.JwtConfig.AccessExpiry)),
          NotBefore := none, Issuer := a.JwtConfig.Issuer } a.JwtConfig.SecretKey,
       SignedString .HS256
        { ID := id, Role := role, TokenID := c.uuid,
          ExpiresAt := some (NewNumericDate (c.now + a.JwtConfig.RefreshExpiry)),
          NotBefore := none, Issuer := a.JwtConfig.Issuer } a.JwtConfig.SecretKey,
       c.uuid, NewNumericDate (c.now + a.JwtConfig.AccessExpiry)) := by
  simp [authUseCaseImpl.GenerateToken, h1, h2]

/-- The two rejections of `Login` for credentials: a wrong password, an email of no user. -/
theorem login_rejection_cases (a : authUseCaseImpl) (c : Call) (s : Store)
    (request : LoginRequest) (hvalid : loginRequestErrors a.deps request = [])
    (hdb : c.faults.dbFind = false) (huniq : (a.UsersRepo.map (fun v => v.Email)).Nodup) :
    (∀ u ∈ a.UsersRepo, u.Email = request.Email →
      a.deps.CompareHashAndPassword u.PasswordHash request.Password = false →
      a.Login c s request = (s, .error
        { Code := "UNAUTHORIZED", Message := "Invalid credentials",
          Details := [{ Field := "email", Message := request.Email }], Timestamp := c.now,
          HTTPCode := 401 })) ∧
    ((∀ u ∈ a.UsersRepo, u.Email ≠ request.Email) →
      a.Login c s request = (s, .error
        { Code := "NOT_FOUND", Message := "User not found not found",
          Details := [{ Field := "email", Message := request.Email }], Timestamp := c.now,
          HTTPCode := 404 })) := by
  constructor
  · intro u hu hemail hpw
    have hfind : FindByEmail c.faults.dbFind a.UsersRepo request.Email = .ok u := by
      rw [hdb, ← hemail]
      exact FindByEmail_of_mem _ u hu huniq
    unfold authUseCaseImpl.Login
    simp only [hvalid, ValidateStruct, List.isEmpty_nil, if_true, hfind, hpw, Bool.not_false]
    rfl
  · intro hnone
    have hfind : FindByEmail c.faults.dbFind a.UsersRepo request.Email =
        .error .ErrRecordNotFound := by
      rw [hdb]
      exact FindByEmail_of_not_mem _ _ hnone
    unfold authUseCaseImpl.Login
    simp only [hvalid, ValidateStruct, List.isEmpty_nil, if_true, hfind]
    rfl

/-! ## Replay protection and rotation -/

/-- C1 (defect of the code): with a refresh lifetime of 7 days, the family id `F1` issued at
second 0 is redeemed at second 10, which sets its UsedMarker; at second 309 a second redemption is
rejected as replay; at second 311, when the five minutes of the marker are over and the
SessionRecord of `F1` still has a positive TTL, `Refresh` redeems `F1` once more and mints a
new pair. -/
theorem refresh_redeems_again_after_marker_expiry :
    (sampleUseCase.Refresh (sampleCall 10 "F2") storeAfterLogin { ID := "F1" }).2 =
      .ok { RefreshTokenID := "F2",
            AccessToken := SignedString .HS256
              { ID := "u1", Role := "admin", TokenID := "F2", ExpiresAt := some (910 * second),
                NotBefore := none, Issuer := "football-api" } "secret",
            AccessExpiry := 910 } ∧
    storeAfterRefresh.Exists (10 * second) (usedKey "F1") = 1 ∧
    (sampleUseCase.Refresh (sampleCall 309 "F3") storeAfterRefresh { ID := "F1" }).2 =
      .error ((ErrUnauthorized (309 * second) "Token is already used").WithDetail "id" "F1") ∧
    storeAfterRefresh.Exists (311 * second) (usedKey "F1") = 0 ∧
    0 < storeAfterRefresh.TTL (311 * second) (tokenKey "F1") ∧
    (sampleUseCase.Refresh (sampleCall 311 "F3") storeAfterRefresh { ID := "F1" }).2 =
      .ok { RefreshTokenID := "F3",
            AccessToken := SignedString .HS256
              { ID := "u1", Role := "admin", TokenID := "F3", ExpiresAt := some (1211 * second),
                NotBefore := none, Issuer := "football-api" } "secret",
            AccessExpiry := 1211 } := by
  decide

/-- C2 (defect of the code): after the successful `Refresh` of `F1` at second 10 the SessionRecord
`token:F1` is still in the store, with the refresh token minted at login, next to the record
`token:F2` of the new family id. -/
theorem refresh_keeps_old_session_record :
    (sampleUseCase.Refresh (sampleCall 10 "F2") storeAfterLogin { ID := "F1" }).2.isOk = true ∧
    storeAfterRefresh.Get (10 * second) (tokenKey "F1") =
      .ok (SignedString .HS256
        { ID := "u1", Role := "admin", TokenID := "F1", ExpiresAt := some (604800 * second),
          NotBefore := none, Issuer := "football-api" } "secret") ∧
    storeAfterRefresh.TTL (10 * second) (tokenKey "F1") = 604790 * second ∧
    storeAfterRefresh.Get (10 * second) (tokenKey "F2") =
      .ok (SignedString .HS256
        { ID := "u1", Role := "admin", TokenID := "F2", ExpiresAt := some (604810 * second),
          NotBefore := none, Issuer := "football-api" } "secret") := by
  decide

/-- C3: `Refresh` returns a token pair only if the store holds a live SessionRecord for the
family id (the `GET` of `token:<id>` succeeds and its TTL is positive) and the stored string
passes `ValidateToken`; when that fails, `Refresh` returns an error, no pair, and leaves the
store as it was. -/
theorem refresh_requires_live_record_and_valid_token (a : authUseCaseImpl) (c : Call)
    (s : Store) (request : RefreshTokenRequest) :
    (∀ s1 resp, a.Refresh c s request = (s1, .ok resp) →
      ∃ token auth, s.Get c.now (tokenKey request.ID) = .ok token ∧
        0 < s.TTL c.now (tokenKey request.ID) ∧ a.ValidateToken c.now token = .ok auth) ∧
    ((¬ ∃ token auth, s.Get c.now (tokenKey request.ID) = .ok token ∧
        0 < s.TTL c.now (tokenKey request.ID) ∧ a.ValidateToken c.now token = .ok auth) →
      ∃ err, a.Refresh c s request = (s, .error err)) := by
  constructor
  · intro s1 resp h
    rcases refresh_rejects_or_redeemable a c s request with ⟨err, herr⟩ | hred
    · rw [herr] at h
      cases h
    · exact hred
  · intro hnot
    rcases refresh_rejects_or_redeemable a c s request with herr | hred
    · exact herr
    · exact absurd hred hnot

/-- Witness of C3 on the store left by a login. -/
theorem refresh_requires_live_record_and_valid_token_witness :
    ∃ token auth, storeAfterLogin.Get (10 * second) (tokenKey "F1") = .ok token ∧
      0 < storeAfterLogin.TTL (10 * second) (tokenKey "F1") ∧
      sampleUseCase.ValidateToken (10 * second) token = .ok auth :=
  (refresh_requires_live_record_and_valid_token sampleUseCase (sampleCall 10 "F2")
    storeAfterLogin { ID := "F1" }).1 storeAfterRefresh
    { RefreshTokenID := "F2",
      AccessToken := SignedString .HS256
        { ID := "u1", Role := "admin", TokenID := "F2", ExpiresAt := some (910 * second),
          NotBefore := none, Issuer := "football-api" } "secret",
      AccessExpiry := 910 } (by decide)

/-! ## Logout -/

/-- C4: after `Logout` of a family id returned without error, a direct lookup of its SessionRecord
key finds nothing at any instant, and every later `Refresh` of that id returns an error, no
tokens, and writes nothing. -/
theorem logout_then_lookup_absent_and_refresh_fails (a : authUseCaseImpl) (c : Call) (s s1 : Store)
    (request : LogoutRequest) (h : a.Logout c s request = (s1, none)) :
    (∀ t, s1.Get t (tokenKey request.RefreshTokenID) = .error .Nil) ∧
    (∀ c2, ∃ err, a.Refresh c2 s1 { ID := request.RefreshTokenID } = (s1, .error err)) := by
  have habs : ∀ t, s1.lookup t (tokenKey request.RefreshTokenID) = none := by
    intro t
    unfold authUseCaseImpl.Logout at h
    split at h
    · cases h
    · simp only at h
      split at h
      · cases h
        simp [Store.Del, Store.lookup_erase]
      · cases h
        simp [Store.Del, Store.lookup_erase]
  constructor
  · intro t
    simp [Store.Get, habs t]
  · intro c2
    exact refresh_error_of_absent a c2 s1 _ (habs c2.now)

/-- Witness of C4: logging `F1` out of the store left by a login. -/
theorem logout_then_lookup_absent_and_refresh_fails_witness :
    sampleUseCase.Logout (sampleCall 20 "-") storeAfterLogin { RefreshTokenID := "F1" } =
      ((storeAfterLogin.Del (tokenKey "F1")).Del (usedKey "F1"), none) ∧
    (∀ t, ((storeAfterLogin.Del (tokenKey "F1")).Del (usedKey "F1")).Get t (tokenKey "F1") =
      .error .Nil) ∧
    (∀ c2, ∃ err, sampleUseCase.Refresh c2 ((storeAfterLogin.Del (tokenKey "F1")).Del
        (usedKey "F1")) { ID := "F1" } =
      ((storeAfterLogin.Del (tokenKey "F1")).Del (usedKey "F1"), .error err)) :=
  ⟨rfl, logout_then_lookup_absent_and_refresh_fails sampleUseCase (sampleCall 20 "-")
    storeAfterLogin _ { RefreshTokenID := "F1" } rfl⟩

/-- C5: when the deletions of the store succeed, `Logout` returns no error on every store, also
on one that holds neither the SessionRecord nor the UsedMarker of the id, and a second `Logout`
of the same id returns no error and leaves the store of the first. -/
theorem logout_idempotent (a : authUseCaseImpl) (c1 c2 : Call) (s : Store)
    (request : LogoutRequest)
    (h1 : c1.faults.redisDelToken = false ∧ c1.faults.redisDelUsed = false)
    (h2 : c2.faults.redisDelToken = false ∧ c2.faults.redisDelUsed = false) :
    (a.Logout c1 s request).2 = none ∧
    a.Logout c2 (a.Logout c1 s request).1 request = ((a.Logout c1 s request).1, none) := by
  obtain ⟨h1t, h1u⟩ := h1
  obtain ⟨h2t, h2u⟩ := h2
  have hone : ∀ s0, a.Logout c1 s0 request =
      ((s0.erase (tokenKey request.RefreshTokenID)).erase (usedKey request.RefreshTokenID),
        none) := by
    intro s0
    simp [authUseCaseImpl.Logout, h1t, h1u, Store.Del]
  have htwo : ∀ s0, a.Logout c2 s0 request =
      ((s0.erase (tokenKey request.RefreshTokenID)).erase (usedKey request.RefreshTokenID),
        none) := by
    intro s0
    simp [authUseCaseImpl.Logout, h2t, h2u, Store.Del]
  refine ⟨by rw [hone], ?_⟩
  rw [htwo, hone]
  simp only
  rw [Store.erase_erase_comm (s.erase _) (usedKey _) (tokenKey _), Store.erase_idem,
    Store.erase_idem]

/-- Witness of C5: logging `F1` out of the empty store, twice. -/
theorem logout_idempotent_witness :
    (((sampleCall 20 "-").faults.redisDelToken = false ∧
      (sampleCall 20 "-").faults.redisDelUsed = false) ∧
     ((sampleCall 21 "-").faults.redisDelToken = false ∧
      (sampleCall 21 "-").faults.redisDelUsed = false)) ∧
    (sampleUseCase.Logout (sampleCall 20 "-") Store.empty { RefreshTokenID := "F1" }).2 = none ∧
    sampleUseCase.Logout (sampleCall 21 "-")
      (sampleUseCase.Logout (sampleCall 20 "-") Store.empty { RefreshTokenID := "F1" }).1
      { RefreshTokenID := "F1" } =
      ((sampleUseCase.Logout (sampleCall 20 "-") Store.empty { RefreshTokenID := "F1" }).1, none) :=
  ⟨⟨⟨rfl, rfl⟩, ⟨rfl, rfl⟩⟩,
    logout_idempotent sampleUseCase (sampleCall 20 "-") (sampleCall 21 "-") Store.empty
      { RefreshTokenID := "F1" } ⟨rfl, rfl⟩ ⟨rfl, rfl⟩⟩

/-- C6 (defect of the code): a family id without UsedMarker whose SessionRecord is absent, here
one never issued and one removed by `Logout`, is not rejected as expired: `Refresh` returns
`INTERNAL_SERVER_ERROR` with status 500 and the message `Failed to get token`. -/
theorem refresh_of_absent_record_is_internal_error :
    Store.Exists Store.empty 0 (usedKey "F1") = 0 ∧
    Store.TTL Store.empty 0 (tokenKey "F1") ≤ 0 ∧
    sampleUseCase.Refresh (sampleCall 0 "F2") Store.empty { ID := "F1" } =
      (Store.empty, .error
        { Code := "INTERNAL_SERVER_ERROR", Message := "Failed to get token",
          Details := [{ Field := "id", Message := "F1" }], Timestamp := 0, HTTPCode := 500 }) ∧
    (sampleUseCase.Refresh (sampleCall 30 "F2")
      (sampleUseCase.Logout (sampleCall 20 "-") storeAfterLogin { RefreshTokenID := "F1" }).1
      { ID := "F1" }).2 =
      .error
        { Code := "INTERNAL_SERVER_ERROR", Message := "Failed to get token",
          Details := [{ Field := "id", Message := "F1" }], Timestamp := 30 * second,
          HTTPCode := 500 } := by
  decide

/-! ## Login -/

/-- C7 (amended): for a stored user (emails are unique in the users table), a request with that
user's email and a password bcrypt accepts, which passes the struct validator, with every
collaborator available and the user's token-set key not held by a string, `Login` succeeds; at
every instant before the expiry claim of the returned access token (the login instant plus the
access lifetime, cut to whole seconds) `ValidateToken` accepts it and yields the user's id and
role, and the instant of the login itself is such an instant when the access lifetime is at least
one second. -/
theorem login_access_token_validates (a : authUseCaseImpl) (c : Call) (s : Store) (u : User)
    (request : LoginRequest)
    (hu : u ∈ a.UsersRepo) (huniq : (a.UsersRepo.map (fun v => v.Email)).Nodup)
    (hemail : request.Email = u.Email)
    (hpw : a.deps.CompareHashAndPassword u.PasswordHash request.Password = true)
    (hvalid : loginRequestErrors a.deps request = [])
    (havail : c.faults = Faults.none)
    (hset : s.setOrAbsent c.now (userTokenSetKey u.ID) = true) :
    ∃ s1 resp, a.Login c s request = (s1, .ok resp) ∧
      (∀ t, t < NewNumericDate (c.now + a.JwtConfig.AccessExpiry) →
        a.ValidateToken t resp.AccessToken = .ok { ID := u.ID, Role := u.Role }) ∧
      (second ≤ a.JwtConfig.AccessExpiry →
        a.ValidateToken c.now resp.AccessToken = .ok { ID := u.ID, Role := u.Role }) := by
  have hfind : FindByEmail c.faults.dbFind a.UsersRepo request.Email = .ok u := by
    rw [havail, hemail]
    exact FindByEmail_of_mem _ u hu huniq
  have hgen := generateToken_eq a c u.ID u.Role (by rw [havail]; rfl) (by rw [havail]; rfl)
  obtain ⟨s1, hstore⟩ := storeToken_ok a c s
    (SignedString .HS256
        { ID := u.ID, Role := u.Role, TokenID := c.uuid,
          ExpiresAt := some (NewNumericDate (c.now + a.JwtConfig.RefreshExpiry)),
          NotBefore := none, Issuer := a.JwtConfig.Issuer } a.JwtConfig.SecretKey)
    c.uuid u.ID havail hset
  have hc : c.faults.commit = false := by rw [havail]; rfl
  have hs : c.faults.send = false := by rw [havail]; rfl
  have hval : ∀ t, t < NewNumericDate (c.now + a.JwtConfig.AccessExpiry) →
      a.ValidateToken t (SignedString .HS256
        { ID := u.ID, Role := u.Role, TokenID := c.uuid,
          ExpiresAt := some (NewNumericDate (c.now + a.JwtConfig.AccessExpiry)),
          NotBefore := none, Issuer := a.JwtConfig.Issuer } a.JwtConfig.SecretKey) =
        .ok { ID := u.ID, Role := u.Role } := by
    intro t ht
    exact validateToken_signed a t _ (by simp [claimsValid, ht])
  refine ⟨s1, ToLoginResponse u (SignedString .HS256
        { ID := u.ID, Role := u.Role, TokenID := c.uuid,
          ExpiresAt := some (NewNumericDate (c.now + a.JwtConfig.AccessExpiry)),
          NotBefore := none, Issuer := a.JwtConfig.Issuer } a.JwtConfig.SecretKey) c.uuid
        (NewNumericDate (c.now + a.JwtConfig.AccessExpiry)), ?_, ?_, ?_⟩
  · unfold authUseCaseImpl.Login
    simp only [hvalid, ValidateStruct, List.isEmpty_nil, if_true, hfind, hpw, hgen, hstore, hc, hs,
      Bool.not_true, Bool.false_eq_true, if_false]
  · exact hval
  · intro hsec
    exact hval c.now (lt_NewNumericDate _ _ hsec)


/-- Witness of C7 (amended): the login of `ana` into the empty store. -/
theorem login_access_token_validates_witness :
    ∃ s1 resp, sampleUseCase.Login (sampleCall 0 "F1") Store.empty
        { Email := "ana@club.io", Password := "correct-horse" } = (s1, .ok resp) ∧
      (∀ t, t < NewNumericDate ((sampleCall 0 "F1").now + sampleUseCase.JwtConfig.AccessExpiry) →
        sampleUseCase.ValidateToken t resp.AccessToken =
          .ok { ID := sampleUser.ID, Role := sampleUser.Role }) ∧
      (second ≤ sampleUseCase.JwtConfig.AccessExpiry →
        sampleUseCase.ValidateToken (sampleCall 0 "F1").now resp.AccessToken =
          .ok { ID := sampleUser.ID, Role := sampleUser.Role }) :=
  login_access_token_validates sampleUseCase (sampleCall 0 "F1") Store.empty sampleUser
    { Email := "ana@club.io", Password := "correct-horse" } (by decide) (by decide) rfl
    (by decide) (by decide) rfl (by decide)

/-- C8 (as stated, refuted): credentials that belong to no user do not give `UNAUTHORIZED` / 401;
`Login` answers `NOT_FOUND` / 404. -/
theorem login_unknown_email_is_not_found :
    (∀ u ∈ sampleUseCase.UsersRepo, u.Email ≠ "bob@club.io") ∧
    sampleUseCase.Login (sampleCall 0 "F1") Store.empty
        { Email := "bob@club.io", Password := "correct-horse" } =
      (Store.empty, .error
        { Code := "NOT_FOUND", Message := "User not found not found",
          Details := [{ Field := "email", Message := "bob@club.io" }], Timestamp := 0,
          HTTPCode := 404 }) := by
  decide

/-- C8 (amended): for a request that passes the struct validator, with the users table readable
and emails unique in it, a wrong password for an existing user makes `Login` return
`UNAUTHORIZED` / 401 `Invalid credentials`, and an email of no user makes it return `NOT_FOUND` /
404; in both cases no tokens are returned and the store is left as it was. -/
theorem login_rejects_invalid_credentials (a : authUseCaseImpl) (c : Call) (s : Store)
    (request : LoginRequest) (hvalid : loginRequestErrors a.deps request = [])
    (hdb : c.faults.dbFind = false) (huniq : (a.UsersRepo.map (fun v => v.Email)).Nodup) :
    (∀ u ∈ a.UsersRepo, u.Email = request.Email →
      a.deps.CompareHashAndPassword u.PasswordHash request.Password = false →
      a.Login c s request = (s, .error
        { Code := "UNAUTHORIZED", Message := "Invalid credentials",
          Details := [{ Field := "email", Message := request.Email }], Timestamp := c.now,
          HTTPCode := 401 })) ∧
    ((∀ u ∈ a.UsersRepo, u.Email ≠ request.Email) →
      a.Login c s request = (s, .error
        { Code := "NOT_FOUND", Message := "User not found not found",
          Details := [{ Field := "email", Message := request.Email }], Timestamp := c.now,
          HTTPCode := 404 })) :=
  login_rejection_cases a c s request hvalid hdb huniq

/-- Witness of C8 (amended): a wrong password for `ana`, and the email of nobody. -/
theorem login_rejects_invalid_credentials_witness :
    sampleUseCase.Login (sampleCall 0 "F1") storeAfterLogin
        { Email := "ana@club.io", Password := "wrong-horse" } =
      (storeAfterLogin, .error
        { Code := "UNAUTHORIZED", Message := "Invalid credentials",
          Details := [{ Field := "email", Message := "ana@club.io" }],
          Timestamp := (sampleCall 0 "F1").now, HTTPCode := 401 }) :=
  (login_rejects_invalid_credentials sampleUseCase (sampleCall 0 "F1") storeAfterLogin
    { Email := "ana@club.io", Password := "wrong-horse" } (by decide) rfl (by decide)).1
    sampleUser (by decide) rfl (by decide)


/-! ## What a failure tells the caller -/

/-- C9 (as stated, refuted): two failing logins, one with the email of nobody and one with a wrong
password, are answered with different statuses and different messages; so are two failing
refreshes, one replayed and one whose stored string is no valid token. -/
theorem failures_are_distinguishable :
    (AuthController.Login sampleUseCase (sampleCall 20 "F9") storeAfterRefresh
        (some { Email := "bob@club.io", Password := "correct-horse" })).2.Status = 404 ∧
    (AuthController.Login sampleUseCase (sampleCall 20 "F9") storeAfterRefresh
        (some { Email := "bob@club.io", Password := "correct-horse" })).2.message? =
      some "User not found not found" ∧
    (AuthController.Login sampleUseCase (sampleCall 20 "F9") storeAfterRefresh
        (some { Email := "ana@club.io", Password := "wrong-horse" })).2.Status = 401 ∧
    (AuthController.Login sampleUseCase (sampleCall 20 "F9") storeAfterRefresh
        (some { Email := "ana@club.io", Password := "wrong-horse" })).2.message? =
      some "Invalid credentials" ∧
    (AuthController.Refresh sampleUseCase (sampleCall 20 "F9") storeAfterRefresh
        (some "F1")).2.message? = some "Token is already used" ∧
    (AuthController.Refresh sampleUseCase (sampleCall 20 "F9") storeWithoutExpiry
        (some "P1")).2.message? = some "Token expired" ∧
    (AuthController.Refresh sampleUseCase (sampleCall 20 "F9") storeWithGarbage
        (some "G1")).2.message? = some "Invalid token" ∧
    (AuthController.Login sampleUseCase (sampleCall 20 "F9") storeAfterRefresh
        (some { Email := "bob@club.io", Password := "correct-horse" })).2.message? ≠
      (AuthController.Login sampleUseCase (sampleCall 20 "F9") storeAfterRefresh
        (some { Email := "ana@club.io", Password := "wrong-horse" })).2.message? ∧
    (AuthController.Refresh sampleUseCase (sampleCall 20 "F9") storeAfterRefresh
        (some "F1")).2.message? ≠
      (AuthController.Refresh sampleUseCase (sampleCall 20 "F9") storeWithGarbage
        (some "G1")).2.message? := by
  decide

/-- C9 (amended): the handlers pass the code, message and details of the use case's error on to
the caller, and these name the check that failed. A login with the email of nobody is answered
404 `NOT_FOUND` `User not found not found`, one with a wrong password 401 `UNAUTHORIZED`
`Invalid credentials`. A refresh of an id whose UsedMarker exists is answered 401 `Token is
already used`, one whose record is read but has no positive TTL 401 `Token expired`, one whose
stored string fails validation 401 `Invalid token`; the three share the code `UNAUTHORIZED`. None
of these calls changes the store. -/
theorem failures_name_the_failed_check (a : authUseCaseImpl) (c : Call) (s : Store) :
    (∀ request, loginRequestErrors a.deps request = [] → c.faults.dbFind = false →
      (a.UsersRepo.map (fun v => v.Email)).Nodup →
      ((∀ u ∈ a.UsersRepo, u.Email ≠ request.Email) →
        AuthController.Login a c s (some request) =
          (s, { Status := 404, SetCookie := none,
                Body := .failure
                  { Success := false,
                    Error := { Code := "NOT_FOUND", Message := "User not found not found",
                               Details := [{ Field := "email", Message := request.Email }] },
                    Timestamp := c.now } })) ∧
      (∀ u ∈ a.UsersRepo, u.Email = request.Email →
        a.deps.CompareHashAndPassword u.PasswordHash request.Password = false →
        AuthController.Login a c s (some request) =
          (s, { Status := 401, SetCookie := none,
                Body := .failure
                  { Success := false,
                    Error := { Code := "UNAUTHORIZED", Message := "Invalid credentials",
                               Details := [{ Field := "email", Message := request.Email }] },
                    Timestamp := c.now } }))) ∧
    (∀ id, a.deps.validateRefreshTokenRequest id = [] → c.faults.redisExists = false →
      (s.Exists c.now (usedKey id) = 1 →
        AuthController.Refresh a c s (some id) =
          (s, { Status := 401, SetCookie := none,
                Body := .failure
                  { Success := false,
                    Error := { Code := "UNAUTHORIZED", Message := "Token is already used",
                               Details := [{ Field := "id", Message := id }] },
                    Timestamp := c.now } })) ∧
      (∀ token, s.Exists c.now (usedKey id) = 0 → c.faults.redisGet = false →
        s.Get c.now (tokenKey id) = .ok token →
        ((c.faults.redisTTL = true ∨ s.TTL c.now (tokenKey id) ≤ 0) →
          AuthController.Refresh a c s (some id) =
            (s, { Status := 401, SetCookie := none,
                  Body := .failure
                    { Success := false,
                      Error := { Code := "UNAUTHORIZED", Message := "Token expired",
                                 Details := [{ Field := "id", Message := id }] },
                      Timestamp := c.now } })) ∧
        (c.faults.redisTTL = false → 0 < s.TTL c.now (tokenKey id) →
          (∀ auth, a.ValidateToken c.now token ≠ .ok auth) →
          AuthController.Refresh a c s (some id) =
            (s, { Status := 401, SetCookie := none,
                  Body := .failure
                    { Success := false,
                      Error := { Code := "UNAUTHORIZED", Message := "Invalid token",
                                 Details := [{ Field := "id", Message := id }] },
                      Timestamp := c.now } })))) := by
  refine ⟨?_, ?_⟩
  · intro request hvalid hdb huniq
    have h := login_rejection_cases a c s request hvalid hdb huniq
    refine ⟨fun hnone => ?_, fun u hu hemail hpw => ?_⟩
    · simp only [AuthController.Login, h.2 hnone]
      rfl
    · simp only [AuthController.Login, h.1 u hu hemail hpw]
      rfl
  · intro id hvalid hex
    refine ⟨fun hused => ?_, fun token hunused hget hgot => ⟨fun httl => ?_, fun hf httl hbad => ?_⟩⟩
    · simp only [AuthController.Refresh, authUseCaseImpl.Refresh, ValidateStruct, hvalid,
        List.isEmpty_nil, if_true, authUseCaseImpl.IsTokenUsed, hex, hused, Bool.false_eq_true,
        if_false, beq_self_eq_true]
      rfl
    · have hg : a.GetToken c s id = .ok token := by
        simp [authUseCaseImpl.GetToken, hget, hgot]
      have ht : a.GetTTLOfToken c s id ≤ 0 := by
        unfold authUseCaseImpl.GetTTLOfToken
        rcases httl with hf | hle
        · simp [hf]
        · simp [hle]
      simp only [AuthController.Refresh, authUseCaseImpl.Refresh, ValidateStruct, hvalid,
        List.isEmpty_nil, if_true, authUseCaseImpl.IsTokenUsed, hex, hunused, Bool.false_eq_true,
        if_false, hg, ht]
      rfl
    · have hg : a.GetToken c s id = .ok token := by
        simp [authUseCaseImpl.GetToken, hget, hgot]
      have ht : ¬ a.GetTTLOfToken c s id ≤ 0 := by
        unfold authUseCaseImpl.GetTTLOfToken
        simp only [hf, Bool.false_eq_true, if_false]
        split <;> omega
      have hv : ∃ err, a.ValidateToken c.now token = .error err := by
        cases hres : a.ValidateToken c.now token with
        | error err => exact ⟨err, rfl⟩
        | ok auth => exact absurd hres (hbad auth)
      obtain ⟨err, hv⟩ := hv
      simp only [AuthController.Refresh, authUseCaseImpl.Refresh, ValidateStruct, hvalid,
        List.isEmpty_nil, if_true, authUseCaseImpl.IsTokenUsed, hex, hunused, Bool.false_eq_true,
        if_false, hg, ht, hv]
      rfl


/-- Witness of C9 (amended): a wrong password for `ana` and a replay of `F1`, both against the
store left by the rotation of `F1`. -/
theorem failures_name_the_failed_check_witness :
    AuthController.Login sampleUseCase (sampleCall 20 "F9") storeAfterRefresh
        (some { Email := "ana@club.io", Password := "wrong-horse" }) =
      (storeAfterRefresh,
        { Status := 401, SetCookie := none,
          Body := .failure
            { Success := false,
              Error := { Code := "UNAUTHORIZED", Message := "Invalid credentials",
                         Details := [{ Field := "email", Message := "ana@club.io" }] },
              Timestamp := (sampleCall 20 "F9").now } }) ∧
    AuthController.Refresh sampleUseCase (sampleCall 20 "F9") storeAfterRefresh (some "F1") =
      (storeAfterRefresh,
        { Status := 401, SetCookie := none,
          Body := .failure
            { Success := false,
              Error := { Code := "UNAUTHORIZED", Message := "Token is already used",
                         Details := [{ Field := "id", Message := "F1" }] },
              Timestamp := (sampleCall 20 "F9").now } }) :=
  ⟨((failures_name_the_failed_check sampleUseCase (sampleCall 20 "F9") storeAfterRefresh).1
      { Email := "ana@club.io", Password := "wrong-horse" } (by decide) rfl (by decide)).2
      sampleUser (by decide) rfl (by decide),
   ((failures_name_the_failed_check sampleUseCase (sampleCall 20 "F9") storeAfterRefresh).2
      "F1" (by decide) rfl).1 (by decide)⟩

/-! ## Token pairs -/

/-- C10: the access token and the refresh token of one `GenerateToken` call are both signed with
HS256 under the configured key, carry the family id returned to the caller, the given subject id
and role and the configured issuer, and their claims are equal once the expiry claim is set
aside. -/
theorem generateToken_pair_shares_claims (a : authUseCaseImpl) (c : Call) (id role : String)
    (accessToken refreshToken : TokenString) (tokenID : String) (accessExpiry : Int)
    (h : a.GenerateToken c id role = .ok (accessToken, refreshToken, tokenID, accessExpiry)) :
    ∃ claims refreshClaims,
      accessToken = SignedString .HS256 claims a.JwtConfig.SecretKey ∧
      refreshToken = SignedString .HS256 refreshClaims a.JwtConfig.SecretKey ∧
      claims.TokenID = tokenID ∧ refreshClaims.TokenID = tokenID ∧
      claims.ID = id ∧ refreshClaims.ID = id ∧
      claims.Role = role ∧ refreshClaims.Role = role ∧
      claims.Issuer = a.JwtConfig.Issuer ∧ refreshClaims.Issuer = a.JwtConfig.Issuer ∧
      { claims with ExpiresAt := refreshClaims.ExpiresAt } = refreshClaims := by
  unfold authUseCaseImpl.GenerateToken at h
  split at h
  · cases h
  · simp only at h
    split at h
    · cases h
    · simp only [Except.ok.injEq, Prod.mk.injEq] at h
      obtain ⟨h1, h2, h3, _⟩ := h
      subst h1 h2 h3
      exact ⟨_, _, rfl, rfl, rfl, rfl, rfl, rfl, rfl, rfl, rfl, rfl, rfl⟩

/-- Witness of C10: the pair minted for `u1` at second 0. -/
theorem generateToken_pair_shares_claims_witness :
    ∃ claims refreshClaims,
      SignedString .HS256
        { ID := "u1", Role := "admin", TokenID := "F1", ExpiresAt := some (900 * second),
          NotBefore := none, Issuer := "football-api" } "secret" =
        SignedString .HS256 claims sampleUseCase.JwtConfig.SecretKey ∧
      SignedString .HS256
        { ID := "u1", Role := "admin", TokenID := "F1", ExpiresAt := some (604800 * second),
          NotBefore := none, Issuer := "football-api" } "secret" =
        SignedString .HS256 refreshClaims sampleUseCase.JwtConfig.SecretKey ∧
      claims.TokenID = "F1" ∧ refreshClaims.TokenID = "F1" ∧
      claims.ID = "u1" ∧ refreshClaims.ID = "u1" ∧
      claims.Role = "admin" ∧ refreshClaims.Role = "admin" ∧
      claims.Issuer = sampleUseCase.JwtConfig.Issuer ∧
      refreshClaims.Issuer = sampleUseCase.JwtConfig.Issuer ∧
      { claims with ExpiresAt := refreshClaims.ExpiresAt } = refreshClaims :=
  generateToken_pair_shares_claims sampleUseCase (sampleCall 0 "F1") "u1" "admin" _ _ "F1"
    (900 * second) (by decide)


/-! ## Lemmas on the parser, `Login` and the two parts of `Refresh` -/

theorem validateToken_ok_iff (a : authUseCaseImpl) (now : Int) (tokenString : TokenString)
    (auth : Auth) :
    a.ValidateToken now tokenString = .ok auth ↔
      ∃ t, tokenString = .signed t ∧ t.method.isHMAC = true ∧
        t.sig = some (t.method, a.JwtConfig.SecretKey) ∧ claimsValid now t.claims = true ∧
        auth = { ID := t.claims.ID, Role := t.claims.Role } := by
  cases tokenString with
  | malformed raw => simp [authUseCaseImpl.ValidateToken, ParseWithClaims]
  | signed t =>
    by_cases hm : t.method.isHMAC = true
    · by_cases hs : t.sig = some (t.method, a.JwtConfig.SecretKey)
      · by_cases hc : claimsValid now t.claims = true
        · simp only [authUseCaseImpl.ValidateToken, ParseWithClaims, keyFunc, hm, hs, hc, if_true,
            Except.ok.injEq, TokenString.signed.injEq]
          constructor
          · intro h
            exact ⟨t, rfl, hm, hs, hc, h.symm⟩
          · rintro ⟨t2, rfl, _, _, _, h⟩
            exact h.symm
        · simp [authUseCaseImpl.ValidateToken, ParseWithClaims, keyFunc, hm, hs, hc]
      · simp [authUseCaseImpl.ValidateToken, ParseWithClaims, keyFunc, hm, hs]
    · simp [authUseCaseImpl.ValidateToken, ParseWithClaims, keyFunc, hm]

theorem validateToken_error_shape (a : authUseCaseImpl) (now : Int) (tokenString : TokenString)
    (e : JwtError) (h : ParseWithClaims a.JwtConfig.SecretKey now tokenString = .error e) :
    a.ValidateToken now tokenString =
      .error { Code := "UNAUTHORIZED", Message := "Invalid token",
               Details := [{ Field := "token", Message := tokenString.text a.deps }],
               Timestamp := now, HTTPCode := 401 } := by
  simp only [authUseCaseImpl.ValidateToken, h]
  rfl

theorem login_ok_inv (a : authUseCaseImpl) (c : Call) (s s1 : Store) (request : LoginRequest)
    (resp : LoginResponse) (h : a.Login c s request = (s1, .ok resp)) :
    ∃ u, FindByEmail c.faults.dbFind a.UsersRepo request.Email = .ok u ∧
      resp = ToLoginResponse u
        (SignedString .HS256
          { ID := u.ID, Role := u.Role, TokenID := c.uuid,
            ExpiresAt := some (NewNumericDate (c.now + a.JwtConfig.AccessExpiry)),
            NotBefore := none, Issuer := a.JwtConfig.Issuer } a.JwtConfig.SecretKey)
        c.uuid (NewNumericDate (c.now + a.JwtConfig.AccessExpiry)) := by
  unfold authUseCaseImpl.Login at h
  split at h
  · cases h
  · split at h
    · cases h
    · cases h
    · rename_i u hfind
      split at h
      · cases h
      · split at h
        · cases h
        · rename_i acc ref fid exp hgen
          have hgen2 : a.GenerateToken c u.ID u.Role = .ok (acc, ref, fid, exp) := hgen
          unfold authUseCaseImpl.GenerateToken at hgen2
          split at hgen2
          · cases hgen2
          · simp only at hgen2
            split at hgen2
            · cases hgen2
            · simp only [Except.ok.injEq, Prod.mk.injEq] at hgen2
              obtain ⟨h1, _, h3, h4⟩ := hgen2
              subst h1 h3 h4
              split at h
              · cases h
              · split at h
                · cases h
                · split at h
                  · cases h
                  · simp only [Prod.mk.injEq, Except.ok.injEq] at h
                    exact ⟨u, hfind, h.2.symm⟩

theorem refresh_eq_reads_then_writes (a : authUseCaseImpl) (c : Call) (s : Store)
    (request : RefreshTokenRequest) :
    a.Refresh c s request =
      match a.RefreshReads c s request with
      | .error err => (s, .error err)
      | .ok auth => a.RefreshWrites c s request auth := by
  unfold authUseCaseImpl.Refresh authUseCaseImpl.RefreshReads
  split
  · rfl
  · split
    · rfl
    · rfl
    · split
      · rfl
      · split
        · rfl
        · split
          · rfl
          · rfl

theorem generateToken_ok_inv (a : authUseCaseImpl) (c : Call) (id role : String)
    (accessToken refreshToken : TokenString) (tokenID : String) (accessExpiry : Int)
    (h : a.GenerateToken c id role = .ok (accessToken, refreshToken, tokenID, accessExpiry)) :
    accessToken = SignedString .HS256
      { ID := id, Role := role, TokenID := c.uuid,
        ExpiresAt := some (NewNumericDate (c.now + a.JwtConfig.AccessExpiry)),
        NotBefore := none, Issuer := a.JwtConfig.Issuer } a.JwtConfig.SecretKey ∧
    refreshToken = SignedString .HS256
      { ID := id, Role := role, TokenID := c.uuid,
        ExpiresAt := some (NewNumericDate (c.now + a.JwtConfig.RefreshExpiry)),
        NotBefore := none, Issuer := a.JwtConfig.Issuer } a.JwtConfig.SecretKey ∧
    tokenID = c.uuid ∧ accessExpiry = NewNumericDate (c.now + a.JwtConfig.AccessExpiry) ∧
    c.faults.signAccess = false ∧ c.faults.signRefresh = false := by
  unfold authUseCaseImpl.GenerateToken at h
  split at h
  · cases h
  · rename_i hs1
    simp only at h
    split at h
    · cases h
    · rename_i hs2
      simp only [Except.ok.injEq, Prod.mk.injEq] at h
      obtain ⟨h1, h2, h3, h4⟩ := h
      exact ⟨h1.symm, h2.symm, h3.symm, h4.symm, by simpa using hs1, by simpa using hs2⟩

theorem NewNumericDate_le (t : Int) : NewNumericDate t ≤ t := by
  unfold NewNumericDate
  have : 0 ≤ t % second := Int.emod_nonneg _ (by decide)
  omega


/-! ## Token codec: round trip, expiry, signing method -/

/-- C11 (amended): for every subject id, role and configuration (any signing key, any lifetimes),
`GenerateToken` returns a pair when signing does not fail; parsing either token with the same key
at an instant before its expiry claim (the mint instant plus the lifetime, cut to whole seconds)
returns exactly the claims that were minted, and `ValidateToken` returns `Auth` with the given id
and role. The mint instant itself is such an instant for a token whose lifetime is at least one
second. -/
theorem token_round_trip (a : authUseCaseImpl) (c : Call) (id role : String)
    (hsign : c.faults.signAccess = false ∧ c.faults.signRefresh = false) :
    ∃ accessToken refreshToken accessExpiry,
      a.GenerateToken c id role = .ok (accessToken, refreshToken, c.uuid, accessExpiry) ∧
      (∀ t, t < NewNumericDate (c.now + a.JwtConfig.AccessExpiry) →
        ParseWithClaims a.JwtConfig.SecretKey t accessToken =
          .ok { ID := id, Role := role, TokenID := c.uuid,
                ExpiresAt := some (NewNumericDate (c.now + a.JwtConfig.AccessExpiry)),
                NotBefore := none, Issuer := a.JwtConfig.Issuer } ∧
        a.ValidateToken t accessToken = .ok { ID := id, Role := role }) ∧
      (∀ t, t < NewNumericDate (c.now + a.JwtConfig.RefreshExpiry) →
        ParseWithClaims a.JwtConfig.SecretKey t refreshToken =
          .ok { ID := id, Role := role, TokenID := c.uuid,
                ExpiresAt := some (NewNumericDate (c.now + a.JwtConfig.RefreshExpiry)),
                NotBefore := none, Issuer := a.JwtConfig.Issuer } ∧
        a.ValidateToken t refreshToken = .ok { ID := id, Role := role }) ∧
      (second ≤ a.JwtConfig.AccessExpiry →
        a.ValidateToken c.now accessToken = .ok { ID := id, Role := role }) ∧
      (second ≤ a.JwtConfig.RefreshExpiry →
        a.ValidateToken c.now refreshToken = .ok { ID := id, Role := role }) := by
  refine ⟨_, _, _, generateToken_eq a c id role hsign.1 hsign.2, ?_, ?_, ?_, ?_⟩
  · intro t ht
    refine ⟨?_, validateToken_signed a t _ (by simp [claimsValid, ht])⟩
    simp [ParseWithClaims, keyFunc, SignedString, SigningMethod.isHMAC, claimsValid, ht]
  · intro t ht
    refine ⟨?_, validateToken_signed a t _ (by simp [claimsValid, ht])⟩
    simp [ParseWithClaims, keyFunc, SignedString, SigningMethod.isHMAC, claimsValid, ht]
  · intro hsec
    exact validateToken_signed a c.now _
      (by simp [claimsValid, lt_NewNumericDate c.now _ hsec])
  · intro hsec
    exact validateToken_signed a c.now _
      (by simp [claimsValid, lt_NewNumericDate c.now _ hsec])

/-- Witness of C11 (amended): the pair minted for `u1` at second 0 under the sample
configuration; both tokens are accepted at the mint instant. -/
theorem token_round_trip_witness :
    ∃ accessToken refreshToken accessExpiry,
      sampleUseCase.GenerateToken (sampleCall 0 "F1") "u1" "admin" =
        .ok (accessToken, refreshToken, "F1", accessExpiry) ∧
      sampleUseCase.ValidateToken 0 accessToken = .ok { ID := "u1", Role := "admin" } ∧
      sampleUseCase.ValidateToken 0 refreshToken = .ok { ID := "u1", Role := "admin" } ∧
      sampleUseCase.ValidateToken (899 * second) accessToken =
        .ok { ID := "u1", Role := "admin" } := by
  obtain ⟨accessToken, refreshToken, accessExpiry, hgen, hacc, _, hnow1, hnow2⟩ :=
    token_round_trip sampleUseCase (sampleCall 0 "F1") "u1" "admin" ⟨rfl, rfl⟩
  exact ⟨accessToken, refreshToken, accessExpiry, hgen, hnow1 (by decide), hnow2 (by decide),
    (hacc (899 * second) (by decide)).2⟩

/-- C12 (as stated, refuted): the access token minted at second 0 with a lifetime of 15 minutes is
presented at second 901. The parser reports the expiry, but `ValidateToken` does not return a
token-expired error: it returns `UNAUTHORIZED` / 401 `Invalid token`, the error it also returns
for a string that is no token at all. -/
theorem expired_token_gets_generic_error :
    ParseWithClaims "secret" (901 * second)
      (SignedString .HS256
        { ID := "u1", Role := "admin", TokenID := "F1", ExpiresAt := some (900 * second),
          NotBefore := none, Issuer := "football-api" } "secret") =
      .error (.ErrTokenInvalidClaims true false) ∧
    sampleUseCase.ValidateToken (901 * second)
      (SignedString .HS256
        { ID := "u1", Role := "admin", TokenID := "F1", ExpiresAt := some (900 * second),
          NotBefore := none, Issuer := "football-api" } "secret") =
      .error
        { Code := "UNAUTHORIZED", Message := "Invalid token",
          Details := [{ Field := "token", Message := "F1" }], Timestamp := 901 * second,
          HTTPCode := 401 } ∧
    sampleUseCase.ValidateToken (901 * second)
      (SignedString .HS256
        { ID := "u1", Role := "admin", TokenID := "F1", ExpiresAt := some (900 * second),
          NotBefore := none, Issuer := "football-api" } "secret") ≠
      .error ((ErrUnauthorized (901 * second) "Token expired").WithDetail "token" "F1") ∧
    sampleUseCase.ValidateToken (901 * second) (.malformed "F1") =
      sampleUseCase.ValidateToken (901 * second)
        (SignedString .HS256
          { ID := "u1", Role := "admin", TokenID := "F1", ExpiresAt := some (900 * second),
            NotBefore := none, Issuer := "football-api" } "secret") := by
  decide

/-- C12 (amended): for every pair minted by `GenerateToken`, once the instant of a token's expiry
claim (mint time plus lifetime, truncated to the second) is reached, and so at every instant
later than mint time plus lifetime, the parser fails with the expiry error although the signature
verifies, and `ValidateToken` returns no `Auth` but the error `UNAUTHORIZED` / 401
`Invalid token`. -/
theorem expired_token_rejected (a : authUseCaseImpl) (c : Call) (id role : String)
    (accessToken refreshToken : TokenString) (tokenID : String) (accessExpiry : Int)
    (hgen : a.GenerateToken c id role = .ok (accessToken, refreshToken, tokenID, accessExpiry)) :
    (∀ t, NewNumericDate (c.now + a.JwtConfig.AccessExpiry) ≤ t →
      ParseWithClaims a.JwtConfig.SecretKey t accessToken =
        .error (.ErrTokenInvalidClaims true false) ∧
      a.ValidateToken t accessToken =
        .error
          { Code := "UNAUTHORIZED", Message := "Invalid token",
            Details := [{ Field := "token", Message := accessToken.text a.deps }],
            Timestamp := t, HTTPCode := 401 }) ∧
    (∀ t, NewNumericDate (c.now + a.JwtConfig.RefreshExpiry) ≤ t →
      ParseWithClaims a.JwtConfig.SecretKey t refreshToken =
        .error (.ErrTokenInvalidClaims true false) ∧
      a.ValidateToken t refreshToken =
        .error
          { Code := "UNAUTHORIZED", Message := "Invalid token",
            Details := [{ Field := "token", Message := refreshToken.text a.deps }],
            Timestamp := t, HTTPCode := 401 }) ∧
    (∀ t, c.now + a.JwtConfig.AccessExpiry < t →
      NewNumericDate (c.now + a.JwtConfig.AccessExpiry) ≤ t) := by
  obtain ⟨h1, h2, _, _⟩ := generateToken_ok_inv a c id role _ _ _ _ hgen
  subst h1 h2
  refine ⟨fun t ht => ?_, fun t ht => ?_, fun t ht => ?_⟩
  · have hlt : ¬ t < NewNumericDate (c.now + a.JwtConfig.AccessExpiry) := by omega
    have hp : ParseWithClaims a.JwtConfig.SecretKey t (SignedString .HS256
        { ID := id, Role := role, TokenID := c.uuid,
          ExpiresAt := some (NewNumericDate (c.now + a.JwtConfig.AccessExpiry)),
          NotBefore := none, Issuer := a.JwtConfig.Issuer } a.JwtConfig.SecretKey) =
        .error (.ErrTokenInvalidClaims true false) := by
      simp [ParseWithClaims, keyFunc, SignedString, SigningMethod.isHMAC, claimsValid,
        UserClaims.expired, UserClaims.notValidYet, hlt]
    exact ⟨hp, validateToken_error_shape a t _ _ hp⟩
  · have hlt : ¬ t < NewNumericDate (c.now + a.JwtConfig.RefreshExpiry) := by omega
    have hp : ParseWithClaims a.JwtConfig.SecretKey t (SignedString .HS256
        { ID := id, Role := role, TokenID := c.uuid,
          ExpiresAt := some (NewNumericDate (c.now + a.JwtConfig.RefreshExpiry)),
          NotBefore := none, Issuer := a.JwtConfig.Issuer } a.JwtConfig.SecretKey) =
        .error (.ErrTokenInvalidClaims true false) := by
      simp [ParseWithClaims, keyFunc, SignedString, SigningMethod.isHMAC, claimsValid,
        UserClaims.expired, UserClaims.notValidYet, hlt]
    exact ⟨hp, validateToken_error_shape a t _ _ hp⟩
  · have := NewNumericDate_le (c.now + a.JwtConfig.AccessExpiry)
    omega

/-- Witness of C12 (amended): the pair minted for `u1` at second 0, its access token presented at
second 900, the instant of its expiry claim. -/
theorem expired_token_rejected_witness :
    ParseWithClaims sampleUseCase.JwtConfig.SecretKey (900 * second)
      (SignedString .HS256
        { ID := "u1", Role := "admin", TokenID := "F1", ExpiresAt := some (900 * second),
          NotBefore := none, Issuer := "football-api" } "secret") =
      .error (.ErrTokenInvalidClaims true false) ∧
    sampleUseCase.ValidateToken (900 * second)
      (SignedString .HS256
        { ID := "u1", Role := "admin", TokenID := "F1", ExpiresAt := some (900 * second),
          NotBefore := none, Issuer := "football-api" } "secret") =
      .error
        { Code := "UNAUTHORIZED", Message := "Invalid token",
          Details := [{ Field := "token", Message := "F1" }],
          Timestamp := 900 * second, HTTPCode := 401 } :=
  (expired_token_rejected sampleUseCase (sampleCall 0 "F1") "u1" "admin"
    (SignedString .HS256
      { ID := "u1", Role := "admin", TokenID := "F1", ExpiresAt := some (900 * second),
        NotBefore := none, Issuer := "football-api" } "secret")
    (SignedString .HS256
      { ID := "u1", Role := "admin", TokenID := "F1", ExpiresAt := some (604800 * second),
        NotBefore := none, Issuer := "football-api" } "secret")
    "F1" (900 * second) (by decide)).1 (900 * second) (by decide)


/-- C13: for a token whose header names a signing method outside the HMAC family, whatever its
claims and signature, the key function hands out no key, the parser stops there, the result of
parsing is the same under every configured key, and `ValidateToken` returns the error
`UNAUTHORIZED` / 401 `Invalid token`. -/
theorem non_hmac_token_rejected (a : authUseCaseImpl) (now : Int) (t : Jwt)
    (hmethod : t.method.isHMAC = false) :
    keyFunc a.JwtConfig.SecretKey t.method = none ∧
    ParseWithClaims a.JwtConfig.SecretKey now (.signed t) = .error .ErrTokenUnverifiable ∧
    (∀ otherKey, ParseWithClaims otherKey now (.signed t) =
      ParseWithClaims a.JwtConfig.SecretKey now (.signed t)) ∧
    a.ValidateToken now (.signed t) =
      .error
        { Code := "UNAUTHORIZED", Message := "Invalid token",
          Details := [{ Field := "token", Message := a.deps.compact t }],
          Timestamp := now, HTTPCode := 401 } := by
  have hk : ∀ key, keyFunc key t.method = none := by
    intro key
    simp [keyFunc, hmethod]
  have hp : ∀ key, ParseWithClaims key now (.signed t) = .error .ErrTokenUnverifiable := by
    intro key
    simp [ParseWithClaims, hk key]
  exact ⟨hk _, hp _, fun k => by rw [hp k, hp _], validateToken_error_shape a now _ _ (hp _)⟩

/-- Witness of C13: a token with the header `none` that claims to be the admin `u1`, never
expires, and whose signature part is exactly what an HMAC under the configured key would be. -/
theorem non_hmac_token_rejected_witness :
    keyFunc sampleUseCase.JwtConfig.SecretKey (SigningMethod.other "none") = none ∧
    ParseWithClaims sampleUseCase.JwtConfig.SecretKey 0
      (.signed
        { method := .other "none",
          claims := { ID := "u1", Role := "admin", TokenID := "X", ExpiresAt := none,
                      NotBefore := none, Issuer := "football-api" },
          sig := some (.HS256, "secret") }) = .error .ErrTokenUnverifiable ∧
    (∀ otherKey, ParseWithClaims otherKey 0
      (.signed
        { method := .other "none",
          claims := { ID := "u1", Role := "admin", TokenID := "X", ExpiresAt := none,
                      NotBefore := none, Issuer := "football-api" },
          sig := some (.HS256, "secret") }) =
      ParseWithClaims sampleUseCase.JwtConfig.SecretKey 0
        (.signed
          { method := .other "none",
            claims := { ID := "u1", Role := "admin", TokenID := "X", ExpiresAt := none,
                        NotBefore := none, Issuer := "football-api" },
            sig := some (.HS256, "secret") })) ∧
    sampleUseCase.ValidateToken 0
      (.signed
        { method := .other "none",
          claims := { ID := "u1", Role := "admin", TokenID := "X", ExpiresAt := none,
                      NotBefore := none, Issuer := "football-api" },
          sig := some (.HS256, "secret") }) =
      .error
        { Code := "UNAUTHORIZED", Message := "Invalid token",
          Details := [{ Field := "token", Message := "X" }], Timestamp := 0, HTTPCode := 401 } :=
  non_hmac_token_rejected sampleUseCase 0
    { method := .other "none",
      claims := { ID := "u1", Role := "admin", TokenID := "X", ExpiresAt := none,
                  NotBefore := none, Issuer := "football-api" },
      sig := some (.HS256, "secret") } rfl

/-! ## The error of a failed validation -/

/-- C14: whatever error the parser reports for a token string (malformed, unverifiable because of
the signing method, bad signature, expired or not yet valid claims), `ValidateToken` returns an
error with code `UNAUTHORIZED`, status 401 and message `Invalid token`; and for a request whose
header carries that string the middleware aborts with status 401 and the body `UNAUTHORIZED`,
`Invalid token`, without details. -/
theorem validation_failure_is_generic (a : authUseCaseImpl) (c : Call) (s : Store)
    (authHeader : AuthorizationHeader) (tokenString : TokenString) (e : JwtError)
    (hheader : authHeader.tokenString = some tokenString)
    (hfail : ParseWithClaims a.JwtConfig.SecretKey c.now tokenString = .error e) :
    (∃ err, a.ValidateToken c.now tokenString = .error err ∧ err.Code = "UNAUTHORIZED" ∧
      err.HTTPCode = 401 ∧ err.Message = "Invalid token") ∧
    AuthMiddleware a c s authHeader =
      (s, .abort
        { Status := 401, SetCookie := none,
          Body := .failure
            { Success := false,
              Error := { Code := "UNAUTHORIZED", Message := "Invalid token", Details := [] },
              Timestamp := c.now } }) := by
  have hv := validateToken_error_shape a c.now tokenString e hfail
  refine ⟨⟨_, hv, rfl, rfl, rfl⟩, ?_⟩
  simp only [AuthMiddleware, hheader, hv]
  rfl

/-- Witness of C14: the access token of `F1`, minted at second 0, presented at second 901. -/
theorem validation_failure_is_generic_witness :
    (∃ err, sampleUseCase.ValidateToken (sampleCall 901 "-").now
        (SignedString .HS256
          { ID := "u1", Role := "admin", TokenID := "F1", ExpiresAt := some (900 * second),
            NotBefore := none, Issuer := "football-api" } "secret") = .error err ∧
      err.Code = "UNAUTHORIZED" ∧ err.HTTPCode = 401 ∧ err.Message = "Invalid token") ∧
    AuthMiddleware sampleUseCase (sampleCall 901 "-") storeAfterLogin
      (.bearer
        { method := .HS256,
          claims := { ID := "u1", Role := "admin", TokenID := "F1",
                      ExpiresAt := some (900 * second), NotBefore := none,
                      Issuer := "football-api" },
          sig := some (.HS256, "secret") }) =
      (storeAfterLogin, .abort
        { Status := 401, SetCookie := none,
          Body := .failure
            { Success := false,
              Error := { Code := "UNAUTHORIZED", Message := "Invalid token", Details := [] },
              Timestamp := (sampleCall 901 "-").now } }) :=
  validation_failure_is_generic sampleUseCase (sampleCall 901 "-") storeAfterLogin
    (.bearer
      { method := .HS256,
        claims := { ID := "u1", Role := "admin", TokenID := "F1",
                    ExpiresAt := some (900 * second), NotBefore := none,
                    Issuer := "football-api" },
        sig := some (.HS256, "secret") })
    _ (.ErrTokenInvalidClaims true false) rfl (by decide)

/-! ## Statelessness of validation -/

/-- C15: `ValidateToken` takes no store, and the middleware that calls it on every authenticated
request answers the same on any two stores and hands the store back unchanged. In particular,
after a successful `Login` that issued the family id `F`, the access token is accepted with the
user's id and role at every instant before its own expiry claim, by `ValidateToken` and by the
middleware on the store left by `Logout(F)` and on the store left by a `Refresh(F)`. -/
theorem validation_is_stateless (a : authUseCaseImpl) (c : Call) :
    (∀ (s1 s2 : Store) authHeader,
      (AuthMiddleware a c s1 authHeader).2 = (AuthMiddleware a c s2 authHeader).2 ∧
      (AuthMiddleware a c s1 authHeader).1 = s1) ∧
    (∀ (loginCall : Call) (s s1 : Store) request resp,
      a.Login loginCall s request = (s1, .ok resp) →
      c.now < NewNumericDate (loginCall.now + a.JwtConfig.AccessExpiry) →
      a.ValidateToken c.now resp.AccessToken =
        .ok { ID := resp.User.ID, Role := resp.User.Role } ∧
      ∀ authHeader, authHeader.tokenString = some resp.AccessToken →
        ∀ c2 : Call,
          AuthMiddleware a c (a.Logout c2 s1 { RefreshTokenID := resp.RefreshTokenID }).1
              authHeader =
            ((a.Logout c2 s1 { RefreshTokenID := resp.RefreshTokenID }).1,
              .next { ID := resp.User.ID, Role := resp.User.Role }) ∧
          AuthMiddleware a c (a.Refresh c2 s1 { ID := resp.RefreshTokenID }).1 authHeader =
            ((a.Refresh c2 s1 { ID := resp.RefreshTokenID }).1,
              .next { ID := resp.User.ID, Role := resp.User.Role })) := by
  have hmw : ∀ (s : Store) authHeader, AuthMiddleware a c s authHeader =
      (s, (AuthMiddleware a c Store.empty authHeader).2) := by
    intro s authHeader
    unfold AuthMiddleware
    split
    · rfl
    · split <;> rfl
  refine ⟨fun s1 s2 h => ⟨by rw [hmw s1, hmw s2], by rw [hmw s1]⟩, ?_⟩
  intro loginCall s s1 request resp hlogin ht
  obtain ⟨u, _, hresp⟩ := login_ok_inv a loginCall s s1 request resp hlogin
  have hv : a.ValidateToken c.now resp.AccessToken =
      .ok { ID := resp.User.ID, Role := resp.User.Role } := by
    rw [hresp]
    exact validateToken_signed a c.now _ (by simp [claimsValid, ht])
  refine ⟨hv, fun authHeader hh c2 => ?_⟩
  have hnext : ∀ s0 : Store, AuthMiddleware a c s0 authHeader =
      (s0, .next { ID := resp.User.ID, Role := resp.User.Role }) := by
    intro s0
    simp only [AuthMiddleware, hh, hv]
  exact ⟨hnext _, hnext _⟩

/-- Witness of C15: the access token of the login of `ana`, presented at second 30 after `F1` was
logged out at second 20, and after `F1` was rotated at second 20. -/
theorem validation_is_stateless_witness :
    sampleUseCase.ValidateToken (sampleCall 30 "-").now
        (SignedString .HS256
          { ID := "u1", Role := "admin", TokenID := "F1", ExpiresAt := some (900 * second),
            NotBefore := none, Issuer := "football-api" } "secret") =
      .ok { ID := "u1", Role := "admin" } ∧
    ∀ authHeader, authHeader.tokenString =
        some (SignedString .HS256
          { ID := "u1", Role := "admin", TokenID := "F1", ExpiresAt := some (900 * second),
            NotBefore := none, Issuer := "football-api" } "secret") →
      ∀ c2 : Call,
        AuthMiddleware sampleUseCase (sampleCall 30 "-")
            (sampleUseCase.Logout c2 storeAfterLogin { RefreshTokenID := "F1" }).1 authHeader =
          ((sampleUseCase.Logout c2 storeAfterLogin { RefreshTokenID := "F1" }).1,
            .next { ID := "u1", Role := "admin" }) ∧
        AuthMiddleware sampleUseCase (sampleCall 30 "-")
            (sampleUseCase.Refresh c2 storeAfterLogin { ID := "F1" }).1 authHeader =
          ((sampleUseCase.Refresh c2 storeAfterLogin { ID := "F1" }).1,
            .next { ID := "u1", Role := "admin" }) :=
  (validation_is_stateless sampleUseCase (sampleCall 30 "-")).2 (sampleCall 0 "F1") Store.empty
    storeAfterLogin { Email := "ana@club.io", Password := "correct-horse" }
    (ToLoginResponse sampleUser
      (SignedString .HS256
        { ID := "u1", Role := "admin", TokenID := "F1", ExpiresAt := some (900 * second),
          NotBefore := none, Issuer := "football-api" } "secret") "F1" (900 * second))
    (by decide) (by decide)


/-! ## Concurrent rotation, wire delivery, empty key -/

/-- C17 (defect of the code): `F1` is Active in the store left by the login. Two calls of
`Refresh(F1)` at second 10 that both finish their reads (`EXISTS` of the marker, `GET` and `TTL`
of the record) before either writes both find no marker: both succeed, one minting the family
`F2` and the other the family `F3`, and both new families are Active afterwards. Run one after
the other, the second call is rejected as replay. -/
theorem concurrent_refresh_both_succeed :
    sampleUseCase.isActive (10 * second) storeAfterLogin "F1" = true ∧
    (refreshBothReadFirst sampleUseCase (sampleCall 10 "F2") (sampleCall 10 "F3") storeAfterLogin
        { ID := "F1" } { ID := "F1" }).2 =
      (.ok { RefreshTokenID := "F2",
             AccessToken := SignedString .HS256
               { ID := "u1", Role := "admin", TokenID := "F2", ExpiresAt := some (910 * second),
                 NotBefore := none, Issuer := "football-api" } "secret",
             AccessExpiry := 910 },
       .ok { RefreshTokenID := "F3",
             AccessToken := SignedString .HS256
               { ID := "u1", Role := "admin", TokenID := "F3", ExpiresAt := some (910 * second),
                 NotBefore := none, Issuer := "football-api" } "secret",
             AccessExpiry := 910 }) ∧
    sampleUseCase.isActive (10 * second)
      (refreshBothReadFirst sampleUseCase (sampleCall 10 "F2") (sampleCall 10 "F3")
        storeAfterLogin { ID := "F1" } { ID := "F1" }).1 "F2" = true ∧
    sampleUseCase.isActive (10 * second)
      (refreshBothReadFirst sampleUseCase (sampleCall 10 "F2") (sampleCall 10 "F3")
        storeAfterLogin { ID := "F1" } { ID := "F1" }).1 "F3" = true ∧
    (sampleUseCase.Refresh (sampleCall 10 "F3")
        (sampleUseCase.Refresh (sampleCall 10 "F2") storeAfterLogin { ID := "F1" }).1
        { ID := "F1" }).2 =
      .error ((ErrUnauthorized (10 * second) "Token is already used").WithDetail "id" "F1") := by
  decide

/-- C18 (defect of the code): the Login handler delivers the new family id `F1` as the cookie
`refresh_token_id` (HttpOnly, Secure, path `/`, Max-Age 604800, the refresh lifetime in seconds).
The Refresh handler, called with the cookie `F1`, succeeds with status 200 and issues the new
family id `F2`, but sets no cookie: `F2` goes out in the response body only. -/
theorem refresh_handler_sets_no_cookie :
    (AuthController.Login sampleUseCase (sampleCall 0 "F1") Store.empty
        (some { Email := "ana@club.io", Password := "correct-horse" })).2.SetCookie =
      some { Name := "refresh_token_id", Value := "F1", MaxAge := 604800, Path := "/",
             Domain := "", Secure := true, HttpOnly := true } ∧
    (AuthController.Refresh sampleUseCase (sampleCall 10 "F2") storeAfterLogin (some "F1")).2 =
      { Status := 200, SetCookie := none,
        Body := .refresh
          { Success := true,
            Data := { RefreshTokenID := "F2",
                      AccessToken := SignedString .HS256
                        { ID := "u1", Role := "admin", TokenID := "F2",
                          ExpiresAt := some (910 * second), NotBefore := none,
                          Issuer := "football-api" } "secret",
                      AccessExpiry := 910 },
            Message := "Token refreshed successfully", Timestamp := 10 * second } } := by
  decide

/-- C19 (as stated, refuted): under the empty signing key `GenerateToken` does not fail, and
`ValidateToken` accepts both tokens it mints. -/
theorem empty_key_tokens_validate :
    emptyKeyUseCase.JwtConfig.SecretKey = "" ∧
    emptyKeyUseCase.GenerateToken (sampleCall 0 "F1") "u1" "admin" =
      .ok (SignedString .HS256
             { ID := "u1", Role := "admin", TokenID := "F1", ExpiresAt := some (900 * second),
               NotBefore := none, Issuer := "football-api" } "",
           SignedString .HS256
             { ID := "u1", Role := "admin", TokenID := "F1", ExpiresAt := some (604800 * second),
               NotBefore := none, Issuer := "football-api" } "",
           "F1", 900 * second) ∧
    emptyKeyUseCase.ValidateToken (5 * second)
      (SignedString .HS256
        { ID := "u1", Role := "admin", TokenID := "F1", ExpiresAt := some (900 * second),
          NotBefore := none, Issuer := "football-api" } "") =
      .ok { ID := "u1", Role := "admin" } ∧
    emptyKeyUseCase.ValidateToken (5 * second)
      (SignedString .HS256
        { ID := "u1", Role := "admin", TokenID := "F1", ExpiresAt := some (604800 * second),
          NotBefore := none, Issuer := "football-api" } "") =
      .ok { ID := "u1", Role := "admin" } := by
  decide

/-- C19 (amended): `GenerateToken` and `ValidateToken` do not look at the length of the key.
With the empty key configured, `GenerateToken` mints a pair whenever signing does not fail,
`ValidateToken` accepts both tokens at every instant before their expiry claims, and in general
it accepts a token string exactly when the string is a token of the HMAC family whose signature
verifies under the empty key and whose claims are valid; every other string is rejected. -/
theorem empty_key_is_not_checked (a : authUseCaseImpl) (hkey : a.JwtConfig.SecretKey = "") :
    (∀ (c : Call) id role, c.faults.signAccess = false → c.faults.signRefresh = false →
      ∃ accessToken refreshToken accessExpiry,
        a.GenerateToken c id role = .ok (accessToken, refreshToken, c.uuid, accessExpiry) ∧
        (∀ t, t < NewNumericDate (c.now + a.JwtConfig.AccessExpiry) →
          a.ValidateToken t accessToken = .ok { ID := id, Role := role }) ∧
        (∀ t, t < NewNumericDate (c.now + a.JwtConfig.RefreshExpiry) →
          a.ValidateToken t refreshToken = .ok { ID := id, Role := role })) ∧
    (∀ now tokenString auth,
      a.ValidateToken now tokenString = .ok auth ↔
        ∃ t, tokenString = .signed t ∧ t.method.isHMAC = true ∧ t.sig = some (t.method, "") ∧
          claimsValid now t.claims = true ∧
          auth = { ID := t.claims.ID, Role := t.claims.Role }) := by
  constructor
  · intro c id role h1 h2
    refine ⟨_, _, _, generateToken_eq a c id role h1 h2, fun t ht => ?_, fun t ht => ?_⟩
    · exact validateToken_signed a t _ (by simp [claimsValid, ht])
    · exact validateToken_signed a t _ (by simp [claimsValid, ht])
  · intro now tokenString auth
    rw [validateToken_ok_iff, hkey]

/-- Witness of C19 (amended): the pair minted at second 0 under the empty key. -/
theorem empty_key_is_not_checked_witness :
    ∃ accessToken refreshToken accessExpiry,
      emptyKeyUseCase.GenerateToken (sampleCall 0 "F1") "u1" "admin" =
        .ok (accessToken, refreshToken, (sampleCall 0 "F1").uuid, accessExpiry) ∧
      (∀ t, t < NewNumericDate ((sampleCall 0 "F1").now +
          emptyKeyUseCase.JwtConfig.AccessExpiry) →
        emptyKeyUseCase.ValidateToken t accessToken = .ok { ID := "u1", Role := "admin" }) ∧
      (∀ t, t < NewNumericDate ((sampleCall 0 "F1").now +
          emptyKeyUseCase.JwtConfig.RefreshExpiry) →
        emptyKeyUseCase.ValidateToken t refreshToken = .ok { ID := "u1", Role := "admin" }) :=
  (empty_key_is_not_checked emptyKeyUseCase rfl).1 (sampleCall 0 "F1") "u1" "admin" rfl rfl


/-! ## Lemmas on keys, on the store after `StoreToken`, and on a successful `Refresh` -/

theorem usedKey_ne_userTokenSetKey (id userID : String) : usedKey id ≠ userTokenSetKey userID := by
  intro h
  have := congrArg String.data h
  simp [usedKey, userTokenSetKey, String.data_append] at this

theorem formatSec_pos (d : Int) (hd : 0 < d) : 0 < formatSec d := by
  unfold formatSec
  split
  · decide
  · rename_i h
    have hs : second ≤ d := by
      by_contra hlt
      exact h ⟨hd, by omega⟩
    rw [Int.tdiv_eq_ediv (by omega) (by decide)]
    unfold second at hs ⊢
    omega

theorem formatSec_of_whole (d : Int) (hd : second ≤ d) (hw : d % second = 0) :
    formatSec d * second = d := by
  unfold formatSec
  have h : ¬ (0 < d ∧ d < second) := fun h2 => by omega
  rw [if_neg h, Int.tdiv_eq_ediv (by unfold second at hd; omega) (by decide)]
  unfold second at hd hw ⊢
  omega

theorem setLifetime_of_whole (d : Int) (hd : second ≤ d) (hw : d % second = 0) :
    setLifetime d = d := by
  unfold setLifetime usePrecise
  have h1 : ¬ d < second := by omega
  simp only [h1, decide_False, hw, bne_self_eq_false, Bool.or_self, Bool.false_eq_true,
    if_false]
  exact formatSec_of_whole d hd hw

/-- The time to live `Set` sends is the expiration cut to whole milliseconds, and one millisecond
for a shorter positive expiration. -/
theorem setLifetime_bounds (d : Int) (hd : 0 < d) :
    0 < setLifetime d ∧ d < setLifetime d + millisecond ∧
    (millisecond ≤ d → setLifetime d ≤ d) := by
  unfold setLifetime
  split
  · unfold formatMs
    split
    · rename_i h
      unfold millisecond at h ⊢
      omega
    · rename_i h
      have hm : millisecond ≤ d := by
        by_contra hlt
        exact h ⟨hd, by omega⟩
      rw [Int.tdiv_eq_ediv (by omega) (by decide)]
      unfold millisecond at hm ⊢
      omega
  · rename_i hp
    have hs : second ≤ d ∧ d % second = 0 := by
      unfold usePrecise at hp
      simp only [Bool.or_eq_true, decide_eq_true_eq, bne_iff_ne, ne_eq, not_or, not_lt,
        not_not] at hp
      exact hp
    rw [formatSec_of_whole d hs.1 hs.2]
    unfold millisecond
    omega

theorem Store.lookup_Set (s : Store) (now t : Int) (key k : String) (v : TokenString)
    (d : Int) (hd : 0 < d) :
    (s.Set now key v d).lookup t k =
      if key = k then
        (if t < now + setLifetime d then
          some { value := .str v, expireAt := some (now + setLifetime d) }
        else none)
      else s.lookup t k := by
  simp only [Store.Set, hd, if_true]
  rw [Store.lookup_cons, Store.lookup_erase]
  by_cases hk : key = k
  · simp [hk, Entry.live]
  · have hk2 : ¬ k = key := fun h => hk h.symm
    simp [hk, hk2]

theorem Store.lookup_Set_other (s : Store) (now t : Int) (key k : String) (v : TokenString)
    (d : Int) (hk : key ≠ k) :
    (s.Set now key v d).lookup t k = s.lookup t k := by
  simp only [Store.Set]
  rw [Store.lookup_cons, Store.lookup_erase]
  have hk2 : ¬ k = key := fun h => hk h.symm
  simp [hk, hk2]

theorem Store.lookup_SAdd_other (s s2 : Store) (now t : Int) (key member k : String)
    (h : s.SAdd now key member = .ok s2) (hk : key ≠ k) : s2.lookup t k = s.lookup t k := by
  have hk2 : ¬ k = key := fun h => hk h.symm
  unfold Store.SAdd at h
  split at h
  · cases h
    rw [Store.lookup_cons, Store.lookup_erase]
    simp [hk, hk2]
  · split at h
    · cases h
    · cases h
      rw [Store.lookup_cons, Store.lookup_erase]
      simp [hk, hk2]

theorem Store.lookup_Expire_other (s : Store) (now t : Int) (key k : String) (d : Int)
    (hk : key ≠ k) : (s.Expire now key d).lookup t k = s.lookup t k := by
  have hk2 : ¬ k = key := fun h => hk h.symm
  unfold Store.Expire
  split
  · rfl
  · split
    · rw [Store.lookup_cons, Store.lookup_erase]
      simp [hk, hk2]
    · rw [Store.lookup_erase]
      simp [hk2]

theorem storeToken_ok_inv (a : authUseCaseImpl) (c : Call) (s s2 : Store)
    (refreshToken : TokenString) (refreshTokenID userID : String)
    (h : a.StoreToken c s refreshToken refreshTokenID userID = (s2, none)) :
    c.faults.redisSetToken = false ∧ c.faults.redisSAdd = false ∧
    ∃ s1, (s.Set c.now (tokenKey refreshTokenID) refreshToken a.JwtConfig.RefreshExpiry).SAdd
        c.now (userTokenSetKey userID) refreshTokenID = .ok s1 ∧
      s2 = if c.faults.redisExpire then s1
           else s1.Expire c.now (userTokenSetKey userID) a.JwtConfig.RefreshExpiry := by
  unfold authUseCaseImpl.StoreToken at h
  split at h
  · cases h
  · rename_i h1
    simp only at h
    split at h
    · cases h
    · rename_i h2
      split at h
      · cases h
      · rename_i s1 hs1
        refine ⟨by simpa using h1, by simpa using h2, s1, hs1, ?_⟩
        split at h
        · rename_i h3
          simp only [Prod.mk.injEq, and_true] at h
          simp [h3, h]
        · rename_i h3
          simp only [Prod.mk.injEq, and_true] at h
          simp [h3, h]

/-- After a successful `StoreToken`, every key other than the token set of the user is bound as
in the store with the record written. -/
theorem storeToken_lookup_other (a : authUseCaseImpl) (c : Call) (s s2 : Store)
    (refreshToken : TokenString) (refreshTokenID userID : String)
    (h : a.StoreToken c s refreshToken refreshTokenID userID = (s2, none)) (t : Int)
    (k : String) (hk : userTokenSetKey userID ≠ k) :
    s2.lookup t k =
      (s.Set c.now (tokenKey refreshTokenID) refreshToken a.JwtConfig.RefreshExpiry).lookup
        t k := by
  obtain ⟨_, _, s1, hs1, hs2⟩ := storeToken_ok_inv a c s s2 _ _ _ h
  have h1 := Store.lookup_SAdd_other _ s1 c.now t _ _ k hs1 hk
  rw [hs2]
  split
  · exact h1
  · rw [Store.lookup_Expire_other _ _ _ _ _ _ hk]
    exact h1

theorem refreshReads_ok_inv (a : authUseCaseImpl) (c : Call) (s : Store)
    (request : RefreshTokenRequest) (auth : Auth)
    (h : a.RefreshReads c s request = .ok auth) :
    s.Exists c.now (usedKey request.ID) = 0 ∧
    ∃ token, s.Get c.now (tokenKey request.ID) = .ok token ∧
      0 < s.TTL c.now (tokenKey request.ID) ∧ a.ValidateToken c.now token = .ok auth := by
  unfold authUseCaseImpl.RefreshReads at h
  split at h
  · cases h
  · split at h
    · cases h
    · cases h
    · rename_i hused
      split at h
      · cases h
      · rename_i token hget
        split at h
        · cases h
        · rename_i httl
          split at h
          · cases h
          · rename_i auth2 hval
            cases h
            refine ⟨?_, token, getToken_ok a c s _ token hget, getTTLOfToken_pos a c s _ httl,
              hval⟩
            unfold authUseCaseImpl.IsTokenUsed at hused
            split at hused
            · cases hused
            · simp only [Except.ok.injEq, beq_eq_false_iff_ne, ne_eq] at hused
              unfold Store.Exists at hused ⊢
              split
              · rfl
              · rename_i e hl
                simp [hl] at hused

theorem refreshWrites_ok_inv (a : authUseCaseImpl) (c : Call) (s s2 : Store)
    (request : RefreshTokenRequest) (auth : Auth) (resp : RefreshTokenResponse)
    (h : a.RefreshWrites c s request auth = (s2, .ok resp)) :
    c.faults.redisSetUsed = false ∧
    a.StoreToken c (s.Set c.now (usedKey request.ID) (.malformed "1") (5 * minute))
      (SignedString .HS256
        { ID := auth.ID, Role := auth.Role, TokenID := c.uuid,
          ExpiresAt := some (NewNumericDate (c.now + a.JwtConfig.RefreshExpiry)),
          NotBefore := none, Issuer := a.JwtConfig.Issuer } a.JwtConfig.SecretKey)
      c.uuid auth.ID = (s2, none) ∧
    resp = ToRefreshTokenResponse c.uuid
      (SignedString .HS256
        { ID := auth.ID, Role := auth.Role, TokenID := c.uuid,
          ExpiresAt := some (NewNumericDate (c.now + a.JwtConfig.AccessExpiry)),
          NotBefore := none, Issuer := a.JwtConfig.Issuer } a.JwtConfig.SecretKey)
      (NewNumericDate (c.now + a.JwtConfig.AccessExpiry)) := by
  unfold authUseCaseImpl.RefreshWrites at h
  split at h
  · cases h
  · rename_i acc ref fid exp hgen
    obtain ⟨h1, h2, h3, h4, _, _⟩ := generateToken_ok_inv a c _ _ _ _ _ _ hgen
    subst h1 h2 h3 h4
    split at h
    · cases h
    · rename_i s1 hmark
      unfold authUseCaseImpl.MarkTokenAsUsed at hmark
      split at hmark
      · cases hmark
      · rename_i hf
        simp only [Prod.mk.injEq, and_true] at hmark
        subst hmark
        split at h
        · cases h
        · rename_i s3 hstore
          split at h
          · cases h
          · split at h
            · cases h
            · simp only [Prod.mk.injEq, Except.ok.injEq] at h
              obtain ⟨hs, hr⟩ := h
              subst hs
              exact ⟨by simpa using hf, hstore, hr.symm⟩

/-- The store `Refresh` leaves is the store it was given, or it is what `StoreToken` leaves when
run on the store in which the old id has been marked used: no write of the new record happens
before the marker is written. -/
theorem refresh_marks_before_storing (a : authUseCaseImpl) (c : Call) (s : Store)
    (request : RefreshTokenRequest) :
    (a.Refresh c s request).1 = s ∨
    (c.faults.redisSetUsed = false ∧
      ∃ refreshToken userID, (a.Refresh c s request).1 =
        (a.StoreToken c (s.Set c.now (usedKey request.ID) (.malformed "1") (5 * minute))
          refreshToken c.uuid userID).1) := by
  rw [refresh_eq_reads_then_writes]
  cases hreads : a.RefreshReads c s request with
  | error err => exact .inl rfl
  | ok auth =>
    simp only
    unfold authUseCaseImpl.RefreshWrites
    split
    · exact .inl rfl
    · rename_i acc ref fid exp hgen
      obtain ⟨_, _, h3, _, _, _⟩ := generateToken_ok_inv a c _ _ _ _ _ _ hgen
      subst h3
      by_cases hf : c.faults.redisSetUsed = true
      · have hmark : a.MarkTokenAsUsed c s request.ID = (s, some .unavailable) := by
          simp [authUseCaseImpl.MarkTokenAsUsed, hf]
        rw [hmark]
        exact .inl rfl
      · have hf2 : c.faults.redisSetUsed = false := by simpa using hf
        have hmark : a.MarkTokenAsUsed c s request.ID =
            (s.Set c.now (usedKey request.ID) (.malformed "1") (5 * minute), none) := by
          simp [authUseCaseImpl.MarkTokenAsUsed, hf2]
        rw [hmark]
        refine .inr ⟨hf2, ref, auth.ID, ?_⟩
        simp only
        split
        · rename_i s2 e hst
          rw [hst]
        · rename_i s2 hst
          rw [hst]
          split
          · rfl
          · split <;> rfl

/-- C20 (defect of the code): in the rotation of `F1` into `F2` at second 10 the marker of `F1`
is written first (the store then has the marker and no record of `F2`) and the new record is
stored on top of it. But the marker lives five minutes and the record of `F1` is never deleted:
at second 311 the store left by that rotation holds the new record `token:F2`, the record
`token:F1` with a positive TTL, and no UsedMarker of `F1`; both ids are Active at once. -/
theorem new_record_beside_unmarked_old_record :
    (sampleUseCase.MarkTokenAsUsed (sampleCall 10 "F2") storeAfterLogin "F1").2 = none ∧
    (sampleUseCase.MarkTokenAsUsed (sampleCall 10 "F2") storeAfterLogin "F1").1.Exists
      (10 * second) (usedKey "F1") = 1 ∧
    (sampleUseCase.MarkTokenAsUsed (sampleCall 10 "F2") storeAfterLogin "F1").1.Get
      (10 * second) (tokenKey "F2") = .error .Nil ∧
    storeAfterRefresh =
      (sampleUseCase.StoreToken (sampleCall 10 "F2")
        (sampleUseCase.MarkTokenAsUsed (sampleCall 10 "F2") storeAfterLogin "F1").1
        (SignedString .HS256
          { ID := "u1", Role := "admin", TokenID := "F2", ExpiresAt := some (604810 * second),
            NotBefore := none, Issuer := "football-api" } "secret") "F2" "u1").1 ∧
    storeAfterRefresh.Get (311 * second) (tokenKey "F2") =
      .ok (SignedString .HS256
        { ID := "u1", Role := "admin", TokenID := "F2", ExpiresAt := some (604810 * second),
          NotBefore := none, Issuer := "football-api" } "secret") ∧
    storeAfterRefresh.Get (311 * second) (tokenKey "F1") =
      .ok (SignedString .HS256
        { ID := "u1", Role := "admin", TokenID := "F1", ExpiresAt := some (604800 * second),
          NotBefore := none, Issuer := "football-api" } "secret") ∧
    storeAfterRefresh.TTL (311 * second) (tokenKey "F1") = 604489 * second ∧
    storeAfterRefresh.Exists (311 * second) (usedKey "F1") = 0 ∧
    sampleUseCase.isActive (311 * second) storeAfterRefresh "F1" = true ∧
    sampleUseCase.isActive (311 * second) storeAfterRefresh "F2" = true := by
  decide

theorem Store.lookup_Set_self_now (s : Store) (now : Int) (key : String) (v : TokenString)
    (d : Int) : ∃ exp, (s.Set now key v d).lookup now key = some ⟨.str v, exp⟩ := by
  simp only [Store.Set]
  rw [Store.lookup_cons]
  simp only [if_true]
  by_cases hd : 0 < d
  · refine ⟨some (now + setLifetime d), ?_⟩
    have := (setLifetime_bounds d hd).1
    simp [hd, Entry.live, this]
  · simp only [hd, if_false]
    by_cases hk : d = KeepTTL
    · simp only [hk, if_true]
      cases hl : s.lookup now key with
      | none => exact ⟨none, by simp [Entry.live]⟩
      | some e =>
        refine ⟨e.expireAt, ?_⟩
        have hlive : e.live now = true := by
          unfold Store.lookup at hl
          split at hl
          · cases hl
          · split at hl
            · cases hl
              assumption
            · cases hl
        have : Entry.live now { value := RedisValue.str v, expireAt := e.expireAt } = true := by
          unfold Entry.live at hlive ⊢
          exact hlive
        simp [this]
    · exact ⟨none, by simp [hk, Entry.live]⟩

theorem Store.lookup_Set_of_eq (s : Store) (now : Int) (key k : String) (v : TokenString)
    (d : Int) (h : key = k) : ∃ exp, (s.Set now key v d).lookup now k = some ⟨.str v, exp⟩ := by
  subst h
  exact Store.lookup_Set_self_now s now key v d

/-- After a successful `StoreToken` the key of the new record holds the stored string. -/
theorem storeToken_record_now (a : authUseCaseImpl) (c : Call) (s s2 : Store)
    (refreshToken : TokenString) (refreshTokenID userID : String)
    (h : a.StoreToken c s refreshToken refreshTokenID userID = (s2, none)) :
    ∃ exp, s2.lookup c.now (tokenKey refreshTokenID) = some ⟨.str refreshToken, exp⟩ := by
  rw [storeToken_lookup_other a c s s2 _ _ _ h c.now _ (tokenKey_ne_userTokenSetKey _ _).symm]
  exact Store.lookup_Set_self_now _ _ _ _ _

theorem login_ok_inv_store (a : authUseCaseImpl) (c : Call) (s s1 : Store)
    (request : LoginRequest) (resp : LoginResponse)
    (h : a.Login c s request = (s1, .ok resp)) :
    ∃ u, FindByEmail c.faults.dbFind a.UsersRepo request.Email = .ok u ∧
      ValidateStruct c.now (loginRequestErrors a.deps request) = none ∧
      a.deps.CompareHashAndPassword u.PasswordHash request.Password = true ∧
      a.StoreToken c s
        (SignedString .HS256
          { ID := u.ID, Role := u.Role, TokenID := c.uuid,
            ExpiresAt := some (NewNumericDate (c.now + a.JwtConfig.RefreshExpiry)),
            NotBefore := none, Issuer := a.JwtConfig.Issuer } a.JwtConfig.SecretKey)
        c.uuid u.ID = (s1, none) ∧
      c.faults.signAccess = false ∧ c.faults.signRefresh = false ∧
      c.faults.commit = false ∧ c.faults.send = false ∧
      resp = ToLoginResponse u
        (SignedString .HS256
          { ID := u.ID, Role := u.Role, TokenID := c.uuid,
            ExpiresAt := some (NewNumericDate (c.now + a.JwtConfig.AccessExpiry)),
            NotBefore := none, Issuer := a.JwtConfig.Issuer } a.JwtConfig.SecretKey)
        c.uuid (NewNumericDate (c.now + a.JwtConfig.AccessExpiry)) := by
  unfold authUseCaseImpl.Login at h
  split at h
  · cases h
  · rename_i hvalid
    split at h
    · cases h
    · cases h
    · rename_i u hfind
      split at h
      · cases h
      · rename_i hpw
        split at h
        · cases h
        · rename_i acc ref fid exp hgen
          obtain ⟨h1, h2, h3, h4, h5, h6⟩ := generateToken_ok_inv a c _ _ _ _ _ _ hgen
          subst h1 h2 h3 h4
          split at h
          · cases h
          · rename_i s3 hstore
            split at h
            · cases h
            · rename_i hcommit
              split at h
              · cases h
              · rename_i hsend
                simp only [Prod.mk.injEq, Except.ok.injEq] at h
                obtain ⟨hs, hr⟩ := h
                subst hs
                exact ⟨u, hfind, hvalid, by simpa using hpw, hstore, h5, h6,
                  by simpa using hcommit, by simpa using hsend, hr.symm⟩

theorem refreshWrites_ok_inv_faults (a : authUseCaseImpl) (c : Call) (s s2 : Store)
    (request : RefreshTokenRequest) (auth : Auth) (resp : RefreshTokenResponse)
    (h : a.RefreshWrites c s request auth = (s2, .ok resp)) :
    c.faults.signAccess = false ∧ c.faults.signRefresh = false ∧
    c.faults.commit = false ∧ c.faults.send = false := by
  unfold authUseCaseImpl.RefreshWrites at h
  split at h
  · cases h
  · rename_i acc ref fid exp hgen
    obtain ⟨_, _, _, _, h5, h6⟩ := generateToken_ok_inv a c _ _ _ _ _ _ hgen
    split at h
    · cases h
    · split at h
      · cases h
      · split at h
        · cases h
        · rename_i hcommit
          split at h
          · cases h
          · rename_i hsend
            exact ⟨h5, h6, by simpa using hcommit, by simpa using hsend⟩

theorem generateToken_withSend (a : authUseCaseImpl) (c : Call) (b : Bool) (id role : String) :
    a.GenerateToken (c.withSend b) id role = a.GenerateToken c id role := rfl

theorem storeToken_withSend (a : authUseCaseImpl) (c : Call) (b : Bool) (s : Store)
    (tok : TokenString) (fid uid : String) :
    a.StoreToken (c.withSend b) s tok fid uid = a.StoreToken c s tok fid uid := rfl

theorem markTokenAsUsed_withSend (a : authUseCaseImpl) (c : Call) (b : Bool) (s : Store)
    (id : String) : a.MarkTokenAsUsed (c.withSend b) s id = a.MarkTokenAsUsed c s id := rfl

theorem refreshReads_withSend (a : authUseCaseImpl) (c : Call) (b : Bool) (s : Store)
    (request : RefreshTokenRequest) :
    a.RefreshReads (c.withSend b) s request = a.RefreshReads c s request := rfl

/-- The send fault decides nothing but the last step of `RefreshWrites`. -/
theorem refreshWrites_withSend (a : authUseCaseImpl) (c : Call) (s : Store)
    (request : RefreshTokenRequest) (auth : Auth) :
    (∀ s2 resp, a.RefreshWrites (c.withSend false) s request auth = (s2, .ok resp) →
      a.RefreshWrites (c.withSend true) s request auth =
        (s2, .error ((ErrInternalServer c.now "Failed to log event").WithDetail "id"
          request.ID))) ∧
    (∀ s2 e, a.RefreshWrites (c.withSend false) s request auth = (s2, .error e) →
      a.RefreshWrites (c.withSend true) s request auth = (s2, .error e)) := by
  constructor
  · intro s2 resp h
    unfold authUseCaseImpl.RefreshWrites at h ⊢
    simp only [generateToken_withSend, markTokenAsUsed_withSend, storeToken_withSend] at h ⊢
    simp only [Call.withSend, Bool.false_eq_true, if_false, if_true] at h ⊢
    split at h
    · cases h
    · split at h
      · cases h
      · split at h
        · cases h
        · split at h
          · cases h
          · rename_i hc
            simp only [Prod.mk.injEq] at h
            rw [h.1, if_neg hc]
  · intro s2 e h
    unfold authUseCaseImpl.RefreshWrites at h ⊢
    simp only [generateToken_withSend, markTokenAsUsed_withSend, storeToken_withSend] at h ⊢
    simp only [Call.withSend, Bool.false_eq_true, if_false, if_true] at h ⊢
    split at h
    · exact h
    · split at h
      · exact h
      · split at h
        · exact h
        · split at h
          · rename_i hc
            rw [if_pos hc]
            exact h
          · simp only [Prod.mk.injEq] at h
            cases h.2

theorem Store.lookup_cons_self_eq (s : Store) (t : Int) (key : String) (e0 e : Entry)
    (h : Store.lookup ((key, e0) :: s) t key = some e) : e = e0 := by
  rw [Store.lookup_cons] at h
  simp only [if_true] at h
  split at h
  · cases h
    rfl
  · cases h

theorem Store.lookup_Set_self_value (s : Store) (now t : Int) (key : String) (v : TokenString)
    (d : Int) (e : Entry) (h : (s.Set now key v d).lookup t key = some e) :
    e.value = .str v := by
  simp only [Store.Set] at h
  rw [Store.lookup_cons_self_eq _ _ _ _ _ h]

/-- After a successful `StoreToken`, whatever is read under the key of the new record at any
instant is the stored string. -/
theorem storeToken_get_record (a : authUseCaseImpl) (c : Call) (s s2 : Store)
    (refreshToken : TokenString) (refreshTokenID userID : String)
    (h : a.StoreToken c s refreshToken refreshTokenID userID = (s2, none)) (t : Int)
    (tok : TokenString) (hget : s2.Get t (tokenKey refreshTokenID) = .ok tok) :
    tok = refreshToken := by
  unfold Store.Get at hget
  rw [storeToken_lookup_other a c s s2 _ _ _ h t _ (tokenKey_ne_userTokenSetKey _ _).symm]
    at hget
  split at hget
  · cases hget
  · rename_i e he
    have hv := Store.lookup_Set_self_value _ _ _ _ _ _ _ he
    rw [hv] at hget
    simp only [Except.ok.injEq] at hget
    exact hget.symm

theorem refresh_keeps_identity (a : authUseCaseImpl) (c : Call) (s s2 : Store)
    (familyID : String) (accessToken : TokenString) (resp : RefreshTokenResponse)
    (id role : String) (hinv : carriesIdentity (s, familyID, accessToken) id role)
    (h : a.Refresh c s { ID := familyID } = (s2, .ok resp)) :
    carriesIdentity (s2, resp.RefreshTokenID, resp.AccessToken) id role := by
  rw [refresh_eq_reads_then_writes] at h
  cases hreads : a.RefreshReads c s { ID := familyID } with
  | error err =>
    rw [hreads] at h
    cases h
  | ok auth =>
    rw [hreads] at h
    simp only at h
    obtain ⟨_, token, hget, _, hval⟩ := refreshReads_ok_inv a c s _ auth hreads
    obtain ⟨_, hstore, hresp⟩ := refreshWrites_ok_inv a c s s2 _ auth resp h
    obtain ⟨rc, hrc, hid, hrole⟩ := hinv.2 c.now token hget
    obtain ⟨t, ht, _, _, _, hauth⟩ := (validateToken_ok_iff a c.now token auth).1 hval
    subst ht
    simp only [TokenString.claims?, Option.some.injEq] at hrc
    subst hrc
    have ha1 : auth.ID = id := by rw [hauth]; exact hid
    have ha2 : auth.Role = role := by rw [hauth]; exact hrole
    constructor
    · rw [hresp]
      exact ⟨_, rfl, ha1, ha2⟩
    · intro t2 tok hget2
      have hid2 : resp.RefreshTokenID = c.uuid := by rw [hresp]; rfl
      simp only [hid2] at hget2
      have := storeToken_get_record a c _ s2 _ _ _ hstore t2 tok hget2
      rw [this]
      exact ⟨_, rfl, ha1, ha2⟩

theorem rotateAll_keeps_identity (a : authUseCaseImpl) (calls : List Call)
    (state final : Store × String × TokenString) (id role : String)
    (hinv : carriesIdentity state id role) (h : a.rotateAll calls state = some final) :
    carriesIdentity final id role := by
  induction calls generalizing state with
  | nil =>
    simp only [authUseCaseImpl.rotateAll, Option.some.injEq] at h
    rw [← h]
    exact hinv
  | cons c rest ih =>
    obtain ⟨s, familyID, accessToken⟩ := state
    simp only [authUseCaseImpl.rotateAll] at h
    split at h
    · cases h
    · rename_i s2 resp hr
      exact ih _ (refresh_keeps_identity a c s s2 familyID accessToken resp id role hinv hr) h

/-! ## Rejections and failures of `Refresh` and `Login` -/

/-- C26: when `Refresh` returns the error of the replay check (`Token is already used`, or
`Failed to check if token is used` when the check itself fails), of the record lookup
(`Failed to get token`), of the TTL check (`Token expired`) or of the validation of the stored
token (`Invalid token`), the store after the call is the store before the call. The same holds
for the rejection of the request by the struct validator. -/
theorem refresh_rejection_is_read_only (a : authUseCaseImpl) (c : Call) (s s2 : Store)
    (request : RefreshTokenRequest) (e : AppError)
    (h : a.Refresh c s request = (s2, .error e))
    (hmsg : e.Message = "Token is already used" ∨
      e.Message = "Failed to check if token is used" ∨ e.Message = "Failed to get token" ∨
      e.Message = "Token expired" ∨ e.Message = "Invalid token" ∨
      e.Message = "Validation failed") :
    s2 = s ∧ a.RefreshReads c s request = .error e := by
  rw [refresh_eq_reads_then_writes] at h
  cases hreads : a.RefreshReads c s request with
  | error err =>
    rw [hreads] at h
    simp only [Prod.mk.injEq, Except.error.injEq] at h
    exact ⟨h.1.symm, by rw [h.2]⟩
  | ok auth =>
    rw [hreads] at h
    simp only at h
    exfalso
    unfold authUseCaseImpl.RefreshWrites at h
    split at h
    · simp only [Prod.mk.injEq, Except.error.injEq] at h
      obtain ⟨_, he⟩ := h
      subst he
      revert hmsg
      simp [ErrInternalServer, NewAppError]
    · split at h
      · simp only [Prod.mk.injEq, Except.error.injEq] at h
        obtain ⟨_, he⟩ := h
        subst he
        revert hmsg
        simp [ErrInternalServer, NewAppError, AppError.WithDetail]
      · split at h
        · simp only [Prod.mk.injEq, Except.error.injEq] at h
          obtain ⟨_, he⟩ := h
          subst he
          revert hmsg
          simp [ErrInternalServer, NewAppError, AppError.WithDetail]
        · split at h
          · simp only [Prod.mk.injEq, Except.error.injEq] at h
            obtain ⟨_, he⟩ := h
            subst he
            revert hmsg
            simp [ErrInternalServer, NewAppError, AppError.WithDetail]
          · split at h
            · simp only [Prod.mk.injEq, Except.error.injEq] at h
              obtain ⟨_, he⟩ := h
              subst he
              revert hmsg
              simp [ErrInternalServer, NewAppError, AppError.WithDetail]
            · simp only [Prod.mk.injEq] at h
              cases h.2

/-- Witness of C26: the replay of `F1` at second 20 against the store left by its rotation. -/
theorem refresh_rejection_is_read_only_witness :
    sampleUseCase.Refresh (sampleCall 20 "F9") storeAfterRefresh { ID := "F1" } =
      (storeAfterRefresh,
        .error ((ErrUnauthorized (20 * second) "Token is already used").WithDetail "id" "F1")) ∧
    storeAfterRefresh = storeAfterRefresh ∧
    sampleUseCase.RefreshReads (sampleCall 20 "F9") storeAfterRefresh { ID := "F1" } =
      .error ((ErrUnauthorized (20 * second) "Token is already used").WithDetail "id" "F1") :=
  ⟨by decide, refresh_rejection_is_read_only sampleUseCase (sampleCall 20 "F9")
    storeAfterRefresh storeAfterRefresh { ID := "F1" }
    ((ErrUnauthorized (20 * second) "Token is already used").WithDetail "id" "F1")
    (by decide) (.inl rfl)⟩

/-- The send fault decides nothing but the last step of `Login`. -/
theorem login_withSend (a : authUseCaseImpl) (c : Call) (s : Store) (request : LoginRequest) :
    (∀ s1 resp, a.Login (c.withSend false) s request = (s1, .ok resp) →
      a.Login (c.withSend true) s request =
        (s1, .error ((ErrInternalServer c.now "Failed to log event").WithDetail "email"
          resp.User.Email))) ∧
    (∀ s1 e, a.Login (c.withSend false) s request = (s1, .error e) →
      a.Login (c.withSend true) s request = (s1, .error e)) := by
  constructor
  · intro s1 resp h
    unfold authUseCaseImpl.Login at h ⊢
    simp only [generateToken_withSend, storeToken_withSend] at h ⊢
    simp only [Call.withSend, Bool.false_eq_true, if_false, if_true] at h ⊢
    split at h
    · cases h
    · split at h
      · cases h
      · cases h
      · split at h
        · cases h
        · rename_i hpw
          rw [if_neg hpw]
          split at h
          · cases h
          · split at h
            · cases h
            · split at h
              · cases h
              · rename_i hc
                simp only [Prod.mk.injEq, Except.ok.injEq] at h
                rw [h.1, if_neg hc, ← h.2]
                rfl
  · intro s1 e h
    unfold authUseCaseImpl.Login at h ⊢
    simp only [generateToken_withSend, storeToken_withSend] at h ⊢
    simp only [Call.withSend, Bool.false_eq_true, if_false, if_true] at h ⊢
    split at h
    · exact h
    · split at h
      · exact h
      · exact h
      · split at h
        · rename_i hpw
          rw [if_pos hpw]
          exact h
        · rename_i hpw
          rw [if_neg hpw]
          split at h
          · exact h
          · split at h
            · exact h
            · split at h
              · rename_i hc
                rw [if_pos hc]
                exact h
              · simp only [Prod.mk.injEq] at h
                cases h.2

/-- C22: compare a call in which the log producer works with the same call in which it fails.
If `Login` (or `Refresh`) succeeds in the first, it returns in the second the internal error
`Failed to log event` (status 500) and no tokens, and leaves the very store of the successful
call: the key of the new family id holds the minted refresh token and, for `Refresh`, the
UsedMarker of the old id exists; nothing is undone. If the call fails in the first for another
reason (validation, lookup, token generation, marking, storing, commit), it fails in the second
in the same way: the event is sent only once the token is stored and the transaction is
committed. -/
theorem audit_failure_after_persisting (a : authUseCaseImpl) (c : Call) (s : Store) :
    (∀ request s1 resp, a.Login (c.withSend false) s request = (s1, .ok resp) →
      a.Login (c.withSend true) s request =
        (s1, .error
          { Code := "INTERNAL_SERVER_ERROR", Message := "Failed to log event",
            Details := [{ Field := "email", Message := resp.User.Email }], Timestamp := c.now,
            HTTPCode := 500 }) ∧
      ∃ claims exp, s1.lookup c.now (tokenKey resp.RefreshTokenID) =
          some ⟨.str (SignedString .HS256 claims a.JwtConfig.SecretKey), exp⟩ ∧
        claims.TokenID = resp.RefreshTokenID ∧ claims.ID = resp.User.ID) ∧
    (∀ request s2 resp, a.Refresh (c.withSend false) s request = (s2, .ok resp) →
      a.Refresh (c.withSend true) s request =
        (s2, .error
          { Code := "INTERNAL_SERVER_ERROR", Message := "Failed to log event",
            Details := [{ Field := "id", Message := request.ID }], Timestamp := c.now,
            HTTPCode := 500 }) ∧
      (∃ claims exp, s2.lookup c.now (tokenKey resp.RefreshTokenID) =
          some ⟨.str (SignedString .HS256 claims a.JwtConfig.SecretKey), exp⟩ ∧
        claims.TokenID = resp.RefreshTokenID) ∧
      s2.Exists c.now (usedKey request.ID) = 1) ∧
    (∀ request s1 e, a.Login (c.withSend false) s request = (s1, .error e) →
      a.Login (c.withSend true) s request = (s1, .error e)) ∧
    (∀ request s2 e, a.Refresh (c.withSend false) s request = (s2, .error e) →
      a.Refresh (c.withSend true) s request = (s2, .error e)) := by
  refine ⟨?_, ?_, ?_, ?_⟩
  · intro request s1 resp h
    refine ⟨?_, ?_⟩
    · rw [(login_withSend a c s request).1 s1 resp h]
      rfl
    · obtain ⟨u, _, _, _, hstore, _, _, _, _, hresp⟩ :=
        login_ok_inv_store a (c.withSend false) s s1 request resp h
      obtain ⟨exp, hl⟩ := storeToken_record_now a (c.withSend false) s s1 _ _ _ hstore
      refine ⟨{ ID := u.ID, Role := u.Role, TokenID := c.uuid,
                ExpiresAt := some (NewNumericDate (c.now + a.JwtConfig.RefreshExpiry)),
                NotBefore := none, Issuer := a.JwtConfig.Issuer }, exp, ?_, ?_, ?_⟩
      · rw [hresp]
        exact hl
      · rw [hresp]
        rfl
      · rw [hresp]
        rfl
  · intro request s2 resp h
    rw [refresh_eq_reads_then_writes] at h
    rw [refresh_eq_reads_then_writes, refreshReads_withSend]
    rw [refreshReads_withSend] at h
    cases hreads : a.RefreshReads c s request with
    | error err =>
      rw [hreads] at h
      cases h
    | ok auth =>
      rw [hreads] at h
      simp only at h ⊢
      refine ⟨?_, ?_, ?_⟩
      · rw [(refreshWrites_withSend a c s request auth).1 s2 resp h]
        rfl
      · obtain ⟨_, hstore, hresp⟩ :=
          refreshWrites_ok_inv a (c.withSend false) s s2 request auth resp h
        obtain ⟨exp, hl⟩ := storeToken_record_now a (c.withSend false) _ s2 _ _ _ hstore
        refine ⟨{ ID := auth.ID, Role := auth.Role, TokenID := c.uuid,
                  ExpiresAt := some (NewNumericDate (c.now + a.JwtConfig.RefreshExpiry)),
                  NotBefore := none, Issuer := a.JwtConfig.Issuer }, exp, ?_, ?_⟩
        · rw [hresp]
          exact hl
        · rw [hresp]
          rfl
      · obtain ⟨_, hstore, _⟩ :=
          refreshWrites_ok_inv a (c.withSend false) s s2 request auth resp h
        have hl := storeToken_lookup_other a (c.withSend false) _ s2 _ _ _ hstore c.now
          (usedKey request.ID) (usedKey_ne_userTokenSetKey _ _).symm
        have hmark : ∃ e, s2.lookup c.now (usedKey request.ID) = some e := by
          rw [hl]
          by_cases hk : tokenKey (c.withSend false).uuid = usedKey request.ID
          · obtain ⟨exp, he⟩ := Store.lookup_Set_of_eq
              (s.Set (c.withSend false).now (usedKey request.ID) (.malformed "1") (5 * minute))
              c.now (tokenKey (c.withSend false).uuid) (usedKey request.ID)
              (SignedString .HS256
                { ID := auth.ID, Role := auth.Role, TokenID := (c.withSend false).uuid,
                  ExpiresAt := some (NewNumericDate
                    ((c.withSend false).now + a.JwtConfig.RefreshExpiry)),
                  NotBefore := none, Issuer := a.JwtConfig.Issuer } a.JwtConfig.SecretKey)
              a.JwtConfig.RefreshExpiry hk
            exact ⟨_, he⟩
          · rw [Store.lookup_Set_other _ _ _ _ _ _ _ hk]
            obtain ⟨exp, he⟩ := Store.lookup_Set_self_now s c.now (usedKey request.ID)
              (.malformed "1") (5 * minute)
            exact ⟨_, he⟩
        obtain ⟨e, he⟩ := hmark
        simp [Store.Exists, he]
  · intro request s1 e h
    exact (login_withSend a c s request).2 s1 e h
  · intro request s2 e h
    rw [refresh_eq_reads_then_writes] at h
    rw [refresh_eq_reads_then_writes, refreshReads_withSend]
    rw [refreshReads_withSend] at h
    cases hreads : a.RefreshReads c s request with
    | error err =>
      rw [hreads] at h
      exact h
    | ok auth =>
      rw [hreads] at h
      exact (refreshWrites_withSend a c s request auth).2 s2 e h

/-- Witness of C22: the login of `ana` at second 0 with the log producer failing. -/
theorem audit_failure_after_persisting_witness :
    sampleUseCase.Login ((sampleCall 0 "F1").withSend true) Store.empty
        { Email := "ana@club.io", Password := "correct-horse" } =
      (storeAfterLogin, .error
        { Code := "INTERNAL_SERVER_ERROR", Message := "Failed to log event",
          Details := [{ Field := "email", Message := "ana@club.io" }],
          Timestamp := (sampleCall 0 "F1").now, HTTPCode := 500 }) ∧
    ∃ claims exp, storeAfterLogin.lookup (sampleCall 0 "F1").now (tokenKey "F1") =
        some ⟨.str (SignedString .HS256 claims sampleUseCase.JwtConfig.SecretKey), exp⟩ ∧
      claims.TokenID = "F1" ∧ claims.ID = "u1" :=
  (audit_failure_after_persisting sampleUseCase (sampleCall 0 "F1") Store.empty).1
    { Email := "ana@club.io", Password := "correct-horse" } storeAfterLogin
    (ToLoginResponse sampleUser
      (SignedString .HS256
        { ID := "u1", Role := "admin", TokenID := "F1", ExpiresAt := some (900 * second),
          NotBefore := none, Issuer := "football-api" } "secret") "F1" (900 * second))
    (by decide)

/-- C21 (defect of the code): in the rotation of `F1` at second 10 the marker is written and the
`SET` of the new record fails. `Refresh` returns `INTERNAL_SERVER_ERROR` / 500
`Failed to store token` and no pair, no record of the new id exists, and a retry at second 11 is
rejected as replay. But the record of `F1` is still in the store and its marker lives five
minutes: at second 311 `Refresh(F1)` succeeds again, so the caller need not log in again. -/
theorem store_failure_leaves_old_id_redeemable_later :
    (sampleUseCase.Refresh
        (sampleCallFailing 10 "F2" { Faults.none with redisSetToken := true })
        storeAfterLogin { ID := "F1" }).2 =
      .error
        { Code := "INTERNAL_SERVER_ERROR", Message := "Failed to store token",
          Details := [{ Field := "id", Message := "F1" }], Timestamp := 10 * second,
          HTTPCode := 500 } ∧
    storeAfterFailedRotation.Exists (10 * second) (usedKey "F1") = 1 ∧
    storeAfterFailedRotation.Get (10 * second) (tokenKey "F2") = .error .Nil ∧
    (sampleUseCase.Refresh (sampleCall 11 "F3") storeAfterFailedRotation { ID := "F1" }).2 =
      .error ((ErrUnauthorized (11 * second) "Token is already used").WithDetail "id" "F1") ∧
    sampleUseCase.isActive (311 * second) storeAfterFailedRotation "F1" = true ∧
    (sampleUseCase.Refresh (sampleCall 311 "F3") storeAfterFailedRotation { ID := "F1" }).2 =
      .ok { RefreshTokenID := "F3",
            AccessToken := SignedString .HS256
              { ID := "u1", Role := "admin", TokenID := "F3", ExpiresAt := some (1211 * second),
                NotBefore := none, Issuer := "football-api" } "secret",
            AccessExpiry := 1211 } := by
  decide

/-- C23 (as stated, refuted): `ana` logs in at second 0 (`F1`) and again at second 100 (`F2`); in
the second call the `EXPIRE` of her token set fails, which `StoreToken` ignores, so the login
succeeds. Afterwards the set, with the members `F1` and `F2`, still expires at second 604800,
earlier than the SessionRecord of its member `F2`, which expires at second 604900. And with a
refresh lifetime of one and a half seconds and nothing failing, the record is written with 1500
milliseconds to live and the set with one second: the set expires half a second before the
record of its only member, and the `TTL` reply for the record is two seconds, not the
configured lifetime. -/
theorem token_set_can_expire_before_member :
    (sampleUseCase.Login
        (sampleCallFailing 100 "F2" { Faults.none with redisExpire := true })
        storeAfterLogin { Email := "ana@club.io", Password := "correct-horse" }).2.isOk = true ∧
    storeAfterSecondLogin.lookup (100 * second) (userTokenSetKey "u1") =
      some ⟨.set ["F1", "F2"], some (604800 * second)⟩ ∧
    storeAfterSecondLogin.lookup (100 * second) (tokenKey "F2") =
      some ⟨.str (SignedString .HS256
        { ID := "u1", Role := "admin", TokenID := "F2", ExpiresAt := some (604900 * second),
          NotBefore := none, Issuer := "football-api" } "secret"), some (604900 * second)⟩ ∧
    storeAfterSecondLogin.TTL (100 * second) (userTokenSetKey "u1") <
      storeAfterSecondLogin.TTL (100 * second) (tokenKey "F2") ∧
    (fractionalLifetimeUseCase.Login (sampleCall 0 "F1") Store.empty
        { Email := "ana@club.io", Password := "correct-horse" }).2.isOk = true ∧
    storeAfterFractionalLogin.lookup 0 (userTokenSetKey "u1") =
      some ⟨.set ["F1"], some (1000 * millisecond)⟩ ∧
    storeAfterFractionalLogin.lookup 0 (tokenKey "F1") =
      some ⟨.str (SignedString .HS256
        { ID := "u1", Role := "admin", TokenID := "F1", ExpiresAt := some (1 * second),
          NotBefore := none, Issuer := "football-api" } "secret"), some (1500 * millisecond)⟩ ∧
    storeAfterFractionalLogin.TTL 0 (tokenKey "F1") = 2 * second ∧
    fractionalLifetimeUseCase.JwtConfig.RefreshExpiry = 1500 * millisecond ∧
    storeAfterFractionalLogin.Exists (1200 * millisecond) (userTokenSetKey "u1") = 0 ∧
    storeAfterFractionalLogin.Exists (1200 * millisecond) (tokenKey "F1") = 1 := by
  decide

/-- C25 (defect of the code): the ids `F1:used` and `F1` are different, yet the SessionRecord key
of the first is the UsedMarker key of the second. `F1` has been rotated, so its marker exists and
a replay is rejected; after `Logout` of the id `F1:used` the marker of `F1` is gone and
`Refresh(F1)` mints a new pair. -/
theorem logout_deletes_marker_of_other_id :
    "F1:used" ≠ "F1" ∧
    tokenKey "F1:used" = usedKey "F1" ∧
    storeAfterRefresh.Exists (20 * second) (usedKey "F1") = 1 ∧
    (sampleUseCase.Refresh (sampleCall 21 "F3") storeAfterRefresh { ID := "F1" }).2 =
      .error ((ErrUnauthorized (21 * second) "Token is already used").WithDetail "id" "F1") ∧
    (sampleUseCase.Logout (sampleCall 20 "-") storeAfterRefresh
        { RefreshTokenID := "F1:used" }).2 = none ∧
    (sampleUseCase.Logout (sampleCall 20 "-") storeAfterRefresh
        { RefreshTokenID := "F1:used" }).1.Exists (20 * second) (usedKey "F1") = 0 ∧
    (sampleUseCase.Refresh (sampleCall 21 "F3")
        (sampleUseCase.Logout (sampleCall 20 "-") storeAfterRefresh
          { RefreshTokenID := "F1:used" }).1 { ID := "F1" }).2 =
      .ok { RefreshTokenID := "F3",
            AccessToken := SignedString .HS256
              { ID := "u1", Role := "admin", TokenID := "F3", ExpiresAt := some (921 * second),
                NotBefore := none, Issuer := "football-api" } "secret",
            AccessExpiry := 921 } := by
  decide

/-! ## The store after an issuance -/

theorem Store.lookup_live (s : Store) (now : Int) (key : String) (e : Entry)
    (h : s.lookup now key = some e) : e.live now = true := by
  unfold Store.lookup at h
  split at h
  · cases h
  · split at h
    · cases h
      assumption
    · cases h

theorem Store.SAdd_ok_inv (s s2 : Store) (now : Int) (key member : String)
    (h : s.SAdd now key member = .ok s2) :
    ∃ ms x, s2 = (key, { value := .set ms, expireAt := x }) :: s.erase key ∧ member ∈ ms ∧
      Entry.live now { value := .set ms, expireAt := x } = true ∧
      ∀ m ∈ ms, m = member ∨
        ∃ ms0 x0, s.lookup now key = some { value := .set ms0, expireAt := x0 } ∧ m ∈ ms0 := by
  unfold Store.SAdd at h
  split at h
  · cases h
    refine ⟨[member], none, rfl, by simp, rfl, ?_⟩
    intro m hm
    left
    simpa using hm
  · rename_i e he
    split at h
    · cases h
    · rename_i ms0 hv
      cases h
      have hlive := Store.lookup_live s now key e he
      have hee : e = { value := .set ms0, expireAt := e.expireAt } := by
        cases e
        simp only at hv
        subst hv
        rfl
      refine ⟨_, e.expireAt, rfl, ?_, ?_, ?_⟩
      · by_cases hm : member ∈ ms0
        · simp [hm]
        · simp [hm]
      · unfold Entry.live at hlive ⊢
        exact hlive
      · intro m hm
        by_cases hmem : member ∈ ms0
        · simp only [hmem, if_true] at hm
          right
          exact ⟨ms0, e.expireAt, by rw [← hee]; exact he, hm⟩
        · simp only [hmem, if_false, List.mem_append, List.mem_singleton] at hm
          cases hm with
          | inl h1 =>
            right
            exact ⟨ms0, e.expireAt, by rw [← hee]; exact he, h1⟩
          | inr h1 => exact .inl h1

theorem Store.lookup_Expire_head (rest : Store) (now : Int) (key : String) (d : Int)
    (hd : 0 < d) (ms : List String) (x : Option Int)
    (hlive : Entry.live now { value := .set ms, expireAt := x } = true) :
    (Store.Expire ((key, { value := .set ms, expireAt := x }) :: rest) now key d).lookup now key =
      some { value := .set ms, expireAt := some (now + formatSec d * second) } := by
  have hf := formatSec_pos d hd
  have hfs : 0 < formatSec d * second := Int.mul_pos hf (by decide)
  unfold Store.Expire
  rw [Store.lookup_cons]
  simp only [if_true, hlive, hf]
  rw [Store.lookup_cons]
  simp [Entry.live, hfs]

/-- The postcondition of a successful `StoreToken` when the refresh lifetime is positive and
the `EXPIRE` of the token set is applied. -/
theorem storeToken_issued (a : authUseCaseImpl) (c : Call) (s s2 : Store)
    (refreshToken : TokenString) (refreshTokenID userID : String)
    (hsec : second ≤ a.JwtConfig.RefreshExpiry) (hwhole : a.JwtConfig.RefreshExpiry % second = 0)
    (hexp : c.faults.redisExpire = false)
    (h : a.StoreToken c s refreshToken refreshTokenID userID = (s2, none))
    (hprior : s.membersExpireBy c.now userID (c.now + a.JwtConfig.RefreshExpiry)) :
    s2.issued c.now a.JwtConfig.RefreshExpiry refreshTokenID userID refreshToken := by
  have hpos : 0 < a.JwtConfig.RefreshExpiry := lt_of_lt_of_le (by decide) hsec
  obtain ⟨_, _, s1, hs1, hs2⟩ := storeToken_ok_inv a c s s2 _ _ _ h
  simp only [hexp, Bool.false_eq_true, if_false] at hs2
  obtain ⟨ms, x, hs1eq, hmem, hlive, hfrom⟩ := Store.SAdd_ok_inv _ _ _ _ _ hs1
  have hset : s2.lookup c.now (userTokenSetKey userID) =
      some { value := .set ms, expireAt := some (c.now + a.JwtConfig.RefreshExpiry) } := by
    rw [hs2, hs1eq, Store.lookup_Expire_head _ _ _ _ hpos _ _ hlive,
      formatSec_of_whole _ hsec hwhole]
  have hrec : ∀ m, s2.lookup c.now (tokenKey m) =
      if tokenKey refreshTokenID = tokenKey m then
        some { value := .str refreshToken,
               expireAt := some (c.now + a.JwtConfig.RefreshExpiry) }
      else s.lookup c.now (tokenKey m) := by
    intro m
    rw [storeToken_lookup_other a c s s2 _ _ _ h c.now _ (tokenKey_ne_userTokenSetKey _ _).symm,
      Store.lookup_Set _ _ _ _ _ _ _ hpos, setLifetime_of_whole _ hsec hwhole]
    have : c.now < c.now + a.JwtConfig.RefreshExpiry := by omega
    simp only [this, if_true]
  have hnew := hrec refreshTokenID
  simp only [if_true] at hnew
  refine ⟨?_, ?_, ms, _, hset, hmem, ?_⟩
  · unfold Store.Get
    rw [hnew]
  · unfold Store.TTL
    rw [hnew]
    simp only
    unfold second at hsec hwhole ⊢
    unfold millisecond
    omega
  · intro ms2 x2 hl m hm e he
    rw [hset] at hl
    simp only [Option.some.injEq, Entry.mk.injEq, RedisValue.set.injEq] at hl
    obtain ⟨hms, _⟩ := hl
    subst hms
    rw [hrec m] at he
    by_cases hk : tokenKey refreshTokenID = tokenKey m
    · rw [if_pos hk] at he
      simp only [Option.some.injEq] at he
      subst he
      exact ⟨_, rfl, le_refl _⟩
    · rw [if_neg hk] at he
      have hne : m ≠ refreshTokenID := by
        intro heq
        exact hk (by rw [heq])
      cases hfrom m hm with
      | inl h1 => exact absurd h1 hne
      | inr h1 =>
        obtain ⟨ms0, x0, hl0, hm0⟩ := h1
        rw [Store.lookup_Set_other _ _ _ _ _ _ _ (tokenKey_ne_userTokenSetKey _ _)] at hl0
        exact hprior ms0 x0 hl0 m hm0 e he

/-- C23 (amended): let the configured refresh lifetime be a whole number of seconds, at least
one, and let the `EXPIRE` of the token set be applied. After a successful `Login`, and after a
successful `Refresh`, the record key of the new family id holds exactly the minted refresh token
with a `TTL` reply equal to the refresh lifetime, the new family id is a member of the token set
of the subject, and the set expires no earlier than the record of any of its members, provided
the records of the members the set had before the `SADD` expire no later than the new record
does. -/
theorem issuance_postcondition (a : authUseCaseImpl) (c : Call) (s : Store)
    (hsec : second ≤ a.JwtConfig.RefreshExpiry) (hwhole : a.JwtConfig.RefreshExpiry % second = 0)
    (hexp : c.faults.redisExpire = false) :
    (∀ request s2 resp, a.Login c s request = (s2, .ok resp) →
      s.membersExpireBy c.now resp.User.ID (c.now + a.JwtConfig.RefreshExpiry) →
      ∃ accessToken refreshToken accessExpiry,
        a.GenerateToken c resp.User.ID resp.User.Role =
          .ok (accessToken, refreshToken, resp.RefreshTokenID, accessExpiry) ∧
        s2.issued c.now a.JwtConfig.RefreshExpiry resp.RefreshTokenID resp.User.ID
          refreshToken) ∧
    (∀ request s2 resp, a.Refresh c s request = (s2, .ok resp) →
      ∃ auth, a.RefreshReads c s request = .ok auth ∧
        ((a.MarkTokenAsUsed c s request.ID).1.membersExpireBy c.now auth.ID
            (c.now + a.JwtConfig.RefreshExpiry) →
          ∃ accessToken refreshToken accessExpiry,
            a.GenerateToken c auth.ID auth.Role =
              .ok (accessToken, refreshToken, resp.RefreshTokenID, accessExpiry) ∧
            s2.issued c.now a.JwtConfig.RefreshExpiry resp.RefreshTokenID auth.ID
              refreshToken)) := by
  constructor
  · intro request s2 resp h hprior
    obtain ⟨u, _, _, _, hstore, hsa, hsr, _, _, hresp⟩ := login_ok_inv_store a c s s2 _ _ h
    have hid : resp.User.ID = u.ID := by rw [hresp]; rfl
    have hrole : resp.User.Role = u.Role := by rw [hresp]; rfl
    have hfid : resp.RefreshTokenID = c.uuid := by rw [hresp]; rfl
    rw [hid] at hprior
    rw [hid, hrole, hfid]
    have hgen : a.GenerateToken c u.ID u.Role = .ok
        (SignedString .HS256
          { ID := u.ID, Role := u.Role, TokenID := c.uuid,
            ExpiresAt := some (NewNumericDate (c.now + a.JwtConfig.AccessExpiry)),
            NotBefore := none, Issuer := a.JwtConfig.Issuer } a.JwtConfig.SecretKey,
         SignedString .HS256
          { ID := u.ID, Role := u.Role, TokenID := c.uuid,
            ExpiresAt := some (NewNumericDate (c.now + a.JwtConfig.RefreshExpiry)),
            NotBefore := none, Issuer := a.JwtConfig.Issuer } a.JwtConfig.SecretKey,
         c.uuid, NewNumericDate (c.now + a.JwtConfig.AccessExpiry)) := by
      simp [authUseCaseImpl.GenerateToken, hsa, hsr]
    exact ⟨_, _, _, hgen, storeToken_issued a c s s2 _ _ _ hsec hwhole hexp hstore hprior⟩
  · intro request s2 resp h
    rw [refresh_eq_reads_then_writes] at h
    cases hreads : a.RefreshReads c s request with
    | error err =>
      rw [hreads] at h
      cases h
    | ok auth =>
      rw [hreads] at h
      simp only at h
      refine ⟨auth, rfl, ?_⟩
      intro hprior
      obtain ⟨hmarkf, hstore, hresp⟩ := refreshWrites_ok_inv a c s s2 _ auth resp h
      obtain ⟨hsa, hsr, _, _⟩ := refreshWrites_ok_inv_faults a c s s2 _ auth resp h
      have hfid : resp.RefreshTokenID = c.uuid := by rw [hresp]; rfl
      simp only [authUseCaseImpl.MarkTokenAsUsed, hmarkf, Bool.false_eq_true, if_false]
        at hprior
      rw [hfid]
      have hgen : a.GenerateToken c auth.ID auth.Role = .ok
          (SignedString .HS256
            { ID := auth.ID, Role := auth.Role, TokenID := c.uuid,
              ExpiresAt := some (NewNumericDate (c.now + a.JwtConfig.AccessExpiry)),
              NotBefore := none, Issuer := a.JwtConfig.Issuer } a.JwtConfig.SecretKey,
           SignedString .HS256
            { ID := auth.ID, Role := auth.Role, TokenID := c.uuid,
              ExpiresAt := some (NewNumericDate (c.now + a.JwtConfig.RefreshExpiry)),
              NotBefore := none, Issuer := a.JwtConfig.Issuer } a.JwtConfig.SecretKey,
           c.uuid, NewNumericDate (c.now + a.JwtConfig.AccessExpiry)) := by
        simp [authUseCaseImpl.GenerateToken, hsa, hsr]
      exact ⟨_, _, _, hgen, storeToken_issued a c _ s2 _ _ _ hsec hwhole hexp hstore hprior⟩

/-- Witness of C23 (amended): the rotation of `F1` into `F2` at second 10; the token set of `u1`
had the member `F1`, whose record expires at second 604800, before the new record does. -/
theorem issuance_postcondition_witness :
    storeAfterRefresh.issued (10 * second) (7 * 24 * 60 * minute) "F2" "u1"
      (SignedString .HS256
        { ID := "u1", Role := "admin", TokenID := "F2", ExpiresAt := some (604810 * second),
          NotBefore := none, Issuer := "football-api" } "secret") := by
  obtain ⟨auth, hreads, hpost⟩ :=
    (issuance_postcondition sampleUseCase (sampleCall 10 "F2") storeAfterLogin (by decide)
      (by decide) (by decide)).2 { ID := "F1" } storeAfterRefresh
      { RefreshTokenID := "F2",
        AccessToken := SignedString .HS256
          { ID := "u1", Role := "admin", TokenID := "F2", ExpiresAt := some (910 * second),
            NotBefore := none, Issuer := "football-api" } "secret",
        AccessExpiry := 910 } (by decide)
  have hauth : sampleUseCase.RefreshReads (sampleCall 10 "F2") storeAfterLogin { ID := "F1" } =
      .ok { ID := "u1", Role := "admin" } := by decide
  rw [hauth] at hreads
  simp only [Except.ok.injEq] at hreads
  subst hreads
  have hprior : (sampleUseCase.MarkTokenAsUsed (sampleCall 10 "F2") storeAfterLogin
      "F1").1.membersExpireBy (10 * second) "u1" (10 * second + 7 * 24 * 60 * minute) := by
    intro ms x hl m hm e he
    have hset : (sampleUseCase.MarkTokenAsUsed (sampleCall 10 "F2") storeAfterLogin
        "F1").1.lookup (10 * second) (userTokenSetKey "u1") =
        some { value := .set ["F1"], expireAt := some (604800 * second) } := by decide
    rw [hset] at hl
    simp only [Option.some.injEq, Entry.mk.injEq, RedisValue.set.injEq] at hl
    obtain ⟨hms, _⟩ := hl
    subst hms
    simp only [List.mem_singleton] at hm
    subst hm
    have hrec : (sampleUseCase.MarkTokenAsUsed (sampleCall 10 "F2") storeAfterLogin
        "F1").1.lookup (10 * second) (tokenKey "F1") =
        some ⟨.str (SignedString .HS256
          { ID := "u1", Role := "admin", TokenID := "F1",
            ExpiresAt := some (604800 * second), NotBefore := none,
            Issuer := "football-api" } "secret"), some (604800 * second)⟩ := by decide
    rw [hrec] at he
    simp only [Option.some.injEq] at he
    subst he
    exact ⟨_, rfl, by decide⟩
  obtain ⟨accessToken, refreshToken, accessExpiry, hgen, hissued⟩ := hpost hprior
  have hgen2 : sampleUseCase.GenerateToken (sampleCall 10 "F2") "u1" "admin" =
      .ok (SignedString .HS256
          { ID := "u1", Role := "admin", TokenID := "F2", ExpiresAt := some (910 * second),
            NotBefore := none, Issuer := "football-api" } "secret",
        SignedString .HS256
          { ID := "u1", Role := "admin", TokenID := "F2", ExpiresAt := some (604810 * second),
            NotBefore := none, Issuer := "football-api" } "secret",
        "F2", 910 * second) := by decide
  rw [hgen2] at hgen
  simp only [Except.ok.injEq, Prod.mk.injEq] at hgen
  obtain ⟨_, hrt, _, _⟩ := hgen
  rw [← hrt] at hissued
  exact hissued

/-- C24: for every successful `Refresh` the stored refresh token read under the record key of
the old family id carries claims, and the subject id and the role in the claims of the new access
token and of the new refresh token (read back from the record of the new family id) equal those
of the stored token. Consequently, along any chain of successful rotations that starts from a
successful `Login`, the access token in hand and the stored refresh token of the current family
id carry the subject id and the role of the user who logged in. -/
theorem identity_immutable_across_rotation (a : authUseCaseImpl) :
    (∀ c s s2 request resp, a.Refresh c s request = (s2, .ok resp) →
      ∃ stored claims, s.Get c.now (tokenKey request.ID) = .ok stored ∧
        stored.claims? = some claims ∧
        (∃ ac, resp.AccessToken.claims? = some ac ∧ ac.ID = claims.ID ∧
          ac.Role = claims.Role) ∧
        ∃ newToken rc, s2.Get c.now (tokenKey resp.RefreshTokenID) = .ok newToken ∧
          newToken.claims? = some rc ∧ rc.ID = claims.ID ∧ rc.Role = claims.Role) ∧
    (∀ c0 s0 s1 request resp0 calls final, a.Login c0 s0 request = (s1, .ok resp0) →
      a.rotateAll calls (s1, resp0.RefreshTokenID, resp0.AccessToken) = some final →
      carriesIdentity final resp0.User.ID resp0.User.Role) := by
  constructor
  · intro c s s2 request resp h
    rw [refresh_eq_reads_then_writes] at h
    cases hreads : a.RefreshReads c s request with
    | error err =>
      rw [hreads] at h
      cases h
    | ok auth =>
      rw [hreads] at h
      simp only at h
      obtain ⟨_, token, hget, _, hval⟩ := refreshReads_ok_inv a c s _ auth hreads
      obtain ⟨_, hstore, hresp⟩ := refreshWrites_ok_inv a c s s2 _ auth resp h
      obtain ⟨t, ht, _, _, _, hauth⟩ := (validateToken_ok_iff a c.now token auth).1 hval
      subst ht
      have ha1 : auth.ID = t.claims.ID := by rw [hauth]
      have ha2 : auth.Role = t.claims.Role := by rw [hauth]
      refine ⟨_, t.claims, hget, rfl, ?_, ?_⟩
      · rw [hresp]
        exact ⟨_, rfl, ha1, ha2⟩
      · obtain ⟨exp, hrec⟩ := storeToken_record_now a c _ s2 _ _ _ hstore
        have hfid : resp.RefreshTokenID = c.uuid := by rw [hresp]; rfl
        have hget2 : s2.Get c.now (tokenKey resp.RefreshTokenID) = .ok (SignedString .HS256
            { ID := auth.ID, Role := auth.Role, TokenID := c.uuid,
              ExpiresAt := some (NewNumericDate (c.now + a.JwtConfig.RefreshExpiry)),
              NotBefore := none, Issuer := a.JwtConfig.Issuer } a.JwtConfig.SecretKey) := by
          rw [hfid]
          unfold Store.Get
          rw [hrec]
        exact ⟨_, _, hget2, rfl, ha1, ha2⟩
  · intro c0 s0 s1 request resp0 calls final hlogin hchain
    refine rotateAll_keeps_identity a calls _ final _ _ ?_ hchain
    obtain ⟨u, _, _, _, hstore, _, _, _, _, hresp⟩ := login_ok_inv_store a c0 s0 s1 _ _ hlogin
    have hid : resp0.User.ID = u.ID := by rw [hresp]; rfl
    have hrole : resp0.User.Role = u.Role := by rw [hresp]; rfl
    constructor
    · rw [hresp]
      exact ⟨_, rfl, rfl, rfl⟩
    · intro t tok hget
      have hfid : resp0.RefreshTokenID = c0.uuid := by rw [hresp]; rfl
      simp only [hfid] at hget
      have := storeToken_get_record a c0 _ s1 _ _ _ hstore t tok hget
      rw [this]
      exact ⟨_, rfl, hid.symm, hrole.symm⟩

/-- Witness of C24: `ana` logs in at second 0 and rotates at seconds 10 and 12; the access token
of the last rotation carries her subject id and role. -/
theorem identity_immutable_across_rotation_witness :
    ∃ final, sampleUseCase.rotateAll [sampleCall 10 "F2", sampleCall 12 "F3"]
        (storeAfterLogin, "F1", SignedString .HS256
          { ID := "u1", Role := "admin", TokenID := "F1", ExpiresAt := some (900 * second),
            NotBefore := none, Issuer := "football-api" } "secret") = some final ∧
      final.2.1 = "F3" ∧ carriesIdentity final "u1" "admin" := by
  have hlogin : sampleUseCase.Login (sampleCall 0 "F1") Store.empty
      { Email := "ana@club.io", Password := "correct-horse" } =
      (storeAfterLogin, .ok (ToLoginResponse sampleUser
        (SignedString .HS256
          { ID := "u1", Role := "admin", TokenID := "F1", ExpiresAt := some (900 * second),
            NotBefore := none, Issuer := "football-api" } "secret") "F1" (900 * second))) := by
    decide
  cases hfinal : sampleUseCase.rotateAll [sampleCall 10 "F2", sampleCall 12 "F3"]
      (storeAfterLogin, "F1", SignedString .HS256
        { ID := "u1", Role := "admin", TokenID := "F1", ExpiresAt := some (900 * second),
          NotBefore := none, Issuer := "football-api" } "secret") with
  | none => exact absurd hfinal (by decide)
  | some final =>
    refine ⟨final, rfl, ?_, ?_⟩
    · have hid : (sampleUseCase.rotateAll [sampleCall 10 "F2", sampleCall 12 "F3"]
          (storeAfterLogin, "F1", SignedString .HS256
            { ID := "u1", Role := "admin", TokenID := "F1", ExpiresAt := some (900 * second),
              NotBefore := none, Issuer := "football-api" } "secret")).map (fun x => x.2.1) =
          some "F3" := by decide
      rw [hfinal] at hid
      simpa using hid
    · exact (identity_immutable_across_rotation sampleUseCase).2 (sampleCall 0 "F1")
        Store.empty storeAfterLogin { Email := "ana@club.io", Password := "correct-horse" }
        _ _ final hlogin hfinal

/-! ## The match report -/

theorem countGoals_apply (goals : List Goal) (m : String → Int) (key : String) :
    countGoals goals m key = m key + goalsScoredBy goals key := by
  induction goals generalizing m with
  | nil => simp [countGoals, goalsScoredBy]
  | cons g rest ih =>
    simp only [countGoals]
    rw [ih]
    unfold goalsScoredBy
    by_cases h : key = g.PlayerID
    · subst h
      simp only [if_true, List.filter_cons, beq_self_eq_true, List.length_cons]
      push_cast
      omega
    · have hb : (g.PlayerID == key) = false := by
        simp only [beq_eq_false_iff_ne, ne_eq]
        exact fun h2 => h h2.symm
      simp only [h, if_false, List.filter_cons, hb]
      simp

theorem golPerPemain_eq (goals : List Goal) (key : String) :
    golPerPemain goals key = goalsScoredBy goals key := by
  unfold golPerPemain
  rw [countGoals_apply]
  simp

theorem goalsScoredBy_nonneg (goals : List Goal) (key : String) :
    0 ≤ goalsScoredBy goals key := by
  unfold goalsScoredBy
  exact Int.ofNat_nonneg _

theorem goalsScoredBy_pos_of_mem (goals : List Goal) (g : Goal) (hg : g ∈ goals) :
    0 < goalsScoredBy goals g.PlayerID := by
  unfold goalsScoredBy
  have : g ∈ goals.filter (fun goal => goal.PlayerID == g.PlayerID) := by
    simp [List.mem_filter, hg]
  have hpos := List.length_pos_of_mem this
  exact_mod_cast hpos

theorem goalsScoredBy_eq_zero (goals : List Goal) (key : String)
    (h : ∀ g ∈ goals, g.PlayerID ≠ key) : goalsScoredBy goals key = 0 := by
  unfold goalsScoredBy
  have : goals.filter (fun goal => goal.PlayerID == key) = [] := by
    rw [List.filter_eq_nil_iff]
    intro g hg
    simpa using h g hg
  rw [this]
  rfl

/-- The second loop returns when every player is loaded; the maximum it ends with bounds the
count of every goal of the list, and when the state changed it is the count of the goal at some
position before which every goal has a smaller count. -/
theorem topScorerLoop_spec (count : String → Int) (l : List Goal)
    (hp : ∀ g ∈ l, g.Player.isSome = true) (name : String) (mx : Int) :
    ∃ name2 mx2, topScorerLoop count l (name, mx) = .ok (name2, mx2) ∧ mx ≤ mx2 ∧
      (∀ g ∈ l, count g.PlayerID ≤ mx2) ∧
      ((name2 = name ∧ mx2 = mx) ∨
        ∃ (i : Nat) (g : Goal) (p : Player), l[i]? = some g ∧ g.Player = some p ∧ name2 = p.Name ∧
          count g.PlayerID = mx2 ∧ mx < mx2 ∧
          ∀ (j : Nat) (g2 : Goal), j < i → l[j]? = some g2 → count g2.PlayerID < mx2) := by
  induction l generalizing name mx with
  | nil =>
    exact ⟨name, mx, rfl, le_refl _, by simp, .inl ⟨rfl, rfl⟩⟩
  | cons g rest ih =>
    have hrest : ∀ g2 ∈ rest, g2.Player.isSome = true :=
      fun g2 h2 => hp g2 (List.mem_cons_of_mem _ h2)
    by_cases hgt : count g.PlayerID > mx
    · cases hpl : g.Player with
      | none =>
        have := hp g (List.mem_cons_self _ _)
        rw [hpl] at this
        cases this
      | some p =>
        obtain ⟨name2, mx2, hrun, hle, hall, hcase⟩ := ih hrest p.Name (count g.PlayerID)
        refine ⟨name2, mx2, ?_, by omega, ?_, .inr ?_⟩
        · simp only [topScorerLoop, hgt, if_true, hpl]
          exact hrun
        · intro g2 h2
          rcases List.mem_cons.1 h2 with h3 | h3
          · rw [h3]
            exact hle
          · exact hall g2 h3
        · rcases hcase with ⟨hn, hm⟩ | ⟨i, g3, p3, hi, hp3, hn3, hc3, hlt3, hbefore⟩
          · refine ⟨0, g, p, by simp, hpl, hn, hm.symm, by omega, ?_⟩
            intro j g2 hj
            omega
          · refine ⟨i + 1, g3, p3, by simpa using hi, hp3, hn3, hc3, by omega, ?_⟩
            intro j g2 hj hget
            cases j with
            | zero =>
              simp only [List.getElem?_cons_zero, Option.some.injEq] at hget
              rw [← hget]
              exact hlt3
            | succ j2 =>
              simp only [List.getElem?_cons_succ] at hget
              exact hbefore j2 g2 (by omega) hget
    · obtain ⟨name2, mx2, hrun, hle, hall, hcase⟩ := ih hrest name mx
      refine ⟨name2, mx2, ?_, hle, ?_, ?_⟩
      · simp only [topScorerLoop, hgt, if_false]
        exact hrun
      · intro g2 h2
        rcases List.mem_cons.1 h2 with h3 | h3
        · rw [h3]
          omega
        · exact hall g2 h3
      · rcases hcase with h0 | ⟨i, g3, p3, hi, hp3, hn3, hc3, hlt3, hbefore⟩
        · exact .inl h0
        · refine .inr ⟨i + 1, g3, p3, by simpa using hi, hp3, hn3, hc3, hlt3, ?_⟩
          intro j g2 hj hget
          cases j with
          | zero =>
            simp only [List.getElem?_cons_zero, Option.some.injEq] at hget
            rw [← hget]
            omega
          | succ j2 =>
            simp only [List.getElem?_cons_succ] at hget
            exact hbefore j2 g2 (by omega) hget

theorem goalReportsLoop_ok (l : List Goal) (hp : ∀ g ∈ l, g.Player.isSome = true)
    (acc : List GoalReport) :
    ∃ reports, goalReportsLoop l acc = .ok reports ∧ (l = [] → reports = acc) := by
  induction l generalizing acc with
  | nil => exact ⟨acc, rfl, fun _ => rfl⟩
  | cons g rest ih =>
    cases hpl : g.Player with
    | none =>
      have := hp g (List.mem_cons_self _ _)
      rw [hpl] at this
      cases this
    | some p =>
      obtain ⟨reports, hrun, _⟩ :=
        ih (fun g2 h2 => hp g2 (List.mem_cons_of_mem _ h2))
          (acc ++ [{ PlayerName := p.Name, TeamID := p.TeamID, Minute := g.GoalTime }])
      refine ⟨reports, ?_, ?_⟩
      · simp only [goalReportsLoop, hpl]
        exact hrun
      · intro h
        cases h

/-- C30: when both scores of the match are set and the player of every goal is loaded,
`ToMatchReportResponse` returns a report. For an empty goal list its `TopScorer` is the empty
string and its `Goals` is empty. For a non-empty goal list its `TopScorer` is the name of the
player of a goal of the list whose player has the largest number of goals in the list among all
players, and every goal earlier in the list belongs to a player with fewer goals: among the
players tied for the maximum it is the one whose first goal comes first. -/
theorem top_scorer_of_report (d : MatchDeps) (row : Match) (goals : List Goal)
    (allPreviousMatches : List Match) (homeScore awayScore : Int)
    (hhome : row.HomeScore = some homeScore) (haway : row.AwayScore = some awayScore)
    (hplayers : ∀ goal ∈ goals, goal.Player.isSome = true) :
    ∃ report, ToMatchReportResponse d row goals allPreviousMatches = .ok report ∧
      (goals = [] → report.TopScorer = "" ∧ report.Goals = []) ∧
      (goals ≠ [] → ∃ (i : Nat) (goal : Goal) (player : Player), goals[i]? = some goal ∧ goal.Player = some player ∧
        report.TopScorer = player.Name ∧
        (∀ playerID, goalsScoredBy goals playerID ≤ goalsScoredBy goals goal.PlayerID) ∧
        (∀ (j : Nat) (other : Goal), j < i → goals[j]? = some other →
          goalsScoredBy goals other.PlayerID < goalsScoredBy goals goal.PlayerID)) := by
  obtain ⟨name2, mx2, hrun, hle, hall, hcase⟩ :=
    topScorerLoop_spec (golPerPemain goals) goals hplayers "" 0
  obtain ⟨reports, hreports, hempty⟩ := goalReportsLoop_ok goals hplayers []
  have hrep : ToMatchReportResponse d row goals allPreviousMatches =
      .ok { ID := row.ID,
            MatchDate := d.formatDate row.MatchDate,
            MatchTime := row.MatchTime,
            HomeTeam := { ID := row.HomeTeam.ID, Name := row.HomeTeam.Name },
            AwayTeam := { ID := row.AwayTeam.ID, Name := row.AwayTeam.Name },
            HomeScore := homeScore,
            AwayScore := awayScore,
            StatusResult :=
              if homeScore > awayScore then "Home Win"
              else if homeScore < awayScore then "Away Win"
              else "Draw",
            Goals := reports,
            TopScorer := name2,
            HomeTeamWinTotal := (countWins row allPreviousMatches (0, 0)).1,
            AwayTeamWinTotal := (countWins row allPreviousMatches (0, 0)).2 } := by
    simp only [ToMatchReportResponse, hhome, haway, hrun, hreports]
  refine ⟨_, hrep, ?_, ?_⟩
  · intro hnil
    subst hnil
    simp only [topScorerLoop, Except.ok.injEq, Prod.mk.injEq] at hrun
    exact ⟨hrun.1.symm, hempty rfl⟩
  · intro hne
    rcases hcase with ⟨_, hm⟩ | ⟨i, g, p, hi, hp, hn, hc, _, hbefore⟩
    · exfalso
      obtain ⟨g0, rest, hcons⟩ := List.exists_cons_of_ne_nil hne
      have hmem : g0 ∈ goals := by rw [hcons]; exact List.mem_cons_self _ _
      have h1 := hall g0 hmem
      rw [golPerPemain_eq] at h1
      have h2 := goalsScoredBy_pos_of_mem goals g0 hmem
      omega
    · rw [golPerPemain_eq] at hc
      refine ⟨i, g, p, hi, hp, hn, ?_, ?_⟩
      · intro playerID
        by_cases hex : ∃ g2 ∈ goals, g2.PlayerID = playerID
        · obtain ⟨g2, hg2, hid⟩ := hex
          have := hall g2 hg2
          rw [golPerPemain_eq, hid] at this
          omega
        · have hz : goalsScoredBy goals playerID = 0 := by
            apply goalsScoredBy_eq_zero
            intro g2 hg2 hid
            exact hex ⟨g2, hg2, hid⟩
          have := goalsScoredBy_nonneg goals g.PlayerID
          omega
      · intro j other hj hget
        have := hbefore j other hj hget
        rw [golPerPemain_eq] at this
        omega

/-! ## Matches: teams, status and report -/

/-- C27 (defect of the code): `Create` refuses a request whose two teams are equal, and it stores
the sample match with the distinct teams A and B. `Update` runs its check of the two teams on the
stored row before it applies the request: the update that names team B as home team succeeds, and
the row it writes has team B as home and as away team. From then on every `Update` of this match
is refused, the one that would restore team A included. -/
theorem update_can_store_equal_teams :
    (sampleMatches.Create (sampleMatchCall 1000 matchM1) []
        { sampleCreateRequest with AwayTeamID := teamA }) =
      ([], .error ((ErrInvalidInput (1000 * second)
        "Home team and away team cannot be the same").WithDetail "home_team_id" teamA)) ∧
    tableAfterCreate = [sampleMatch] ∧
    sampleMatch.HomeTeamID ≠ sampleMatch.AwayTeamID ∧
    (sampleMatches.Update (sampleMatchCall 2000 "-") tableAfterCreate sampleUpdateRequest).2 =
      .ok (ToMatchResponse sampleMatchDeps
        { sampleMatch with HomeTeamID := teamB, UpdatedAt := 2000 * second }) ∧
    tableAfterUpdate = [{ sampleMatch with HomeTeamID := teamB, UpdatedAt := 2000 * second }] ∧
    (∀ row ∈ tableAfterUpdate, row.HomeTeamID = row.AwayTeamID) ∧
    sampleMatches.Update (sampleMatchCall 3000 "-") tableAfterUpdate
        { sampleUpdateRequest with HomeTeamID := teamA } =
      (tableAfterUpdate, .error ((ErrInvalidInput (3000 * second)
        "Home team and away team cannot be the same").WithDetail "home_team_id" teamB)) := by
  decide

/-- C28 (defect of the code): the validator of `Create` admits the status `scheduled` and refuses
`Scheduled`, and `Create` stores the sample match with the status `scheduled`. `FinishMatch`
compares the stored status with `Scheduled`: on the created match it returns `INVALID_INPUT`
`Match is not scheduled` and leaves the table as it was. Only a row whose status is `Scheduled`,
which no request can produce, is finished. -/
theorem finish_rejects_created_scheduled_match :
    (sampleMatches.Create (sampleMatchCall 1000 matchM1) [] sampleCreateRequest).2 =
      .ok (ToMatchResponse sampleMatchDeps sampleMatch) ∧
    tableAfterCreate = [sampleMatch] ∧
    sampleMatch.Status = "scheduled" ∧
    sampleMatches.FinishMatch (sampleMatchCall 2000 "-") tableAfterCreate { ID := matchM1 } =
      (tableAfterCreate,
        .error { Code := "INVALID_INPUT", Message := "Match is not scheduled",
                 Details := [{ Field := "id", Message := matchM1 }],
                 Timestamp := 2000 * second, HTTPCode := 400 }) ∧
    statusValues.contains "Scheduled" = false ∧
    (sampleMatches.Create (sampleMatchCall 1000 matchM1) []
        { sampleCreateRequest with Status := "Scheduled" }) =
      ([], .error (ErrMultipleValidation (1000 * second)
        [{ Field := "status",
           Message := "status must be one of [scheduled completed canceled]" }])) ∧
    (sampleMatches.Update (sampleMatchCall 1500 "-") tableAfterCreate
        { sampleUpdateRequest with HomeTeamID := "", Status := "Scheduled" }) =
      (tableAfterCreate, .error (ErrMultipleValidation (1500 * second)
        [{ Field := "status",
           Message := "status must be one of [scheduled completed canceled]" }])) ∧
    sampleMatches.FinishMatch (sampleMatchCall 2000 "-")
        [{ sampleMatch with Status := "Scheduled" }] { ID := matchM1 } =
      ([{ sampleMatch with Status := "Finished", UpdatedAt := 2000 * second }],
        .ok (ToMatchResponse sampleMatchDeps
          { sampleMatch with Status := "Finished", UpdatedAt := 2000 * second })) := by
  decide

/-- C29 (defect of the code): `Create` accepts the sample request, which has no scores, and
stores a match whose scores are `nil`. On that match `ToMatchReportResponse` panics with a nil
pointer dereference, whatever the goals and the previous matches are, and so it does when only
one score is set; its loop over the previous matches does skip a match without scores. With both
scores set the status is `Home Win`, `Away Win` or `Draw` as the scores compare. -/
theorem report_panics_on_unset_score :
    (sampleMatches.Create (sampleMatchCall 1000 matchM1) [] sampleCreateRequest).2 =
      .ok (ToMatchResponse sampleMatchDeps sampleMatch) ∧
    tableAfterCreate = [sampleMatch] ∧
    sampleMatch.HomeScore = none ∧ sampleMatch.AwayScore = none ∧
    (∀ goals allPreviousMatches,
      ToMatchReportResponse sampleMatchDeps sampleMatch goals allPreviousMatches =
        .error .nilPointerDereference) ∧
    (∀ goals allPreviousMatches,
      ToMatchReportResponse sampleMatchDeps { sampleMatch with HomeScore := some 1 } goals
        allPreviousMatches = .error .nilPointerDereference) ∧
    (∀ goals allPreviousMatches,
      ToMatchReportResponse sampleMatchDeps { sampleMatch with AwayScore := some 1 } goals
        allPreviousMatches = .error .nilPointerDereference) ∧
    countWins sampleFinishedMatch [sampleMatch, sampleFinishedMatch] (0, 0) = (1, 0) ∧
    (ToMatchReportResponse sampleMatchDeps sampleFinishedMatch sampleGoals
        [sampleMatch]).map (fun report => report.StatusResult) = .ok "Home Win" ∧
    (ToMatchReportResponse sampleMatchDeps
        { sampleMatch with HomeScore := some 1, AwayScore := some 2 } []
        []).map (fun report => report.StatusResult) = .ok "Away Win" ∧
    (ToMatchReportResponse sampleMatchDeps
        { sampleMatch with HomeScore := some 1, AwayScore := some 1 } []
        []).map (fun report => report.StatusResult) = .ok "Draw" := by
  refine ⟨by decide, by decide, rfl, rfl, fun _ _ => rfl, fun _ _ => rfl, fun _ _ => rfl,
    by decide, by decide, by decide, by decide⟩

/-- Witness of C30: the sample match with the scores set and five goals, Cid scoring first and
once, Bea and Ana twice each and Bea before Ana; the top scorer is Bea. -/
theorem top_scorer_of_report_witness :
    (ToMatchReportResponse sampleMatchDeps sampleFinishedMatch sampleGoals []).map
        (fun report => report.TopScorer) = .ok "Bea" ∧
    ∃ report, ToMatchReportResponse sampleMatchDeps sampleFinishedMatch sampleGoals [] =
        .ok report ∧
      (sampleGoals = [] → report.TopScorer = "" ∧ report.Goals = []) ∧
      (sampleGoals ≠ [] → ∃ (i : Nat) (goal : Goal) (player : Player),
        sampleGoals[i]? = some goal ∧ goal.Player = some player ∧
        report.TopScorer = player.Name ∧
        (∀ playerID,
          goalsScoredBy sampleGoals playerID ≤ goalsScoredBy sampleGoals goal.PlayerID) ∧
        (∀ (j : Nat) (other : Goal), j < i → sampleGoals[j]? = some other →
          goalsScoredBy sampleGoals other.PlayerID <
            goalsScoredBy sampleGoals goal.PlayerID)) :=
  ⟨by decide,
    top_scorer_of_report sampleMatchDeps sampleFinishedMatch sampleGoals [] 3 2 rfl rfl
      (by decide)⟩

/-- C7 (as stated, refuted): a positive access lifetime and the correct password do not suffice.
With an access lifetime of one nanosecond `Login` succeeds, but the expiry claim of the access
token is the login instant cut to whole seconds, so `ValidateToken` rejects the token at the
login instant and at every later instant. And `bob`, whose stored password has five characters,
is refused by the request validator although email and password are his. -/
theorem login_token_can_be_dead_on_arrival :
    0 < tinyAccessUseCase.JwtConfig.AccessExpiry ∧
    (tinyAccessUseCase.Login (sampleCall 0 "F1") Store.empty
        { Email := "ana@club.io", Password := "correct-horse" }).2 =
      .ok (ToLoginResponse sampleUser
        (SignedString .HS256
          { ID := "u1", Role := "admin", TokenID := "F1", ExpiresAt := some 0,
            NotBefore := none, Issuer := "football-api" } "secret") "F1" 0) ∧
    (∀ t, 0 ≤ t →
      tinyAccessUseCase.ValidateToken t
        (SignedString .HS256
          { ID := "u1", Role := "admin", TokenID := "F1", ExpiresAt := some 0,
            NotBefore := none, Issuer := "football-api" } "secret") =
        .error ((ErrUnauthorized t "Invalid token").WithDetail "token" "F1")) ∧
    sampleDeps.CompareHashAndPassword "bcrypt:horse" "horse" = true ∧
    shortPasswordUseCase.Login (sampleCall 0 "F1") Store.empty
        { Email := "bob@club.io", Password := "horse" } =
      (Store.empty, .error (ErrMultipleValidation 0
        [{ Field := "password",
           Message := "password must be at least 8 characters long" }])) := by
  refine ⟨by decide, by decide, ?_, by decide, by decide⟩
  intro t ht
  have hnot : ¬ t < 0 := by omega
  simp [authUseCaseImpl.ValidateToken, ParseWithClaims, keyFunc, SignedString,
    SigningMethod.isHMAC, claimsValid, hnot, TokenString.text, tinyAccessUseCase, sampleDeps, sampleConfig]

/-- C11 (as stated, refuted): a positive lifetime does not give a round trip before the instant
mint time + lifetime. With lifetimes of one nanosecond both tokens minted at second 0 carry the
expiry claim 0 and are rejected from the mint instant on. With lifetimes of half a second both
tokens minted at 0.9 s carry the expiry claim 1 s: they are accepted at the mint instant and
rejected at 1.2 s, before mint time + lifetime. -/
theorem tiny_lifetime_breaks_round_trip :
    0 < tinyLifetimesUseCase.JwtConfig.AccessExpiry ∧
    0 < tinyLifetimesUseCase.JwtConfig.RefreshExpiry ∧
    tinyLifetimesUseCase.GenerateToken (sampleCall 0 "F1") "u1" "admin" =
      .ok (SignedString .HS256
            { ID := "u1", Role := "admin", TokenID := "F1", ExpiresAt := some 0,
              NotBefore := none, Issuer := "football-api" } "secret",
          SignedString .HS256
            { ID := "u1", Role := "admin", TokenID := "F1", ExpiresAt := some 0,
              NotBefore := none, Issuer := "football-api" } "secret",
          "F1", 0) ∧
    (∀ t, 0 ≤ t →
      ParseWithClaims "secret" t
        (SignedString .HS256
          { ID := "u1", Role := "admin", TokenID := "F1", ExpiresAt := some 0,
            NotBefore := none, Issuer := "football-api" } "secret") =
        .error (.ErrTokenInvalidClaims true false) ∧
      tinyLifetimesUseCase.ValidateToken t
        (SignedString .HS256
          { ID := "u1", Role := "admin", TokenID := "F1", ExpiresAt := some 0,
            NotBefore := none, Issuer := "football-api" } "secret") =
        .error ((ErrUnauthorized t "Invalid token").WithDetail "token" "F1")) ∧
    halfSecondUseCase.GenerateToken
        { now := 900 * millisecond, uuid := "F1", faults := Faults.none } "u1" "admin" =
      .ok (SignedString .HS256
            { ID := "u1", Role := "admin", TokenID := "F1", ExpiresAt := some (1 * second),
              NotBefore := none, Issuer := "football-api" } "secret",
          SignedString .HS256
            { ID := "u1", Role := "admin", TokenID := "F1", ExpiresAt := some (1 * second),
              NotBefore := none, Issuer := "football-api" } "secret",
          "F1", 1 * second) ∧
    halfSecondUseCase.ValidateToken (900 * millisecond)
        (SignedString .HS256
          { ID := "u1", Role := "admin", TokenID := "F1", ExpiresAt := some (1 * second),
            NotBefore := none, Issuer := "football-api" } "secret") =
      .ok { ID := "u1", Role := "admin" } ∧
    1200 * millisecond < 900 * millisecond + halfSecondUseCase.JwtConfig.AccessExpiry ∧
    halfSecondUseCase.ValidateToken (1200 * millisecond)
        (SignedString .HS256
          { ID := "u1", Role := "admin", TokenID := "F1", ExpiresAt := some (1 * second),
            NotBefore := none, Issuer := "football-api" } "secret") =
      .error ((ErrUnauthorized (1200 * millisecond) "Invalid token").WithDetail "token"
        "F1") := by
  refine ⟨by decide, by decide, by decide, ?_, by decide, by decide, by decide, by decide⟩
  intro t ht
  have hnot : ¬ t < 0 := by omega
  constructor
  · simp [ParseWithClaims, keyFunc, SignedString, SigningMethod.isHMAC, claimsValid, hnot,
      UserClaims.expired, UserClaims.notValidYet]
  · simp [authUseCaseImpl.ValidateToken, ParseWithClaims, keyFunc, SignedString,
      SigningMethod.isHMAC, claimsValid, hnot, TokenString.text, tinyLifetimesUseCase, sampleConfig,
      sampleDeps]

end FootballApi
